import Mathlib

/-!
# MedSchedule: the reschedule calendar, month navigation and the doctor filter

A shallow embedding of the parts of `static/js/app.js` that build the reschedule
calendar grid (`renderRescheduleCalendar`), move it between months
(`changeRescheduleMonth`), filter the doctor list (`filterDoctors`), validate the
booking, review and reschedule forms, toggle a favorite and render its button,
render and select the time slots, report a failed request (`fetchAPI`,
`loadDoctors`, `loadFavorites`), and write the star rating and the initials of a
doctor, and of the translation lookup `LanguageManager.t` and the language
switch `LanguageManager.setLanguage` of `static/js/translations.js`.

The JavaScript `Date` operations the code calls are embedded from their
ECMAScript definitions (`Day`, `DayFromYear`, `YearFromTime`, `MonthFromTime`,
`DateFromTime`, `WeekDay`, `MakeDay`, `MakeDate`, the `Date` constructor and
`Date.prototype.setMonth`).  A time value is an integer number of milliseconds
of local time; the shift between local time and UTC is a constant that every
operation used here applies and undoes, so it is left out.  Time values are
unbounded integers: the range limit of `TimeClip` (about 270 000 years on
either side of 1970) is outside this first model.

The section on month navigation with the time zone and the range limit embeds
`getFullYear`, `getMonth`, `getDate`, `setMonth` and `changeRescheduleMonth`
once more in the namespace `Zoned`, with the operations `LocalTime` and `UTC`
of an arbitrary time zone and with `TimeClip`, so that a step of any size and a
local time that the clocks skip are inside the model.  The first model is the
part of it that works on the local time value.
-/

namespace MedSchedule

/-! ## ECMAScript date arithmetic -/

/-- Milliseconds in a day (`msPerDay`). -/
def msPerDay : Int := 86400000

/-- Day number of a time value: `Day(t) = floor(t / msPerDay)`. -/
def day (t : Int) : Int := t / msPerDay

/-- Milliseconds since midnight: `TimeWithinDay(t) = t modulo msPerDay`. -/
def timeWithinDay (t : Int) : Int := t % msPerDay

/-- Day number of 1 January of year `y`: `DayFromYear(y)`. -/
def dayFromYear (y : Int) : Int :=
  365 * (y - 1970) + (y - 1969) / 4 - (y - 1901) / 100 + (y - 1601) / 400

/-- Number of days of year `y`: `DaysInYear(y)`. -/
def daysInYear (y : Int) : Int :=
  if y % 4 ≠ 0 then 365
  else if y % 100 ≠ 0 then 366
  else if y % 400 ≠ 0 then 365
  else 366

/-- Leap-year flag of year `y` as the number 0 or 1: `InLeapYear`. -/
def inLeapYear (y : Int) : Int := if daysInYear y = 366 then 1 else 0

/-- The year a day number falls in: the largest `y` with `DayFromYear(y) ≤ d`
(`YearFromTime`).  The estimate from the mean year length is off by at most one;
`yearFromDay_lower` and `yearFromDay_upper` show the result is that largest year. -/
def yearFromDay (d : Int) : Int :=
  let e := 1970 + (400 * d) / 146097
  if dayFromYear (e + 1) ≤ d then e + 1
  else if dayFromYear e ≤ d then e
  else e - 1

/-- Day of the year, counted from 0: `DayWithinYear`. -/
def dayWithinYear (d : Int) : Int := d - dayFromYear (yearFromDay d)

/-- The month table of `MonthFromTime`, on the day within the year `w` and the
leap-year flag `l`. -/
def monthOfYearDay (w l : Int) : Int :=
  if w < 31 then 0
  else if w < 59 + l then 1
  else if w < 90 + l then 2
  else if w < 120 + l then 3
  else if w < 151 + l then 4
  else if w < 181 + l then 5
  else if w < 212 + l then 6
  else if w < 243 + l then 7
  else if w < 273 + l then 8
  else if w < 304 + l then 9
  else if w < 334 + l then 10
  else 11

/-- The day-of-month table of `DateFromTime`, on the month `m`, the day within
the year `w` and the leap-year flag `l`. -/
def dateOfYearDay (m w l : Int) : Int :=
  if m = 0 then w + 1
  else if m = 1 then w - 30
  else if m = 2 then w - 58 - l
  else if m = 3 then w - 89 - l
  else if m = 4 then w - 119 - l
  else if m = 5 then w - 150 - l
  else if m = 6 then w - 180 - l
  else if m = 7 then w - 211 - l
  else if m = 8 then w - 242 - l
  else if m = 9 then w - 272 - l
  else if m = 10 then w - 303 - l
  else w - 333 - l

/-- Month of a day number, 0 = January: `MonthFromTime`. -/
def monthFromDay (d : Int) : Int :=
  monthOfYearDay (dayWithinYear d) (inLeapYear (yearFromDay d))

/-- Day of the month of a day number, 1-based: `DateFromTime`. -/
def dateFromDay (d : Int) : Int :=
  dateOfYearDay (monthFromDay d) (dayWithinYear d) (inLeapYear (yearFromDay d))

/-- Weekday of a day number, 0 = Sunday: `WeekDay(t) = (Day(t) + 4) modulo 7`. -/
def weekDay (d : Int) : Int := (d + 4) % 7

/-- Days of a year with leap-year flag `l` that lie before the first of month
`m` (0 = January). -/
def daysBeforeMonthOf (l m : Int) : Int :=
  if m = 0 then 0
  else if m = 1 then 31
  else if m = 2 then 59 + l
  else if m = 3 then 90 + l
  else if m = 4 then 120 + l
  else if m = 5 then 151 + l
  else if m = 6 then 181 + l
  else if m = 7 then 212 + l
  else if m = 8 then 243 + l
  else if m = 9 then 273 + l
  else if m = 10 then 304 + l
  else 334 + l

/-- Days of year `y` that lie before the first of month `m` (0 = January). -/
def daysBeforeMonth (y m : Int) : Int := daysBeforeMonthOf (inLeapYear y) m

/-- The operation `MakeDay(year, month, date)`: the month is normalised into the
year (`ym = year + floor(month / 12)`, `mn = month modulo 12`), the day number
of the first of that month is found, and `date - 1` is added without any range
check, so a date past the end of the month runs on into the next one. -/
def makeDay (year month date : Int) : Int :=
  let ym := year + month / 12
  let mn := month % 12
  dayFromYear ym + daysBeforeMonth ym mn + date - 1

/-- The operation `MakeDate(day, time) = day * msPerDay + time`. -/
def makeDate (d time : Int) : Int := d * msPerDay + time

/-- The operation `MakeFullYear(year)` of the `Date` constructor: a year from 0
to 99 stands for 1900 + year. -/
def makeFullYear (year : Int) : Int :=
  if 0 ≤ year ∧ year ≤ 99 then 1900 + year else year

/-- The constructor `new Date(year, month, date)`, with the time of day at
midnight. -/
def newDate (year month date : Int) : Int :=
  makeDate (makeDay (makeFullYear year) month date) 0

/-- The method `getFullYear()`. -/
def getFullYear (t : Int) : Int := yearFromDay (day t)

/-- The method `getMonth()`, 0 = January. -/
def getMonth (t : Int) : Int := monthFromDay (day t)

/-- The method `getDate()`, the day of the month. -/
def getDate (t : Int) : Int := dateFromDay (day t)

/-- The method `getDay()`, the weekday with 0 = Sunday. -/
def getDay (t : Int) : Int := weekDay (day t)

/-- The method `setMonth(month)`, on a local time value: the year, the day of
the month and the time of day of `t` are kept and handed to `MakeDay` with the
new month.  `Zoned.setMonth` puts `LocalTime`, `UTC` and `TimeClip` around
it. -/
def setMonth (t month : Int) : Int :=
  makeDate (makeDay (yearFromDay (day t)) month (dateFromDay (day t))) (timeWithinDay t)

/-- The call `setHours(0, 0, 0, 0)`: midnight of the same day. -/
def setHoursZero (t : Int) : Int := makeDate (day t) 0

/-! ## Application state -/

/-- A doctor record of `AppState.doctors`, with the fields the filter and the
favorite button read; `is_favorite` is the truthiness of the field the backend
sends with the doctor list. -/
structure Doctor where
  id : Int
  full_name : String
  specialty : String
  specialty_id : Int
  is_favorite : Bool
  deriving DecidableEq, Repr

/-- The fields of the global `AppState` that the embedded functions read or
write.  A date is its time value; `none` is the JavaScript `null`; the set
`favorites` is the list of its elements in insertion order. -/
structure AppState where
  doctors : List Doctor := []
  currentAppointmentId : Option Int := none
  rescheduleCalendarDate : Int
  selectedRescheduleDate : Option String := none
  selectedRescheduleTime : Option String := none
  currentDoctorId : Option Int := none
  currentPatientEmail : Option String := none
  currentReviewAppointmentId : Option Int := none
  favorites : List Int := []
  selectedTime : Option String := none
  selectedAppointmentType : String := "in-person"
  selectedDate : Option String := none
  deriving DecidableEq, Repr

/-! ## The reschedule calendar grid -/

/-- One `div` appended to the calendar markup by `renderRescheduleCalendar`:
a weekday header, a padding cell of the neighbouring month (showing `n`), or a
cell of the displayed month (day `i`, its date string and its three flags). -/
inductive Cell where
  | header (text : String)
  | otherMonth (n : Int)
  | day (i : Int) (dateStr : String) (isPast isSelected isToday : Bool)
  deriving DecidableEq, Repr

/-- The call `s.padStart(2, "0")`. -/
def padStart2 (s : String) : String :=
  if s.length < 2 then "".pushn '0' (2 - s.length) ++ s else s

/-- The date string of a cell:
the year, then the month plus one and the day, each padded to two digits. -/
def dateStr (year month i : Int) : String :=
  toString year ++ "-" ++ padStart2 (toString (month + 1)) ++ "-" ++ padStart2 (toString i)

/-- The seven weekday header cells; `t` is the translation lookup `window.t`. -/
def dayHeaders (t : String → String) : List Cell :=
  ["sun", "mon", "tue", "wed", "thu", "fri", "sat"].map
    fun d => Cell.header (t ("day.short." ++ d))

/-- The loop over the previous month: `i` runs from `firstDay - 1` down to 0 and
the cell shows `prevMonthDays - i`. -/
def prevMonthCells (firstDay prevMonthDays : Int) : List Cell :=
  (List.range firstDay.toNat).reverse.map
    fun (i : Nat) => Cell.otherMonth (prevMonthDays - (i : Int))

/-- The cell of day `i` of the displayed month. -/
def dayCell (year month today : Int) (selected : Option String) (i : Int) : Cell :=
  let currentDayDate := newDate year month i
  let ds := dateStr year month i
  let isPast := decide (currentDayDate < today)
  let isSelected := decide (selected = some ds)
  let isToday := decide (currentDayDate = today)
  Cell.day i ds isPast isSelected isToday

/-- The loop over the displayed month: `i` runs from 1 to `daysInMonth`. -/
def currentMonthCells (year month daysInMonth today : Int) (selected : Option String) :
    List Cell :=
  (List.range daysInMonth.toNat).map
    fun (k : Nat) => dayCell year month today selected ((k : Int) + 1)

/-- The loop over the next month: `i` runs from 1 to `nextMonthPadding`. -/
def nextMonthCells (nextMonthPadding : Int) : List Cell :=
  (List.range nextMonthPadding.toNat).map fun (k : Nat) => Cell.otherMonth ((k : Int) + 1)

/-- The constant `firstDay` of `renderRescheduleCalendar`. -/
def firstDay (year month : Int) : Int := getDay (newDate year month 1)

/-- The constant `daysInMonth` of `renderRescheduleCalendar`. -/
def daysInMonth (year month : Int) : Int := getDate (newDate year (month + 1) 0)

/-- The constant `prevMonthDays` of `renderRescheduleCalendar`. -/
def prevMonthDays (year month : Int) : Int := getDate (newDate year month 0)

/-- The constant `nextMonthPadding` of `renderRescheduleCalendar`. -/
def nextMonthPadding (year month : Int) : Int :=
  let cellsSoFar := firstDay year month + daysInMonth year month
  42 - cellsSoFar

/-- The day cells `renderRescheduleCalendar` appends after the headers, for the
displayed `year` and `month`, with `today` the midnight of the current day. -/
def calendarCells (year month today : Int) (selected : Option String) : List Cell :=
  prevMonthCells (firstDay year month) (prevMonthDays year month)
    ++ currentMonthCells year month (daysInMonth year month) today selected
    ++ nextMonthCells (nextMonthPadding year month)

/-- The function `renderRescheduleCalendar`, as the list of cells it writes into
the grid container (both page elements it looks up are taken to exist).  `now`
is the time value `new Date()` returns when the function runs. -/
def renderRescheduleCalendar (t : String → String) (s : AppState) (now : Int) : List Cell :=
  let date := s.rescheduleCalendarDate
  let year := getFullYear date
  let month := getMonth date
  let today := setHoursZero now
  dayHeaders t ++ calendarCells year month today s.selectedRescheduleDate

/-- Whether a cell is a cell of the displayed month, written by the middle
loop. -/
def Cell.isDay : Cell → Bool
  | .day _ _ _ _ _ => true
  | _ => false

/-- Whether the markup of a cell carries the class `other-month`. -/
def Cell.isOtherMonth : Cell → Bool
  | .header _ => false
  | .otherMonth _ => true
  | .day _ _ isPast _ _ => isPast

/-- The flag `isPast` a cell of the displayed month was built with. -/
def Cell.isPast : Cell → Bool
  | .day _ _ isPast _ _ => isPast
  | _ => false

/-- Whether the markup of a cell carries the class `selected`. -/
def Cell.isSelected : Cell → Bool
  | .day _ _ _ isSelected _ => isSelected
  | _ => false

/-- Whether the markup of a cell carries the class `today`. -/
def Cell.isToday : Cell → Bool
  | .day _ _ _ _ isToday => isToday
  | _ => false

/-- The `onclick` attribute of a cell; `none` when the markup has no such
attribute (headers and padding cells). -/
def Cell.onclick : Cell → Option String
  | .day _ ds isPast _ _ =>
      some (if isPast then "" else "selectRescheduleDate(\x27" ++ ds ++ "\x27)")
  | _ => none

/-- The number a cell shows. -/
def Cell.number : Cell → Option Int
  | .header _ => none
  | .otherMonth n => some n
  | .day i _ _ _ _ => some i

/-- The markup of a cell, as the template literals of `renderRescheduleCalendar`
build it. -/
def Cell.html : Cell → String
  | .header text => "<div class=\"calendar-day-header\">" ++ text ++ "</div>"
  | .otherMonth n => "<div class=\"calendar-day other-month\">" ++ toString n ++ "</div>"
  | .day i ds isPast isSelected isToday =>
      "\n      <div class=\"calendar-day " ++ (if isPast then "other-month" else "") ++ " "
        ++ (if isSelected then "selected" else "") ++ " "
        ++ (if isToday then "today" else "") ++ "\" \n           onclick=\""
        ++ (if isPast then "" else "selectRescheduleDate(\x27" ++ ds ++ "\x27)")
        ++ "\"\n           style=\""
        ++ (if isPast then "cursor: not-allowed; opacity: 0.5;" else "")
        ++ "\">\n        " ++ toString i ++ "\n      </div>\n    "

/-- The number of cells in front of the first cell of the displayed month. -/
def leadingPadding (cells : List Cell) : Nat :=
  (cells.takeWhile fun c => !c.isDay).length

/-! ## Month navigation -/

/-- The function `changeRescheduleMonth`: the calendar date is moved with
`setMonth(getMonth() + delta)` (the calendar is then rendered again). -/
def changeRescheduleMonth (s : AppState) (delta : Int) : AppState :=
  let date := s.rescheduleCalendarDate
  { s with rescheduleCalendarDate := setMonth date (getMonth date + delta) }

/-- The state writes at the start of `openRescheduleModal`; `now` is the time
value of `new Date()`. -/
def openRescheduleModal (s : AppState) (appointmentId : Int) (now : Int) : AppState :=
  { s with
    currentAppointmentId := some appointmentId
    selectedRescheduleDate := none
    selectedRescheduleTime := none
    rescheduleCalendarDate := now }

/-- The state writes of `selectRescheduleDate`. -/
def selectRescheduleDate (s : AppState) (ds : String) : AppState :=
  { s with selectedRescheduleDate := some ds, selectedRescheduleTime := none }

/-- The pair (year, month) the calendar shows for a state. -/
def displayed (s : AppState) : Int × Int :=
  (getFullYear s.rescheduleCalendarDate, getMonth s.rescheduleCalendarDate)

/-- Repeated calls of `changeRescheduleMonth` with the same `delta`. -/
def changeRescheduleMonthTimes (delta : Int) : Nat → AppState → AppState
  | 0, s => s
  | n + 1, s => changeRescheduleMonthTimes delta n (changeRescheduleMonth s delta)

/-! ## Month navigation with the time zone and the range limit -/

/-- The time zone of the page, by the two operations of ECMAScript that the
`Date` methods go through: `LocalTime`, from a time value to local time, and
`UTC`, from local time back to a time value. -/
structure TimeZone where
  localTime : Int → Int
  utc : Int → Int

/-- The zone whose local time is ahead of UTC by a fixed number of
milliseconds. -/
def fixedOffset (offset : Int) : TimeZone :=
  { localTime := fun t => t + offset, utc := fun t => t - offset }

/-- The operation `TimeClip`: beyond 8.64e15 milliseconds on either side of 1970
there is no time value; `none` stands for NaN, the value of an Invalid Date. -/
def timeClip (time : Int) : Option Int :=
  if time.natAbs > 8640000000000000 then none else some time

/-- The method `getFullYear()` of a date with the time value `tv`:
`YearFromTime(LocalTime(t))`, NaN for an Invalid Date. -/
def Zoned.getFullYear (z : TimeZone) (tv : Option Int) : Option Int :=
  tv.map fun t => yearFromDay (day (z.localTime t))

/-- The method `getMonth()`: `MonthFromTime(LocalTime(t))`, NaN for an Invalid
Date. -/
def Zoned.getMonth (z : TimeZone) (tv : Option Int) : Option Int :=
  tv.map fun t => monthFromDay (day (z.localTime t))

/-- The method `getDate()`: `DateFromTime(LocalTime(t))`, NaN for an Invalid
Date. -/
def Zoned.getDate (z : TimeZone) (tv : Option Int) : Option Int :=
  tv.map fun t => dateFromDay (day (z.localTime t))

/-- The method `setMonth(month)` of a date with the time value `tv`, as the
new time value: NaN when the time value or the month is NaN; otherwise the year,
the day of the month and the time of day of the local time are handed to
`MakeDay` and `MakeDate` with the new month, and the result goes through `UTC`
and `TimeClip`. -/
def Zoned.setMonth (z : TimeZone) (tv : Option Int) (month : Option Int) : Option Int :=
  match tv, month with
  | some t, some m =>
    let t := z.localTime t
    let dt := dateFromDay (day t)
    let newDate := makeDate (makeDay (yearFromDay (day t)) m dt) (timeWithinDay t)
    timeClip (z.utc newDate)
  | _, _ => none

/-- The function `changeRescheduleMonth` on the date object
`AppState.rescheduleCalendarDate`, given by its time value:
`date.setMonth(date.getMonth() + delta)`. -/
def Zoned.changeRescheduleMonth (z : TimeZone) (date : Option Int) (delta : Int) :
    Option Int :=
  Zoned.setMonth z date ((Zoned.getMonth z date).map fun month => month + delta)

/-- The pair (year, month) that `renderRescheduleCalendar` reads from the date;
`none` when the date is an Invalid Date. -/
def Zoned.displayed (z : TimeZone) (date : Option Int) : Option (Int × Int) :=
  match Zoned.getFullYear z date, Zoned.getMonth z date with
  | some year, some month => some (year, month)
  | _, _ => none

/-- The constructor `new Date(year, month, date)` with the zone and the range
limit: the local midnight of the day goes through `UTC` and `TimeClip`. -/
def Zoned.newDate (z : TimeZone) (year month date : Int) : Option Int :=
  timeClip (z.utc (makeDate (makeDay (makeFullYear year) month date) 0))

/-- The call `setHours(0, 0, 0, 0)` on a date with the time value `tv`: the local
midnight of its local day, through `UTC` and `TimeClip`. -/
def Zoned.setHoursZero (z : TimeZone) (tv : Option Int) : Option Int :=
  match tv with
  | some t => timeClip (z.utc (makeDate (day (z.localTime t)) 0))
  | none => none

/-- The comparison `a < b` of two dates: false when one of them is an Invalid
Date. -/
def Zoned.dateLt (a b : Option Int) : Bool :=
  match a, b with
  | some x, some y => decide (x < y)
  | _, _ => false

/-- The comparison `a.getTime() === b.getTime()`: false when one of the dates is
an Invalid Date. -/
def Zoned.sameTime (a b : Option Int) : Bool :=
  match a, b with
  | some x, some y => decide (x = y)
  | _, _ => false

/-- The cell that the middle loop of `renderRescheduleCalendar` writes for the
day `i`, with the zone and the range limit; `now` is the time value of
`new Date()`. -/
def Zoned.dayCell (z : TimeZone) (year month now : Int) (selected : Option String)
    (i : Int) : Cell :=
  let today := Zoned.setHoursZero z (some now)
  let currentDayDate := Zoned.newDate z year month i
  let ds := dateStr year month i
  let isPast := Zoned.dateLt currentDayDate today
  let isSelected := decide (selected = some ds)
  let isToday := Zoned.sameTime currentDayDate today
  Cell.day i ds isPast isSelected isToday

/-- The local time that `setMonth(month)` aims at from the time value `t`. -/
def Zoned.monthTarget (z : TimeZone) (t month : Int) : Int :=
  let lt := z.localTime t
  makeDate (makeDay (yearFromDay (day lt)) month (dateFromDay (day lt))) (timeWithinDay lt)

/-- The local time `lt` is reached: `UTC` gives a moment within the range of
`TimeClip`, and the local time of that moment is `lt` (it is not inside an hour
that the clocks of the zone skip). -/
def Zoned.lands (z : TimeZone) (lt : Int) : Prop :=
  timeClip (z.utc lt) = some (z.utc lt) ∧ z.localTime (z.utc lt) = lt

instance (z : TimeZone) (lt : Int) : Decidable (Zoned.lands z lt) := by
  unfold Zoned.lands
  infer_instance

/-! ## The doctor filter -/

/-- The characters `String.prototype.trim` strips: the white space and line
terminator code points of ECMAScript. -/
def isJsWhiteSpace (c : Char) : Bool :=
  let n := c.toNat
  n = 0x09 ∨ n = 0x0A ∨ n = 0x0B ∨ n = 0x0C ∨ n = 0x0D ∨ n = 0x20 ∨ n = 0xA0 ∨ n = 0x1680
    ∨ (0x2000 ≤ n ∧ n ≤ 0x200A) ∨ n = 0x2028 ∨ n = 0x2029 ∨ n = 0x202F ∨ n = 0x205F
    ∨ n = 0x3000 ∨ n = 0xFEFF

/-- The method `trim()`: white space is removed from both ends. -/
def jsTrim (s : String) : String :=
  ⟨((s.data.dropWhile isJsWhiteSpace).reverse.dropWhile isJsWhiteSpace).reverse⟩

/-- The value of a character as a digit, for radix up to 36. -/
def digitValue (c : Char) : Option Nat :=
  if c.isDigit then some (c.toNat - 48)
  else if c.isLower then some (c.toNat - 97 + 10)
  else if c.isUpper then some (c.toNat - 65 + 10)
  else none

/-- The digits of radix `r` at the front of a character list, as their values. -/
def leadingDigits (r : Nat) : List Char → List Nat
  | [] => []
  | c :: cs =>
    match digitValue c with
    | some v => if v < r then v :: leadingDigits r cs else []
    | none => []

/-- The function `parseInt(string)` without a radix: leading white space is
skipped, a sign is read, a prefix `0x` or `0X` selects radix 16, and the longest
run of digits is the value; `none` is `NaN` (no digit at all). -/
def parseInt (s : String) : Option Int :=
  let cs := s.data.dropWhile isJsWhiteSpace
  let (sign, cs) : Int × List Char :=
    match cs with
    | '-' :: rest => (-1, rest)
    | '+' :: rest => (1, rest)
    | _ => (1, cs)
  let (r, cs) : Nat × List Char :=
    match cs with
    | '0' :: 'x' :: rest => (16, rest)
    | '0' :: 'X' :: rest => (16, rest)
    | _ => (10, cs)
  match leadingDigits r cs with
  | [] => none
  | ds => some (sign * (ds.foldl (fun acc v => acc * r + v) 0 : Nat))

/-- The method `a.includes(b)`: `b` occurs in `a` as a contiguous run. -/
def jsIncludes (a b : String) : Bool := decide (b.data <:+: a.data)

/-- What `renderDoctors` writes into the doctors grid: the empty state for an
empty list, otherwise one card per doctor, in the order of the list. -/
inductive DoctorsGrid where
  | emptyState
  | cards (doctors : List Doctor)
  deriving DecidableEq, Repr

/-- The function `renderDoctors`. -/
def renderDoctors (doctors : List Doctor) : DoctorsGrid :=
  if doctors.length = 0 then DoctorsGrid.emptyState else DoctorsGrid.cards doctors

/-- The list `filtered` that `filterDoctors` hands to `renderDoctors`;
`toLowerCase` is the method `String.prototype.toLowerCase`. -/
def filteredDoctors (toLowerCase : String → String) (s : AppState)
    (specialtyId searchTerm : String) : List Doctor :=
  let filtered := s.doctors
  let filtered :=
    if specialtyId ≠ "" then
      filtered.filter fun d => decide (some d.specialty_id = parseInt specialtyId)
    else filtered
  let filtered :=
    if jsTrim searchTerm ≠ "" then
      let term := toLowerCase searchTerm
      filtered.filter fun d =>
        jsIncludes (toLowerCase d.full_name) term || jsIncludes (toLowerCase d.specialty) term
    else filtered
  filtered

/-- The function `filterDoctors`, as what it puts on the page. -/
def filterDoctors (toLowerCase : String → String) (s : AppState)
    (specialtyId searchTerm : String) : DoctorsGrid :=
  renderDoctors (filteredDoctors toLowerCase s specialtyId searchTerm)

/-! ## The Gregorian calendar, stated independently of the day-number arithmetic -/

/-- Leap years of the Gregorian calendar: divisible by 4, and by 400 when
divisible by 100. -/
def isLeapYear (y : Int) : Bool := y % 4 = 0 ∧ (y % 100 ≠ 0 ∨ y % 400 = 0)

/-- Length of month `m` (0 = January) of year `y` in the Gregorian calendar. -/
def gregorianMonthLength (y m : Int) : Int :=
  if m = 1 then (if isLeapYear y then 29 else 28)
  else if m = 3 ∨ m = 5 ∨ m = 8 ∨ m = 10 then 30
  else 31

/-- The month offsets of the weekday congruence (0 = January). -/
def monthOffset (m : Int) : Int :=
  if m = 0 then 0 else if m = 1 then 3 else if m = 2 then 2 else if m = 3 then 5
  else if m = 4 then 0 else if m = 5 then 3 else if m = 6 then 5 else if m = 7 then 1
  else if m = 8 then 4 else if m = 9 then 6 else if m = 10 then 2 else 4

/-- Weekday (0 = Sunday) of day `d` of month `m` (0 = January) of year `y` in
the Gregorian calendar, by the month-offset congruence: January and February
count with the preceding year. -/
def gregorianWeekday (y m d : Int) : Int :=
  let c := if m < 2 then y - 1 else y
  (c + c / 4 - c / 100 + c / 400 + monthOffset m + d) % 7

/-- The calendar date `(y1, m1, d1)` lies before the date `(y2, m2, d2)`: the
years are compared, then the months, then the days. -/
def dateBefore (y1 m1 d1 y2 m2 d2 : Int) : Prop :=
  y1 < y2 ∨ (y1 = y2 ∧ (m1 < m2 ∨ (m1 = m2 ∧ d1 < d2)))

instance (y1 m1 d1 y2 m2 d2 : Int) : Decidable (dateBefore y1 m1 d1 y2 m2 d2) := by
  unfold dateBefore
  infer_instance

/-! ## Translation lookup (`translations.js`) -/

/-- The English table `translations.en`, with its entries in source order. -/
def translationsEn : List (String × String) :=
  [("nav.home", "Home"),
   ("nav.doctors", "Find Doctors"),
   ("nav.appointments", "My Appointments"),
   ("nav.signin", "Sign In"),
   ("hero.badge", "Trusted by 10,000+ patients"),
   ("hero.title", "Book Your Doctor Appointment"),
   ("hero.title.highlight", "With Ease"),
   ("hero.dev", "This is a demo application"),
   ("hero.description", "Find the best doctors, schedule appointments, and manage your healthcare journey all in one place. Experience seamless healthcare booking with verified professionals."),
   ("hero.stats.specialists", "Specialists"),
   ("hero.stats.patients", "Patients"),
   ("hero.stats.rating", "Rating"),
   ("hero.cta.book", "Book Appointment"),
   ("hero.cta.learn", "Learn More"),
   ("hero.trust.hipaa", "HIPAA Compliant"),
   ("hero.trust.verified", "Verified Doctors"),
   ("hero.trust.secure", "Secure Platform"),
   ("hero.preview.available", "Available Today"),
   ("hero.preview.book", "Book Now"),
   ("testimonials.tag", "Testimonials"),
   ("testimonials.title", "What Our Patients Say"),
   ("testimonials.subtitle", "Real experiences from patients who have trusted us with their healthcare needs"),
   ("testimonials.1.text", "MedSchedule made booking my appointment so easy! The interface is intuitive and I found the perfect specialist within minutes."),
   ("testimonials.2.text", "As a busy professional, I appreciate the 24/7 booking feature. The reminder system is a lifesaver!"),
   ("testimonials.3.text", "The video consultation option is fantastic. I could speak with my doctor from the comfort of my home."),
   ("testimonials.patient.role", "Patient since"),
   ("doctors.tag", "Our Doctors"),
   ("doctors.title", "Find Your Specialist"),
   ("doctors.subtitle", "Browse through our network of experienced healthcare professionals and book your appointment today"),
   ("doctors.filter.specialty", "Specialty"),
   ("doctors.filter.all", "All Specialties"),
   ("doctors.search.label", "Search"),
   ("doctors.search.placeholder", "Search doctors..."),
   ("doctors.empty.title", "No doctors found"),
   ("doctors.empty.desc", "Try adjusting your filters or search terms"),
   ("doctors.error.title", "Failed to load doctors"),
   ("doctors.error.desc", "Please refresh the page to try again"),
   ("doctor.wait", "min wait"),
   ("doctor.experience", "years"),
   ("doctor.book", "Book Now"),
   ("doctor.profile", "View Profile"),
   ("doctor.reviews", "reviews"),
   ("doctor.no_bio", "No bio available"),
   ("appointments.tag", "Your Health"),
   ("appointments.title", "My Appointments"),
   ("appointments.subtitle", "View and manage your upcoming and past appointments"),
   ("login.title", "Access Your Appointments"),
   ("login.subtitle", "Enter your email to view your appointment history and manage bookings"),
   ("login.email.label", "Email Address"),
   ("login.email.placeholder", "your@email.com"),
   ("login.btn", "View Appointments"),
   ("login.welcome", "Welcome back,"),
   ("login.signout", "Sign Out"),
   ("appointments.upcoming", "Upcoming Appointment"),
   ("appointments.upcoming_desc", "You have an appointment in less than 24 hours"),
   ("appointments.empty.title", "No appointments yet"),
   ("appointments.empty.desc", "Book your first appointment to get started"),
   ("appointments.status.scheduled", "Scheduled"),
   ("appointments.status.completed", "Completed"),
   ("appointments.status.cancelled", "Cancelled"),
   ("appointments.status.rescheduled", "Rescheduled"),
   ("appointments.action.reschedule", "Reschedule"),
   ("appointments.action.cancel", "Cancel"),
   ("appointments.action.review", "Leave Review"),
   ("footer.tagline", "Your trusted partner for seamless healthcare appointments. Connecting patients with verified healthcare professionals since 2023."),
   ("footer.quicklinks", "Quick Links"),
   ("footer.contact", "Contact Us"),
   ("footer.newsletter", "Stay Updated"),
   ("footer.newsletter.desc", "Subscribe to our newsletter for health tips and updates."),
   ("footer.newsletter.placeholder", "Enter your email"),
   ("footer.subscribe", "Subscribe"),
   ("footer.rights", "MedSchedule. All rights reserved."),
   ("footer.privacy", "Privacy Policy"),
   ("footer.terms", "Terms of Service"),
   ("footer.cookie", "Cookie Policy"),
   ("modal.booking.title", "Book Appointment"),
   ("modal.type.inperson", "In-Person"),
   ("modal.type.inperson.desc", "Clinic visit"),
   ("modal.type.video", "Video Call"),
   ("modal.type.video.desc", "Online consultation"),
   ("modal.type.phone", "Phone"),
   ("modal.type.phone.desc", "Voice call"),
   ("modal.form.fname", "First Name"),
   ("modal.form.lname", "Last Name"),
   ("modal.form.email", "Email"),
   ("modal.form.phone", "Phone Number"),
   ("modal.form.date", "Date"),
   ("modal.form.time", "Time"),
   ("modal.form.reason", "Reason for Visit"),
   ("modal.form.reason.placeholder", "Briefly describe your symptoms or reason for visit..."),
   ("modal.btn.confirm", "Confirm Booking"),
   ("modal.preview.title", "Booking Confirmation Preview"),
   ("modal.preview.desc", "A confirmation email will be sent to your inbox"),
   ("modal.reschedule.title", "Reschedule Appointment"),
   ("modal.reschedule.confirm", "Confirm Reschedule"),
   ("modal.review.title", "Write a Review"),
   ("modal.review.rating", "Rating"),
   ("modal.review.comment", "Comment"),
   ("modal.review.submit", "Submit Review"),
   ("toast.theme.switched", "Switched to \x7btheme\x7d mode"),
   ("toast.favorite.added", "Added to favorites"),
   ("toast.favorite.removed", "Removed from favorites"),
   ("toast.load.error", "Failed to load \x7bitem\x7d"),
   ("toast.booking.success", "Appointment booked successfully!"),
   ("toast.cancel.success", "Appointment cancelled successfully"),
   ("toast.reschedule.success", "Appointment rescheduled successfully!"),
   ("toast.review.success", "Review submitted successfully!"),
   ("modal.cancel.confirm", "Are you sure you want to cancel this appointment?"),
   ("appointments.upcoming_desc_doctor", "You have an appointment with \x7bdoctor\x7d in"),
   ("minutes", "minutes"),
   ("hours", "hours"),
   ("day.monday", "Monday"),
   ("day.tuesday", "Tuesday"),
   ("day.wednesday", "Wednesday"),
   ("day.thursday", "Thursday"),
   ("day.friday", "Friday"),
   ("day.saturday", "Saturday"),
   ("day.sunday", "Sunday"),
   ("day.short.sun", "Sun"),
   ("day.short.mon", "Mon"),
   ("day.short.tue", "Tue"),
   ("day.short.wed", "Wed"),
   ("day.short.thu", "Thu"),
   ("day.short.fri", "Fri"),
   ("day.short.sat", "Sat"),
   ("month.january", "January"),
   ("month.february", "February"),
   ("month.march", "March"),
   ("month.april", "April"),
   ("month.may", "May"),
   ("month.june", "June"),
   ("month.july", "July"),
   ("month.august", "August"),
   ("month.september", "September"),
   ("month.october", "October"),
   ("month.november", "November"),
   ("month.december", "December"),
   ("modal.review.comment.placeholder", "Share your experience with this doctor..."),
   ("detail.about", "About"),
   ("detail.experience", "Experience"),
   ("detail.wait", "Wait Time"),
   ("detail.phone", "Phone"),
   ("detail.availability", "Availability"),
   ("detail.reviews", "Patient Reviews"),
   ("detail.reviews.empty", "No reviews yet."),
   ("detail.unavailable", "Not Available")]

/-- The Romanian table `translations.ro`, with its entries in source order. -/
def translationsRo : List (String × String) :=
  [("nav.home", "Acasă"),
   ("nav.doctors", "Caută Doctori"),
   ("nav.appointments", "Programările Mele"),
   ("nav.signin", "Autentificare"),
   ("hero.badge", "De încredere pentru 10.000+ pacienți"),
   ("hero.title", "Programează-te la Doctor"),
   ("hero.title.highlight", "Cu Ușurință"),
   ("hero.dev", "Aceasta este o aplicație demo"),
   ("hero.description", "Găsește cei mai buni doctori, programează consultații și gestionează-ți sănătatea într-un singur loc. Experimentează programări medicale fără efort cu profesioniști verificați."),
   ("hero.stats.specialists", "Specialiști"),
   ("hero.stats.patients", "Pacienți"),
   ("hero.stats.rating", "Rating"),
   ("hero.cta.book", "Fă o Programare"),
   ("hero.cta.learn", "Află Mai Multe"),
   ("hero.trust.hipaa", "Conform HIPAA"),
   ("hero.trust.verified", "Doctori Verificați"),
   ("hero.trust.secure", "Platformă Sigură"),
   ("hero.preview.available", "Disponibil Azi"),
   ("hero.preview.book", "Rezervă"),
   ("testimonials.tag", "Testimoniale"),
   ("testimonials.title", "Ce Spun Pacienții Noștri"),
   ("testimonials.subtitle", "Experiențe reale de la pacienți care ne-au încredințat nevoile lor medicale"),
   ("testimonials.1.text", "MedSchedule a făcut programarea atât de ușoară! Interfața este intuitivă și am găsit specialistul perfect în câteva minute."),
   ("testimonials.2.text", "Ca profesionist ocupat, apreciez funcția de rezervare 24/7. Sistemul de reamintire este salvator!"),
   ("testimonials.3.text", "Opțiunea de consultație video este fantastică. Am putut vorbi cu doctorul meu din confortul casei."),
   ("testimonials.patient.role", "Pacient din"),
   ("doctors.tag", "Doctorii Noștri"),
   ("doctors.title", "Găsește Specialistul Tău"),
   ("doctors.subtitle", "Răsfoiește rețeaua noastră de profesioniști în sănătate și fă-ți o programare astăzi"),
   ("doctors.filter.specialty", "Specialitate"),
   ("doctors.filter.all", "Toate Specialitățile"),
   ("doctors.search.label", "Căutare"),
   ("doctors.search.placeholder", "Caută doctori..."),
   ("doctors.empty.title", "Niciun doctor găsit"),
   ("doctors.empty.desc", "Încearcă să ajustezi filtrele sau termenii de căutare"),
   ("doctors.error.title", "Nu s-au putut încărca doctorii"),
   ("doctors.error.desc", "Te rugăm să reîncarci pagina pentru a încerca din nou"),
   ("doctor.wait", "min timp așteptare"),
   ("doctor.experience", "ani"),
   ("doctor.book", "Rezervă Acum"),
   ("doctor.profile", "Vezi Profil"),
   ("doctor.reviews", "recenzii"),
   ("doctor.no_bio", "Fără biografie disponibilă"),
   ("appointments.tag", "Sănătatea Ta"),
   ("appointments.title", "Programările Mele"),
   ("appointments.subtitle", "Vezi și gestionează programările viitoare și trecute"),
   ("login.title", "Accesează Programările"),
   ("login.subtitle", "Introdu adresa de email pentru a vedea istoricul programărilor și a gestiona rezervările"),
   ("login.email.label", "Adresa de Email"),
   ("login.email.placeholder", "nume@email.com"),
   ("login.btn", "Vezi Programări"),
   ("login.welcome", "Bine ai revenit,"),
   ("login.signout", "Deconectare"),
   ("appointments.upcoming", "Programare Viitoare"),
   ("appointments.upcoming_desc", "Ai o programare în mai puțin de 24 de ore"),
   ("appointments.empty.title", "Nicio programare încă"),
   ("appointments.empty.desc", "Fă prima ta programare pentru a începe"),
   ("appointments.status.scheduled", "Programat"),
   ("appointments.status.completed", "Finalizat"),
   ("appointments.status.cancelled", "Anulat"),
   ("appointments.status.rescheduled", "Reprogramat"),
   ("appointments.action.reschedule", "Reprogramează"),
   ("appointments.action.cancel", "Anulează"),
   ("appointments.action.review", "Lasă Recenzie"),
   ("footer.tagline", "Partenerul tău de încredere pentru programări medicale fără probleme. Conectăm pacienții cu profesioniști verificați din 2023."),
   ("footer.quicklinks", "Linkuri Rapide"),
   ("footer.contact", "Contact"),
   ("footer.newsletter", "Rămâi la Curent"),
   ("footer.newsletter.desc", "Abonează-te la newsletter-ul nostru pentru sfaturi de sănătate și noutăți."),
   ("footer.newsletter.placeholder", "Introdu email-ul tău"),
   ("footer.subscribe", "Abonează-te"),
   ("footer.rights", "MedSchedule. Toate drepturile rezervate."),
   ("footer.privacy", "Politica de Confidențialitate"),
   ("footer.terms", "Termeni și Condiții"),
   ("footer.cookie", "Politica Cookie"),
   ("modal.booking.title", "Fă o Programare"),
   ("modal.type.inperson", "Fizic"),
   ("modal.type.inperson.desc", "Vizită la clinică"),
   ("modal.type.video", "Apel Video"),
   ("modal.type.video.desc", "Consultație online"),
   ("modal.type.phone", "Telefon"),
   ("modal.type.phone.desc", "Apel voce"),
   ("modal.form.fname", "Prenume"),
   ("modal.form.lname", "Nume"),
   ("modal.form.email", "Email"),
   ("modal.form.phone", "Număr Telefon"),
   ("modal.form.date", "Data"),
   ("modal.form.time", "Ora"),
   ("modal.form.reason", "Motivul Vizitei"),
   ("modal.form.reason.placeholder", "Descrie pe scurt simptomele sau motivul vizitei..."),
   ("modal.btn.confirm", "Confirmă Programarea"),
   ("modal.preview.title", "Previzualizare Confirmare"),
   ("modal.preview.desc", "Un email de confirmare va fi trimis în inbox-ul tău"),
   ("modal.reschedule.title", "Reprogramează"),
   ("modal.reschedule.confirm", "Confirmă Reprogramarea"),
   ("modal.review.title", "Scrie o Recenzie"),
   ("modal.review.rating", "Rating"),
   ("modal.review.comment", "Comentariu"),
   ("modal.review.submit", "Trimite Recenzie"),
   ("toast.theme.switched", "Schimbat la modul \x7btheme\x7d"),
   ("toast.favorite.added", "Adăugat la favorite"),
   ("toast.favorite.removed", "Eliminat de la favorite"),
   ("toast.load.error", "Eșec la încărcarea \x7bitem\x7d"),
   ("toast.booking.success", "Programare realizată cu succes!"),
   ("toast.cancel.success", "Programare anulată cu succes"),
   ("toast.reschedule.success", "Programare reprogramată cu succes!"),
   ("toast.review.success", "Recenzie trimisă cu succes!"),
   ("modal.cancel.confirm", "Ești sigur că vrei să anulezi această programare?"),
   ("appointments.upcoming_desc_doctor", "Ai o programare cu \x7bdoctor\x7d în"),
   ("minutes", "minute"),
   ("hours", "ore"),
   ("day.monday", "Luni"),
   ("day.tuesday", "Marți"),
   ("day.wednesday", "Miercuri"),
   ("day.thursday", "Joi"),
   ("day.friday", "Vineri"),
   ("day.saturday", "Sâmbătă"),
   ("day.sunday", "Duminică"),
   ("day.short.sun", "Dum"),
   ("day.short.mon", "Lun"),
   ("day.short.tue", "Mar"),
   ("day.short.wed", "Mie"),
   ("day.short.thu", "Joi"),
   ("day.short.fri", "Vin"),
   ("day.short.sat", "Sâm"),
   ("month.january", "Ianuarie"),
   ("month.february", "Februarie"),
   ("month.march", "Martie"),
   ("month.april", "Aprilie"),
   ("month.may", "Mai"),
   ("month.june", "Iunie"),
   ("month.july", "Iulie"),
   ("month.august", "August"),
   ("month.september", "Septembrie"),
   ("month.october", "Octombrie"),
   ("month.november", "Noiembrie"),
   ("month.december", "Decembrie"),
   ("modal.review.comment.placeholder", "Împărtășește experiența ta cu acest doctor..."),
   ("detail.about", "Despre"),
   ("detail.experience", "Experiență"),
   ("detail.wait", "Timp Așteptare"),
   ("detail.phone", "Telefon"),
   ("detail.availability", "Disponibilitate"),
   ("detail.reviews", "Recenzii Pacienți"),
   ("detail.reviews.empty", "Nicio recenzie încă."),
   ("detail.unavailable", "Indisponibil")]

/-- The JavaScript values that `LanguageManager.t` can meet: `undefined`, a
string, a translation table (an object literal with string values), or any
other value (a number, a function, an object), of which only its truthiness
matters here. -/
inductive JsValue where
  | undefined
  | str (s : String)
  | table (entries : List (String × String))
  | other (truthy : Bool)
  deriving DecidableEq, Repr

/-- An exception thrown by the code. -/
inductive JsError where
  | typeError
  deriving DecidableEq, Repr

deriving instance DecidableEq for Except

/-- The names of the properties every object literal inherits from
`Object.prototype`; their values are functions, and an object for `__proto__`. -/
def objectPrototypeKeys : List String :=
  ["constructor", "hasOwnProperty", "isPrototypeOf", "propertyIsEnumerable",
   "toLocaleString", "toString", "valueOf", "__proto__", "__defineGetter__",
   "__defineSetter__", "__lookupGetter__", "__lookupSetter__"]

/-- The property read `translations[lang]` on the object literal `translations`:
its own properties are `en` and `ro`. -/
def translationsGet (lang : String) : JsValue :=
  if lang = "en" then JsValue.table translationsEn
  else if lang = "ro" then JsValue.table translationsRo
  else if lang ∈ objectPrototypeKeys then JsValue.other true
  else JsValue.undefined

/-- The property read `obj[key]`.  Reading a property of `undefined` throws a
`TypeError`; a table gives its own entry, then what it inherits from
`Object.prototype`, then `undefined`.  `host obj key` stands for the property
reads on values that are not tables. -/
def getProperty (host : JsValue → String → JsValue) (obj : JsValue) (key : String) :
    Except JsError JsValue :=
  match obj with
  | JsValue.undefined => Except.error JsError.typeError
  | JsValue.table entries =>
    match entries.lookup key with
    | some v => Except.ok (JsValue.str v)
    | none =>
      if key ∈ objectPrototypeKeys then Except.ok (JsValue.other true)
      else Except.ok JsValue.undefined
  | v => Except.ok (host v key)

/-- Truthiness of a value: `undefined` and the empty string are falsy. -/
def JsValue.truthy : JsValue → Bool
  | JsValue.undefined => false
  | JsValue.str s => s ≠ ""
  | JsValue.table _ => true
  | JsValue.other b => b

/-- The first occurrence of `pat` in a text: the text before it and the text
after it. -/
def findFirst (pat : List Char) : List Char → Option (List Char × List Char)
  | [] => if pat = [] then some ([], []) else none
  | c :: cs =>
    if pat <+: c :: cs then some ([], (c :: cs).drop pat.length)
    else (findFirst pat cs).map fun r => (c :: r.1, r.2)

/-- The operation `GetSubstitution` for a match without capture groups: in the
replacement text `$$` stands for `$`, `$&` for the matched text, a dollar sign
followed by a backtick for the text before the match and a dollar sign followed
by an apostrophe for the text after it; every other character stands for
itself.  The flag tells that the character just read was a dollar sign that
has not been written yet. -/
def getSubstitution (matched before after : List Char) : Bool → List Char → List Char
  | false, [] => []
  | true, [] => ['$']
  | false, c :: r =>
    if c = '$' then getSubstitution matched before after true r
    else c :: getSubstitution matched before after false r
  | true, d :: r =>
    if d = '$' then '$' :: getSubstitution matched before after false r
    else if d = '&' then matched ++ getSubstitution matched before after false r
    else if d.toNat = 96 then before ++ getSubstitution matched before after false r
    else if d.toNat = 39 then after ++ getSubstitution matched before after false r
    else '$' :: d :: getSubstitution matched before after false r

/-- The method `text.replace(pattern, replacement)` with a string pattern: only
the first occurrence of the pattern is replaced. -/
def jsReplace (text pattern replacement : String) : String :=
  match findFirst pattern.data text.data with
  | none => text
  | some (before, after) =>
    ⟨before ++ getSubstitution pattern.data before after false replacement.data ++ after⟩

/-- The class `LanguageManager`, with the field that `t` reads. -/
structure LanguageManager where
  currentLang : String
  deriving DecidableEq, Repr

/-- The constructor of `LanguageManager`; `persisted` is
`localStorage.getItem("language")`. -/
def LanguageManager.new (persisted : Option String) : LanguageManager :=
  match persisted with
  | some lang => if lang ≠ "" then ⟨lang⟩ else ⟨"en"⟩
  | none => ⟨"en"⟩

/-- The first statement of `t`: `this.translations[this.currentLang][key] || key`. -/
def LanguageManager.lookupText (host : JsValue → String → JsValue) (m : LanguageManager)
    (key : String) : Except JsError JsValue :=
  match getProperty host (translationsGet m.currentLang) key with
  | Except.error e => Except.error e
  | Except.ok v => Except.ok (if v.truthy then v else JsValue.str key)

/-- The call `text.replace(pattern, replacement)` on a value: only a string has
the method, on any other value the call throws a `TypeError`. -/
def replaceMethod (text : JsValue) (pattern replacement : String) : Except JsError JsValue :=
  match text with
  | JsValue.str s => Except.ok (JsValue.str (jsReplace s pattern replacement))
  | _ => Except.error JsError.typeError

/-- The template literal of `t` that puts a parameter name between braces: the
placeholder of the parameter. -/
def placeholder (name : String) : String := "\x7b" ++ name ++ "\x7d"

/-- The loop of `t` over `Object.keys(params)`: for each parameter, in order,
`text = text.replace(placeholder, params[param])`. -/
def substitute : JsValue → List (String × String) → Except JsError JsValue
  | text, [] => Except.ok text
  | text, (param, value) :: rest =>
    match replaceMethod text (placeholder param) value with
    | Except.error e => Except.error e
    | Except.ok text2 => substitute text2 rest

/-- The method `LanguageManager.t(key, params)`; `params` lists the own
properties of the object in the order of `Object.keys`, with string values. -/
def LanguageManager.t (host : JsValue → String → JsValue) (m : LanguageManager)
    (key : String) (params : List (String × String)) : Except JsError JsValue :=
  match m.lookupText host key with
  | Except.error e => Except.error e
  | Except.ok text => substitute text params

/-! ## Form handlers and favorites -/

/-- Truthiness of a value that is `null` or a string. -/
def truthy : Option String → Bool
  | some s => s ≠ ""
  | none => false

/-- The expression `a || b` on values that are `null` or a string. -/
def orElse (a b : Option String) : Option String := if truthy a then a else b

/-- What the booking handler reads from the page: the value of the time select
(`none` when the element is missing) and the raw values of the text fields. -/
structure BookingInputs where
  timeSelect : Option String
  firstName : String
  lastName : String
  email : String
  phone : String
  reason : String
  deriving DecidableEq, Repr

/-- The object `formData` of `handleBookingSubmit`. -/
structure BookingFormData where
  doctorId : Option Int
  firstName : String
  lastName : String
  email : String
  phone : String
  dateTime : Option String
  reason : String
  appointmentType : String
  deriving DecidableEq, Repr

/-- The calls of `fetchAPI` made by the handlers embedded here. -/
inductive Request where
  | postAppointments (formData : BookingFormData)
  | getAppointments (email : Option String)
  | postReschedule (appointmentId : Option Int) (newDateTime : Option String)
  | postFavorites (email : Option String) (doctorId : Int)
  deriving DecidableEq, Repr

/-- What a handler does up to its first `await`: it returns after
`showToast(message, "error")` without any call of `fetchAPI`, or it calls
`fetchAPI` with a request. -/
inductive Submission where
  | blocked (message : String)
  | sent (request : Request)
  deriving DecidableEq, Repr

/-- The function `handleBookingSubmit`, up to its call of `fetchAPI`. -/
def handleBookingSubmit (s : AppState) (inputs : BookingInputs) : Submission :=
  let selectedTime := orElse s.selectedTime inputs.timeSelect
  let formData : BookingFormData :=
    { doctorId := s.currentDoctorId
      firstName := jsTrim inputs.firstName
      lastName := jsTrim inputs.lastName
      email := jsTrim inputs.email
      phone := jsTrim inputs.phone
      dateTime := selectedTime
      reason := jsTrim inputs.reason
      appointmentType := s.selectedAppointmentType }
  if !truthy formData.dateTime then
    Submission.blocked "Please select a date and time slot"
  else if formData.firstName = "" ∨ formData.lastName = "" then
    Submission.blocked "Please enter your full name"
  else if formData.email = "" then
    Submission.blocked "Please enter your email address"
  else
    Submission.sent (Request.postAppointments formData)

/-- The function `handleReviewSubmit`, up to its first call of `fetchAPI`;
`ratingValue` and `comment` are the values of the two form fields. -/
def handleReviewSubmit (s : AppState) (ratingValue comment : String) : Submission :=
  let rating := parseInt ratingValue
  let _comment := jsTrim comment
  if rating = none ∨ rating = some 0 then
    Submission.blocked "Please select a rating"
  else
    Submission.sent (Request.getAppointments s.currentPatientEmail)

/-- The function `submitReschedule`, up to its call of `fetchAPI`. -/
def submitReschedule (s : AppState) : Submission :=
  if !truthy s.selectedRescheduleDate ∨ !truthy s.selectedRescheduleTime then
    Submission.blocked "Please select both date and time"
  else
    Submission.sent
      (Request.postReschedule s.currentAppointmentId s.selectedRescheduleTime)

/-- The method `Set.prototype.add` on the list of elements. -/
def setAdd (set : List Int) (x : Int) : List Int := if x ∈ set then set else set ++ [x]

/-- The method `Set.prototype.delete` on the list of elements. -/
def setDelete (set : List Int) (x : Int) : List Int := set.filter fun y => y ≠ x

/-- The request `toggleFavorite` sends, if any: without a patient email it
returns before any call of `fetchAPI`. -/
def toggleFavoriteRequest (s : AppState) (doctorId : Int) : Option Request :=
  if !truthy s.currentPatientEmail then none
  else some (Request.postFavorites s.currentPatientEmail doctorId)

/-- The function `toggleFavorite`, as the state it leaves.  `response` is the
outcome of the request: `none` when `fetchAPI` throws, otherwise the truthiness
of `result.favorited`. -/
def toggleFavorite (s : AppState) (doctorId : Int) (response : Option Bool) : AppState :=
  if !truthy s.currentPatientEmail then s
  else
    match response with
    | none => s
    | some true => { s with favorites := setAdd s.favorites doctorId }
    | some false => { s with favorites := setDelete s.favorites doctorId }

/-- Modelled from the spec: the backend of `POST favorites` is not part of the
client code.  It keeps the favorite doctors of a patient, toggles the doctor of
the request and answers with the new state of that doctor (`favorited`). -/
def backendToggleFavorite (stored : List Int) (doctorId : Int) : List Int × Bool :=
  if doctorId ∈ stored then (stored.filter fun y => y ≠ doctorId, false)
  else (doctorId :: stored, true)

/-- A name without a brace in it. -/
def isPlainName (name : String) : Prop := '\x7b' ∉ name.data ∧ '\x7d' ∉ name.data

instance (name : String) : Decidable (isPlainName name) := by
  unfold isPlainName
  infer_instance

/-- The value of a list of decimal digits, most significant first. -/
def decimalValue (l : List Char) : Nat :=
  (l.map fun c => c.toNat - 48).foldl (fun acc v => acc * 10 + v) 0

/-! ## Favorite buttons -/

/-- The favorite button of a rendered doctor card: the doctor of the card
(`data-doctor-id`) and whether the button carries the class `active`. -/
structure FavoriteButton where
  doctorId : Int
  active : Bool
  deriving DecidableEq, Repr

/-- The favorite button that `renderDoctorCard` writes for a doctor:
`isFavorite = doctor.is_favorite || AppState.favorites.has(doctor.id)`. -/
def renderDoctorCard (s : AppState) (doctor : Doctor) : FavoriteButton :=
  let isFavorite := doctor.is_favorite || s.favorites.contains doctor.id
  { doctorId := doctor.id, active := isFavorite }

/-- The favorite buttons of the doctors grid after `renderDoctors`. -/
def renderedButtons (s : AppState) (grid : DoctorsGrid) : List FavoriteButton :=
  match grid with
  | DoctorsGrid.emptyState => []
  | DoctorsGrid.cards doctors => doctors.map (renderDoctorCard s)

/-- The function `updateFavoriteButtons` on the buttons of the page: the doctor
id is read back from the card with `parseInt` and the class `active` is set by
`AppState.favorites.has`. -/
def updateFavoriteButtons (s : AppState) (buttons : List FavoriteButton) :
    List FavoriteButton :=
  buttons.map fun btn =>
    let isFavorite :=
      match parseInt (toString btn.doctorId) with
      | some doctorId => s.favorites.contains doctorId
      | none => false
    { btn with active := isFavorite }

/-! ## Time slots -/

/-- A slot object of the backend: its ISO datetime and its display time. -/
structure Slot where
  datetime : String
  time : String
  deriving DecidableEq, Repr

/-- An `option` element of the time select. -/
structure SelectOption where
  value : String
  text : String
  deriving DecidableEq, Repr

/-- The time select after `loadAvailableSlots`: its options and its `disabled`
flag. -/
structure SelectState where
  options : List SelectOption
  disabled : Bool
  deriving DecidableEq, Repr

/-- The function `loadAvailableSlots`, as the select element it leaves (the
element is taken to exist).  `response` is the outcome of the request: `none`
when `fetchAPI` throws, otherwise the slot list. -/
def loadAvailableSlots (response : Option (List Slot)) : SelectState :=
  match response with
  | none => { options := [⟨"", "Error loading slots"⟩], disabled := false }
  | some slots =>
    if slots.length = 0 then
      { options := [⟨"", "No available slots"⟩], disabled := false }
    else
      { options := ⟨"", "Select time"⟩ :: slots.map (fun slot => ⟨slot.datetime, slot.time⟩),
        disabled := false }

/-- The markup that `renderRescheduleTimeSlots` writes for one slot: the
template literal, with `slot.datetime` and `slot.time` put into it as they are
(no call of `escapeHtml`). -/
def slotButtonHtml (s : AppState) (slot : Slot) : String :=
  "\n    <button type=\"button\" class=\"time-slot "
    ++ (if s.selectedRescheduleTime = some slot.datetime then "selected" else "")
    ++ "\" \n            onclick=\"selectRescheduleTime(\x27" ++ slot.datetime
    ++ "\x27)\">\n      " ++ slot.time ++ "\n    </button>\n  "

/-- The function `renderRescheduleTimeSlots`, as the markup it assigns to
`innerHTML` of the container (the container is taken to exist): a paragraph
for the empty list, otherwise the markup of the slots joined in order. -/
def renderRescheduleTimeSlots (s : AppState) (slots : List Slot) : String :=
  if slots.length = 0 then "<p>No available slots for this date</p>"
  else (slots.map (slotButtonHtml s)).foldl (fun html piece => html ++ piece) ""

/-- A slot button of the page, an element of the container with the class
`time-slot`: whether it carries the class `selected`, its `onclick` attribute
and its text (without the white space of the template around it). -/
structure SlotButton where
  selected : Bool
  onclick : String
  label : String
  deriving DecidableEq, Repr

/-- The `onclick` attribute of the button of a slot, for a datetime without
markup characters. -/
def slotOnclick (datetime : String) : String :=
  "selectRescheduleTime(\x27" ++ datetime ++ "\x27)"

/-- The first element with the property gets the class `selected`
(`Array.prototype.find`, then `classList.add`). -/
def selectFirst (p : SlotButton → Bool) : List SlotButton → List SlotButton
  | [] => []
  | btn :: rest =>
    if p btn then { btn with selected := true } :: rest else btn :: selectFirst p rest

/-- The function `selectRescheduleTime`: the state it leaves and the slot
buttons of the page after it. -/
def selectRescheduleTime (s : AppState) (slotButtons : List SlotButton) (dateTime : String) :
    AppState × List SlotButton :=
  let s2 := { s with selectedRescheduleTime := some dateTime }
  let cleared := slotButtons.map fun btn => { btn with selected := false }
  (s2, selectFirst (fun btn => jsIncludes btn.onclick dateTime) cleared)

/-- A datetime in the ISO form `YYYY-MM-DDTHH:MM:SS`. -/
def isIsoDateTime (s : String) : Bool :=
  match s.data with
  | [y1, y2, y3, y4, a, m1, m2, b, d1, d2, t, h1, h2, c, n1, n2, e, s1, s2] =>
    y1.isDigit && y2.isDigit && y3.isDigit && y4.isDigit && a = '-' && m1.isDigit
      && m2.isDigit && b = '-' && d1.isDigit && d2.isDigit && t = 'T' && h1.isDigit
      && h2.isDigit && c = ':' && n1.isDigit && n2.isDigit && e = ':' && s1.isDigit
      && s2.isDigit
  | _ => false

/-! ## Requests and failure notifications -/

/-- What `fetchAPI` and its callers do that a user or the backend can see. -/
inductive Effect where
  | fetch (endpoint : String)
  | showToast (message : JsValue) (type : String)
  | consoleError (text : String)
  deriving DecidableEq, Repr

/-- The outcome of the request inside `fetchAPI`: the parsed data, or the
message of the error thrown in the `try` block (a response that is not ok, a
network failure, a body that is not JSON). -/
inductive FetchOutcome (α : Type) where
  | data (value : α)
  | failed (message : String)
  deriving Repr

/-- The function `fetchAPI`: one request; on failure the error is logged, shown
with `showToast(error.message || "An error occurred", "error")` and thrown
again (`none`). -/
def fetchAPI {α : Type} (endpoint : String) (outcome : FetchOutcome α) :
    Option α × List Effect :=
  match outcome with
  | FetchOutcome.data value => (some value, [Effect.fetch ("/api/" ++ endpoint)])
  | FetchOutcome.failed message =>
    (none,
      [Effect.fetch ("/api/" ++ endpoint),
       Effect.consoleError ("API Error (" ++ endpoint ++ "):"),
       Effect.showToast (JsValue.str (if message ≠ "" then message else "An error occurred"))
         "error"])

/-- The function `loadDoctors`: the state it leaves and what it does.
`encodeURIComponent` is the platform function of that name. -/
def loadDoctors (host : JsValue → String → JsValue) (encodeURIComponent : String → String)
    (m : LanguageManager) (s : AppState) (specialtyId : Option Int)
    (outcome : FetchOutcome (List Doctor)) : AppState × List Effect :=
  let hasSpecialty := match specialtyId with
    | some n => decide (n ≠ 0)
    | none => false
  let endpoint := "doctors"
  let endpoint :=
    match specialtyId with
    | some n => if n ≠ 0 then endpoint ++ "?specialty_id=" ++ toString n else endpoint
    | none => endpoint
  let endpoint :=
    match s.currentPatientEmail with
    | some email =>
      if email ≠ "" then
        endpoint ++ (if hasSpecialty then "&" else "?") ++ "patient_email="
          ++ encodeURIComponent email
      else endpoint
    | none => endpoint
  match fetchAPI endpoint outcome with
  | (some doctors, effects) => ({ s with doctors := doctors }, effects)
  | (none, effects) =>
    let effects := effects ++ [Effect.consoleError "Failed to load doctors:"]
    match m.t host "doctors.error.title" [], m.t host "doctors.error.desc" [],
        m.t host "toast.load.error" [("item", "doctors")] with
    | Except.ok _, Except.ok _, Except.ok message =>
      (s, effects ++ [Effect.showToast message "error"])
    | _, _, _ => (s, effects)

/-- The function `loadFavorites`: the state it leaves and what it does.  The
response is given by the ids of its doctors, in order; `new Set` keeps the first
of equal ids. -/
def loadFavorites (encodeURIComponent : String → String) (s : AppState)
    (outcome : FetchOutcome (List Int)) : AppState × List Effect :=
  match s.currentPatientEmail with
  | none => (s, [])
  | some email =>
    if email = "" then (s, [])
    else
      match fetchAPI ("favorites?email=" ++ encodeURIComponent email) outcome with
      | (some favorites, effects) => ({ s with favorites := favorites.foldl setAdd [] }, effects)
      | (none, effects) => (s, effects ++ [Effect.consoleError "Failed to load favorites:"])

/-! ## Star rating and initials -/

/-- One icon written by `renderStars`; the half star carries the rating in the
`id` of its gradient. -/
inductive Star where
  | filled
  | half (rating : ℚ)
  | empty
  deriving DecidableEq, Repr

/-- The expression `rating % 1`: the remainder has the sign of the rating. -/
def remainderOne (rating : ℚ) : ℚ :=
  if 0 ≤ rating then rating - Int.floor rating else rating - Int.ceil rating

/-- The function `renderStars`, on a rating that is an exact rational (as every
finite floating-point number is; `Math.floor` and `%` are exact). -/
def renderStars (rating : ℚ) : List Star :=
  let fullStars : Int := Int.floor rating
  let hasHalfStar : Bool := decide (remainderOne rating ≥ 1 / 2)
  let emptyStars : Int := 5 - fullStars - (if hasHalfStar then 1 else 0)
  List.replicate fullStars.toNat Star.filled
    ++ (if hasHalfStar then [Star.half rating] else [])
    ++ List.replicate emptyStars.toNat Star.empty

/-- The call `name.split(" ")`: the pieces between single spaces, empty pieces
included. -/
def splitSpaces : List Char → List (List Char)
  | [] => [[]]
  | c :: cs =>
    if c = ' ' then [] :: splitSpaces cs
    else
      match splitSpaces cs with
      | [] => [[c]]
      | w :: ws => (c :: w) :: ws

/-- The calls `.map(n => n[0]).join("")`: the first character of every piece,
an empty piece (`undefined`) giving nothing. -/
def joinFirsts (pieces : List (List Char)) : List Char :=
  (pieces.map List.head?).foldr
    (fun first rest =>
      match first with
      | some c => c :: rest
      | none => rest)
    []

/-- The function `getInitials`; `none` is a missing name, `toUpperCase` the
method of that name.  A character of the model is one UTF-16 code unit of the
text, which holds for text of the basic plane. -/
def getInitials (toUpperCase : String → String) (name : Option String) : String :=
  match name with
  | none => "DR"
  | some n =>
    if n = "" then "DR"
    else ⟨(toUpperCase ⟨joinFirsts (splitSpaces n.data)⟩).data.take 2⟩

/-- The characters of a text that start a word: not a space, and at the start of
the text or right after a space.  The flag tells that the place is the start of
the text or follows a space. -/
def wordStarts : Bool → List Char → List Char
  | _, [] => []
  | atStart, c :: cs =>
    if c = ' ' then wordStarts true cs
    else if atStart then c :: wordStarts false cs
    else wordStarts false cs

/-! ## Booking date and time inputs -/

/-- The `change` handler of the date input in `initDatePicker`, as the state it
leaves. -/
def bookingDateChange (s : AppState) (date : String) : AppState :=
  { s with selectedDate := some date }

/-- The `change` handler of the time select in `initDatePicker`. -/
def bookingTimeChange (s : AppState) (value : String) : AppState :=
  { s with selectedTime := some value }

/-! ## Language switching -/

/-- The method `LanguageManager.setLanguage`, as the manager it leaves: the
language is taken when `this.translations[lang]` is truthy. -/
def LanguageManager.setLanguage (m : LanguageManager) (lang : String) : LanguageManager :=
  if (translationsGet lang).truthy then { m with currentLang := lang } else m

/-- The function `toggleLanguage`, as the manager it leaves. -/
def toggleLanguage (m : LanguageManager) : LanguageManager :=
  let currentLang := m.currentLang
  let newLang := if currentLang = "en" then "ro" else "en"
  m.setLanguage newLang

/-! ## The unused count of trailing cells in `renderRescheduleCalendar` -/

/-- The number of separators that `text.split(pattern)` finds: the occurrences
of the pattern read from the left, each starting after the end of the one
before.  The first argument counts the characters of the last occurrence that
are still to be passed. -/
def countSplits (pat : List Char) : Nat → List Char → Nat
  | _, [] => 0
  | skip + 1, _ :: cs => countSplits pat skip cs
  | 0, c :: cs =>
    if pat <+: c :: cs then 1 + countSplits pat (pat.length - 1) cs
    else countSplits pat 0 cs

/-- The markup `html` after a list of cells has been appended to the empty
string. -/
def cellsHtml (cells : List Cell) : String :=
  cells.foldl (fun html cell => html ++ cell.html) ""

/-- The markup `html` of `renderRescheduleCalendar` when the count is taken:
the headers, the cells of the previous month and the cells of the month. -/
def htmlBeforePadding (t : String → String) (year month today : Int)
    (selected : Option String) : String :=
  cellsHtml (dayHeaders t
    ++ prevMonthCells (firstDay year month) (prevMonthDays year month)
    ++ currentMonthCells year month (daysInMonth year month) today selected)

/-- The constant `totalCells` of `renderRescheduleCalendar`:
`html.split("calendar-day").length - 1`. -/
def totalCells (t : String → String) (year month today : Int) (selected : Option String) :
    Int :=
  ((countSplits "calendar-day".data 0 (htmlBeforePadding t year month today selected).data
      + 1 : Nat) : Int) - 1

/-- The constant `remaining` of `renderRescheduleCalendar`. -/
def remaining (t : String → String) (year month today : Int) (selected : Option String) :
    Int :=
  42 - totalCells t year month today selected + 7

/-! ## Facts of the date arithmetic -/

theorem dayFromYear_succ (y : Int) : dayFromYear (y + 1) = dayFromYear y + daysInYear y := by
  unfold dayFromYear daysInYear
  split_ifs <;> omega

theorem daysInYear_ge (y : Int) : 365 ≤ daysInYear y := by
  unfold daysInYear
  split_ifs <;> omega

theorem daysInYear_le (y : Int) : daysInYear y ≤ 366 := by
  unfold daysInYear
  split_ifs <;> omega

theorem inLeapYear_eq (y : Int) : daysInYear y = 365 + inLeapYear y := by
  unfold inLeapYear daysInYear
  split_ifs <;> omega

theorem inLeapYear_cases (y : Int) : inLeapYear y = 0 ∨ inLeapYear y = 1 := by
  unfold inLeapYear
  split_ifs <;> simp

theorem inLeapYear_isLeapYear (y : Int) : inLeapYear y = if isLeapYear y then 1 else 0 := by
  unfold inLeapYear daysInYear isLeapYear
  by_cases h4 : y % 4 = 0 <;> by_cases h100 : y % 100 = 0 <;> by_cases h400 : y % 400 = 0 <;>
    simp [h4, h100, h400]

theorem dayFromYear_add_nat (a : Int) (n : Nat) : dayFromYear a ≤ dayFromYear (a + n) := by
  induction n with
  | zero => simp
  | succ k ih =>
    have h1 := dayFromYear_succ (a + k)
    have h2 := daysInYear_ge (a + k)
    have h3 : a + ((k + 1 : Nat) : Int) = a + k + 1 := by push_cast; ring
    rw [h3]
    omega

theorem dayFromYear_mono {a b : Int} (h : a ≤ b) : dayFromYear a ≤ dayFromYear b := by
  have h1 := dayFromYear_add_nat a (b - a).toNat
  have h2 : a + ((b - a).toNat : Int) = b := by omega
  rwa [h2] at h1

theorem yearFromDay_lower (d : Int) : dayFromYear (yearFromDay d) ≤ d := by
  unfold yearFromDay
  simp only
  split
  · assumption
  · split
    · assumption
    · unfold dayFromYear at *
      omega

theorem yearFromDay_upper (d : Int) : d < dayFromYear (yearFromDay d + 1) := by
  unfold yearFromDay
  simp only
  split
  · unfold dayFromYear at *
    omega
  · split
    · omega
    · rw [Int.sub_add_cancel]
      omega

/-- The year of a day number is the only year whose days include it. -/
theorem yearFromDay_unique {d y : Int} (h1 : dayFromYear y ≤ d) (h2 : d < dayFromYear (y + 1)) :
    yearFromDay d = y := by
  have l := yearFromDay_lower d
  have u := yearFromDay_upper d
  by_contra hne
  rcases lt_or_gt_of_ne hne with h | h
  · have := dayFromYear_mono (show yearFromDay d + 1 ≤ y by omega)
    omega
  · have := dayFromYear_mono (show y + 1 ≤ yearFromDay d by omega)
    omega

theorem dayWithinYear_nonneg (d : Int) : 0 ≤ dayWithinYear d := by
  have := yearFromDay_lower d
  unfold dayWithinYear
  omega

theorem dayWithinYear_lt (d : Int) : dayWithinYear d < 365 + inLeapYear (yearFromDay d) := by
  have h1 := yearFromDay_upper d
  have h2 := dayFromYear_succ (yearFromDay d)
  have h3 := inLeapYear_eq (yearFromDay d)
  unfold dayWithinYear
  omega

theorem day_makeDate_zero (d : Int) : day (makeDate d 0) = d := by
  unfold day makeDate msPerDay
  omega

theorem yearFromDay_add {y w : Int} (h0 : 0 ≤ w) (h1 : w < 365 + inLeapYear y) :
    yearFromDay (dayFromYear y + w) = y := by
  apply yearFromDay_unique
  · omega
  · have h2 := dayFromYear_succ y
    have h3 := inLeapYear_eq y
    omega

theorem dayWithinYear_add {y w : Int} (h0 : 0 ≤ w) (h1 : w < 365 + inLeapYear y) :
    dayWithinYear (dayFromYear y + w) = w := by
  unfold dayWithinYear
  rw [yearFromDay_add h0 h1]
  omega

theorem monthOfYearDay_bounds (w l : Int) : 0 ≤ monthOfYearDay w l ∧ monthOfYearDay w l ≤ 11 := by
  unfold monthOfYearDay
  omega

theorem monthFromDay_bounds (d : Int) : 0 ≤ monthFromDay d ∧ monthFromDay d ≤ 11 :=
  monthOfYearDay_bounds _ _

theorem dateOfYearDay_bounds {w l : Int} (h0 : 0 ≤ w) (h1 : w < 365 + l) (hl : l = 0 ∨ l = 1) :
    1 ≤ dateOfYearDay (monthOfYearDay w l) w l ∧ dateOfYearDay (monthOfYearDay w l) w l ≤ 31 := by
  unfold dateOfYearDay monthOfYearDay
  omega

/-- The day of the month is always between 1 and 31. -/
theorem dateFromDay_bounds (d : Int) : 1 ≤ dateFromDay d ∧ dateFromDay d ≤ 31 :=
  dateOfYearDay_bounds (dayWithinYear_nonneg d) (dayWithinYear_lt d)
    (inLeapYear_cases (yearFromDay d))

theorem weekDay_bounds (d : Int) : 0 ≤ weekDay d ∧ weekDay d ≤ 6 := by
  unfold weekDay
  omega

theorem gregorianMonthLength_bounds (y m : Int) :
    28 ≤ gregorianMonthLength y m ∧ gregorianMonthLength y m ≤ 31 := by
  unfold gregorianMonthLength
  split_ifs <;> omega

/-- The month table of the day-number arithmetic, read against the calendar:
day `dt` of month `m` is day `daysBeforeMonth + dt - 1` of its year, and the
tables of `MonthFromTime` and `DateFromTime` give `m` and `dt` back. -/
theorem month_tables {y m dt : Int} (h0 : 0 ≤ m) (h1 : m ≤ 11) (h2 : 1 ≤ dt)
    (h3 : dt ≤ gregorianMonthLength y m) :
    0 ≤ daysBeforeMonth y m + dt - 1 ∧
    daysBeforeMonth y m + dt - 1 < 365 + inLeapYear y ∧
    monthOfYearDay (daysBeforeMonth y m + dt - 1) (inLeapYear y) = m ∧
    dateOfYearDay m (daysBeforeMonth y m + dt - 1) (inLeapYear y) = dt := by
  have hl := inLeapYear_isLeapYear y
  unfold daysBeforeMonth
  generalize inLeapYear y = l at *
  unfold gregorianMonthLength at h3
  unfold daysBeforeMonthOf monthOfYearDay dateOfYearDay
  cases hb : isLeapYear y <;> simp only [hb, if_true, Bool.false_eq_true, if_false] at hl h3 <;>
    subst hl <;> interval_cases m <;> simp at h3 ⊢ <;> omega

theorem makeDay_of_month {y m dt : Int} (h0 : 0 ≤ m) (h1 : m ≤ 11) :
    makeDay y m dt = dayFromYear y + (daysBeforeMonth y m + dt - 1) := by
  unfold makeDay
  have e1 : m / 12 = 0 := by omega
  have e2 : m % 12 = m := by omega
  simp only [e1, e2, add_zero]
  omega

/-- Reading back the year of a date built by `MakeDay`. -/
theorem yearFromDay_makeDay {y m dt : Int} (h0 : 0 ≤ m) (h1 : m ≤ 11) (h2 : 1 ≤ dt)
    (h3 : dt ≤ gregorianMonthLength y m) : yearFromDay (makeDay y m dt) = y := by
  rw [makeDay_of_month h0 h1]
  obtain ⟨a, b, _, _⟩ := month_tables h0 h1 h2 h3
  exact yearFromDay_add a b

theorem dayWithinYear_makeDay {y m dt : Int} (h0 : 0 ≤ m) (h1 : m ≤ 11) (h2 : 1 ≤ dt)
    (h3 : dt ≤ gregorianMonthLength y m) :
    dayWithinYear (makeDay y m dt) = daysBeforeMonth y m + dt - 1 := by
  rw [makeDay_of_month h0 h1]
  obtain ⟨a, b, _, _⟩ := month_tables h0 h1 h2 h3
  exact dayWithinYear_add a b

/-- Reading back the month of a date built by `MakeDay`. -/
theorem monthFromDay_makeDay {y m dt : Int} (h0 : 0 ≤ m) (h1 : m ≤ 11) (h2 : 1 ≤ dt)
    (h3 : dt ≤ gregorianMonthLength y m) : monthFromDay (makeDay y m dt) = m := by
  unfold monthFromDay
  rw [yearFromDay_makeDay h0 h1 h2 h3, dayWithinYear_makeDay h0 h1 h2 h3]
  exact (month_tables h0 h1 h2 h3).2.2.1

/-- Reading back the day of the month of a date built by `MakeDay`. -/
theorem dateFromDay_makeDay {y m dt : Int} (h0 : 0 ≤ m) (h1 : m ≤ 11) (h2 : 1 ≤ dt)
    (h3 : dt ≤ gregorianMonthLength y m) : dateFromDay (makeDay y m dt) = dt := by
  unfold dateFromDay
  rw [monthFromDay_makeDay h0 h1 h2 h3, yearFromDay_makeDay h0 h1 h2 h3,
    dayWithinYear_makeDay h0 h1 h2 h3]
  exact (month_tables h0 h1 h2 h3).2.2.2


theorem daysBeforeMonthOf_succ {l m : Int} (h0 : 0 ≤ m) (h1 : m ≤ 10) :
    daysBeforeMonthOf l (m + 1) =
      daysBeforeMonthOf l m
        + (if m = 1 then 28 + l else if m = 3 ∨ m = 5 ∨ m = 8 ∨ m = 10 then 30 else 31) := by
  unfold daysBeforeMonthOf
  interval_cases m <;> simp <;> omega

theorem gregorianMonthLength_eq (y m : Int) :
    gregorianMonthLength y m =
      if m = 1 then 28 + inLeapYear y else if m = 3 ∨ m = 5 ∨ m = 8 ∨ m = 10 then 30 else 31 := by
  have hl := inLeapYear_isLeapYear y
  unfold gregorianMonthLength
  cases hb : isLeapYear y <;> simp only [hb, if_true, Bool.false_eq_true, if_false] at hl ⊢ <;>
    rw [hl] <;> rfl

/-- Day 0 of the next month is the last day of this month. -/
theorem makeDay_next_month_zero {y m : Int} (h0 : 0 ≤ m) (h1 : m ≤ 11) :
    makeDay y (m + 1) 0 = makeDay y m (gregorianMonthLength y m) := by
  rw [makeDay_of_month h0 h1, gregorianMonthLength_eq]
  rcases (show m ≤ 10 ∨ m = 11 by omega) with h | h
  · rw [makeDay_of_month (by omega) (by omega)]
    unfold daysBeforeMonth
    rw [daysBeforeMonthOf_succ h0 h]
    omega
  · subst h
    have hs := dayFromYear_succ y
    have hd := inLeapYear_eq y
    have e : makeDay y (11 + 1) 0 = dayFromYear (y + 1) - 1 := by
      unfold makeDay daysBeforeMonth daysBeforeMonthOf
      norm_num
    rw [e]
    unfold daysBeforeMonth daysBeforeMonthOf
    norm_num
    omega

/-- The code's `daysInMonth` is the Gregorian length of the month that the
`Date` constructor takes the arguments to mean. -/
theorem daysInMonth_eq {year month : Int} (h0 : 0 ≤ month) (h1 : month ≤ 11) :
    daysInMonth year month = gregorianMonthLength (makeFullYear year) month := by
  have hb := gregorianMonthLength_bounds (makeFullYear year) month
  unfold daysInMonth getDate newDate
  rw [day_makeDate_zero, makeDay_next_month_zero h0 h1]
  exact dateFromDay_makeDay h0 h1 (by omega) (le_refl _)

theorem daysInMonth_bounds (year month : Int) :
    1 ≤ daysInMonth year month ∧ daysInMonth year month ≤ 31 :=
  dateFromDay_bounds _

theorem firstDay_bounds (year month : Int) :
    0 ≤ firstDay year month ∧ firstDay year month ≤ 6 :=
  weekDay_bounds _

theorem dayFromYear_eq (y : Int) :
    dayFromYear y = 365 * (y - 1970) + (y - 1) / 4 - (y - 1) / 100 + (y - 1) / 400 - 477 := by
  unfold dayFromYear
  have a : (y - 1969) / 4 = (y - 1) / 4 - 492 := by omega
  have b : (y - 1901) / 100 = (y - 1) / 100 - 19 := by omega
  have c : (y - 1601) / 400 = (y - 1) / 400 - 4 := by omega
  omega

theorem inLeapYear_floor (y : Int) :
    y / 4 - y / 100 + y / 400 = (y - 1) / 4 - (y - 1) / 100 + (y - 1) / 400 + inLeapYear y := by
  have a : y / 4 = (y - 1) / 4 + (if y % 4 = 0 then 1 else 0) := by omega
  have b : y / 100 = (y - 1) / 100 + (if y % 100 = 0 then 1 else 0) := by omega
  have c : y / 400 = (y - 1) / 400 + (if y % 400 = 0 then 1 else 0) := by omega
  rw [a, b, c]
  unfold inLeapYear daysInYear
  by_cases h4 : y % 4 = 0 <;> by_cases h100 : y % 100 = 0 <;> by_cases h400 : y % 400 = 0 <;>
    simp [h4, h100, h400] <;> omega

/-- The weekday of the day-number arithmetic is the weekday of the calendar. -/
theorem weekDay_makeDay {y m d : Int} (h0 : 0 ≤ m) (h1 : m ≤ 11) :
    weekDay (makeDay y m d) = gregorianWeekday y m d := by
  rw [makeDay_of_month h0 h1, dayFromYear_eq]
  have e := inLeapYear_floor y
  have hl := inLeapYear_cases y
  have eg : gregorianWeekday y m d =
      if m < 2 then (y - 1 + (y - 1) / 4 - (y - 1) / 100 + (y - 1) / 400 + monthOffset m + d) % 7
      else (y + y / 4 - y / 100 + y / 400 + monthOffset m + d) % 7 := by
    unfold gregorianWeekday
    split_ifs <;> rfl
  rw [eg]
  unfold weekDay daysBeforeMonth daysBeforeMonthOf monthOffset
  generalize inLeapYear y = l at *
  generalize (y - 1) / 4 = a at *
  generalize (y - 1) / 100 = b at *
  generalize (y - 1) / 400 = c at *
  generalize y / 4 = a1 at *
  generalize y / 100 = b1 at *
  generalize y / 400 = c1 at *
  interval_cases m <;> simp <;> omega

theorem firstDay_eq {year month : Int} (h0 : 0 ≤ month) (h1 : month ≤ 11) :
    firstDay year month = gregorianWeekday (makeFullYear year) month 1 := by
  unfold firstDay getDay newDate
  rw [day_makeDate_zero]
  exact weekDay_makeDay h0 h1


/-! ## The calendar grid: size and layout -/

theorem length_prevMonthCells (fd pmd : Int) : (prevMonthCells fd pmd).length = fd.toNat := by
  simp [prevMonthCells]

theorem length_currentMonthCells (year month dim today : Int) (selected : Option String) :
    (currentMonthCells year month dim today selected).length = dim.toNat := by
  simp [currentMonthCells]

theorem length_nextMonthCells (n : Int) : (nextMonthCells n).length = n.toNat := by
  simp [nextMonthCells]

theorem nextMonthPadding_nonneg (year month : Int) : 0 ≤ nextMonthPadding year month := by
  have h1 := firstDay_bounds year month
  have h2 := daysInMonth_bounds year month
  unfold nextMonthPadding
  simp only
  omega

theorem filter_isDay_prevMonthCells (fd pmd : Int) :
    (prevMonthCells fd pmd).filter Cell.isDay = [] := by
  simp [prevMonthCells, List.filter_eq_nil_iff, Cell.isDay]

theorem filter_isDay_nextMonthCells (n : Int) : (nextMonthCells n).filter Cell.isDay = [] := by
  simp [nextMonthCells, List.filter_eq_nil_iff, Cell.isDay]

theorem filter_isDay_currentMonthCells (year month dim today : Int) (selected : Option String) :
    (currentMonthCells year month dim today selected).filter Cell.isDay
      = currentMonthCells year month dim today selected := by
  simp [currentMonthCells, List.filter_eq_self, Cell.isDay, dayCell]

/-- The cells of the displayed month are the grid cells that are not padding. -/
theorem filter_isDay_calendarCells (year month today : Int) (selected : Option String) :
    (calendarCells year month today selected).filter Cell.isDay
      = currentMonthCells year month (daysInMonth year month) today selected := by
  unfold calendarCells
  rw [List.filter_append, List.filter_append, filter_isDay_prevMonthCells,
    filter_isDay_nextMonthCells, filter_isDay_currentMonthCells]
  simp

theorem number_currentMonthCells (year month dim today : Int) (selected : Option String) :
    (currentMonthCells year month dim today selected).map Cell.number
      = (List.range dim.toNat).map fun (k : Nat) => some ((k : Int) + 1) := by
  simp [currentMonthCells, dayCell, Cell.number, Function.comp_def]

/-- For years 1 to 99 the constructor's year has the same month lengths; for
year 0 only February differs (1900 is not a leap year, year 0 is). -/
theorem gregorianMonthLength_makeFullYear {year month : Int} (h : ¬(year = 0 ∧ month = 1)) :
    gregorianMonthLength (makeFullYear year) month = gregorianMonthLength year month := by
  unfold gregorianMonthLength
  by_cases hm : month = 1
  · have hy : year ≠ 0 := fun e => h ⟨e, hm⟩
    simp only [hm, if_true]
    have : isLeapYear (makeFullYear year) = isLeapYear year := by
      unfold isLeapYear makeFullYear
      by_cases hr : 0 ≤ year ∧ year ≤ 99
      · simp only [hr, and_self, if_true]
        have a : (1900 + year) % 4 = year % 4 := by omega
        have b : (1900 + year) % 100 ≠ 0 := by omega
        have c : year % 100 ≠ 0 := by omega
        simp [a, b, c]
      · simp only [hr, if_false]
    rw [this]
  · simp only [hm, if_false]

/-- C1: for every year and month the grid that `renderRescheduleCalendar` emits
has exactly 42 day cells (the previous-month padding, the days of the month and
the next-month padding), which follow the 7 weekday header cells. -/
theorem renderRescheduleCalendar_emits_42_cells (year month today : Int)
    (selected : Option String) (t : String → String) (s : AppState) (now : Int) :
    (calendarCells year month today selected).length = 42
      ∧ (dayHeaders t).length = 7
      ∧ (renderRescheduleCalendar t s now).drop 7
          = calendarCells (getFullYear s.rescheduleCalendarDate)
              (getMonth s.rescheduleCalendarDate) (setHoursZero now) s.selectedRescheduleDate
      ∧ ((renderRescheduleCalendar t s now).drop 7).length = 42 := by
  have key : ∀ y m td sel, (calendarCells y m td sel).length = 42 := by
    intro y m td sel
    have h1 := firstDay_bounds y m
    have h2 := daysInMonth_bounds y m
    have h3 := nextMonthPadding_nonneg y m
    have h4 : nextMonthPadding y m = 42 - (firstDay y m + daysInMonth y m) := rfl
    unfold calendarCells
    rw [List.length_append, List.length_append, length_prevMonthCells,
      length_currentMonthCells, length_nextMonthCells]
    omega
  have hh : (dayHeaders t).length = 7 := rfl
  have hd : (renderRescheduleCalendar t s now).drop 7
      = calendarCells (getFullYear s.rescheduleCalendarDate)
          (getMonth s.rescheduleCalendarDate) (setHoursZero now) s.selectedRescheduleDate := by
    unfold renderRescheduleCalendar
    simp only
    rw [List.drop_append_of_le_length (by rw [hh])]
    simp [dayHeaders]
  refine ⟨key _ _ _ _, hh, hd, ?_⟩
  rw [hd]
  exact key _ _ _ _

/-- C2, the counterexample: for February of year 0 the grid has 28 cells of the
displayed month, while that month has 29 days in the Gregorian calendar (year 0
is divisible by 400); the `Date` constructor reads the year 0 as 1900. -/
theorem currentMonth_cells_february_year_zero :
    ((calendarCells 0 1 (newDate 2026 10 6) none).filter Cell.isDay).length = 28
      ∧ gregorianMonthLength 0 1 = 29
      ∧ isLeapYear 0 = true := by
  rw [filter_isDay_calendarCells]
  decide

/-- C2, amended: for every year and month other than February of year 0, the
cells of the grid that are not padding number exactly the days of that month in
the Gregorian calendar and carry the day numbers 1, 2, ... in that order; the
count is 28, 29, 30 or 31, and 29 only in February of a leap year. -/
theorem currentMonth_cells_are_the_days_of_the_month (year month today : Int)
    (selected : Option String) (h0 : 0 ≤ month) (h1 : month ≤ 11)
    (h : ¬(year = 0 ∧ month = 1)) :
    (((calendarCells year month today selected).filter Cell.isDay).length : Int)
        = gregorianMonthLength year month
      ∧ ((calendarCells year month today selected).filter Cell.isDay).map Cell.number
        = (List.range (gregorianMonthLength year month).toNat).map (fun (k : Nat) => some ((k : Int) + 1))
      ∧ 28 ≤ gregorianMonthLength year month ∧ gregorianMonthLength year month ≤ 31
      ∧ (gregorianMonthLength year month = 29 → month = 1 ∧ isLeapYear year = true) := by
  have e : daysInMonth year month = gregorianMonthLength year month := by
    rw [daysInMonth_eq h0 h1, gregorianMonthLength_makeFullYear h]
  have hb := gregorianMonthLength_bounds year month
  refine ⟨?_, ?_, hb.1, hb.2, ?_⟩
  · rw [filter_isDay_calendarCells, length_currentMonthCells, e]
    omega
  · rw [filter_isDay_calendarCells, number_currentMonthCells, e]
  · intro h29
    unfold gregorianMonthLength at h29
    by_cases hm : month = 1
    · refine ⟨hm, ?_⟩
      simp only [hm, if_true] at h29
      by_contra hl
      simp only [hl, Bool.false_eq_true, if_false] at h29
      omega
    · simp only [hm, if_false] at h29
      split_ifs at h29 <;> omega

theorem currentMonth_cells_are_the_days_of_the_month_witness :
    ((0 : Int) ≤ 1 ∧ (1 : Int) ≤ 11 ∧ ¬((2028 : Int) = 0 ∧ (1 : Int) = 1))
      ∧ (((calendarCells 2028 1 (newDate 2026 10 6) none).filter Cell.isDay).length : Int)
        = gregorianMonthLength 2028 1
      ∧ gregorianMonthLength 2028 1 = 29 :=
  ⟨by decide,
    (currentMonth_cells_are_the_days_of_the_month 2028 1 (newDate 2026 10 6) none
      (by decide) (by decide) (by decide)).1,
    by decide⟩

/-- The displayed month is never empty: its first cell is the cell of day 1. -/
theorem currentMonthCells_eq_cons (year month today : Int) (selected : Option String) :
    ∃ rest, currentMonthCells year month (daysInMonth year month) today selected
      = dayCell year month today selected 1 :: rest := by
  have h := (daysInMonth_bounds year month).1
  obtain ⟨k, hk⟩ : ∃ k : Nat, (daysInMonth year month).toNat = k + 1 :=
    ⟨(daysInMonth year month).toNat - 1, by omega⟩
  unfold currentMonthCells
  have e : ((0 : Nat) : Int) + 1 = 1 := by norm_num
  rw [hk, List.range_succ_eq_map, List.map_cons, e]
  exact ⟨_, rfl⟩

theorem leadingPadding_calendarCells (year month today : Int) (selected : Option String) :
    leadingPadding (calendarCells year month today selected) = (firstDay year month).toNat := by
  obtain ⟨rest, hr⟩ := currentMonthCells_eq_cons year month today selected
  unfold leadingPadding calendarCells
  rw [hr, List.append_assoc, List.takeWhile_append_of_pos]
  · simp [dayCell, Cell.isDay, length_prevMonthCells]
  · intro a ha
    simp only [prevMonthCells, List.mem_map] at ha
    obtain ⟨i, _, rfl⟩ := ha
    rfl

theorem getElem?_calendarCells_firstDay (year month today : Int) (selected : Option String) :
    (calendarCells year month today selected)[(firstDay year month).toNat]?
      = some (dayCell year month today selected 1) := by
  obtain ⟨rest, hr⟩ := currentMonthCells_eq_cons year month today selected
  unfold calendarCells
  rw [hr, List.append_assoc,
    List.getElem?_append_right (by rw [length_prevMonthCells]), length_prevMonthCells]
  simp

theorem makeFullYear_of_not_two_digit {year : Int} (h : year < 0 ∨ 99 < year) :
    makeFullYear year = year := by
  unfold makeFullYear
  have : ¬(0 ≤ year ∧ year ≤ 99) := by omega
  simp only [this, if_false]

/-- C3, the counterexample: for January of the year 50 the grid has no leading
padding cell, as 1 January 1950 was a Sunday, while 1 January of the year 50 is
a Saturday (weekday 6); the `Date` constructor reads the year 50 as 1950. -/
theorem leading_padding_january_year_fifty :
    leadingPadding (calendarCells 50 0 (newDate 2026 10 6) none) = 0
      ∧ gregorianWeekday 50 0 1 = 6
      ∧ gregorianWeekday 1950 0 1 = 0 := by
  decide

/-- C3, amended: for every year outside 0..99 and every month, the number of
leading padding cells equals the weekday `w` of the 1st of that month in the
Gregorian calendar (Sunday = 0), so the cell of day 1 is at grid index `w`, in
column `w mod 7 = w`. -/
theorem leading_padding_is_weekday_of_first (year month today : Int)
    (selected : Option String) (h0 : 0 ≤ month) (h1 : month ≤ 11)
    (hy : year < 0 ∨ 99 < year) :
    (leadingPadding (calendarCells year month today selected) : Int)
        = gregorianWeekday year month 1
      ∧ (calendarCells year month today selected)[(gregorianWeekday year month 1).toNat]?
        = some (dayCell year month today selected 1)
      ∧ (dayCell year month today selected 1).number = some 1
      ∧ 0 ≤ gregorianWeekday year month 1 ∧ gregorianWeekday year month 1 ≤ 6
      ∧ gregorianWeekday year month 1 % 7 = gregorianWeekday year month 1 := by
  have e : firstDay year month = gregorianWeekday year month 1 := by
    rw [firstDay_eq h0 h1, makeFullYear_of_not_two_digit hy]
  have hb := firstDay_bounds year month
  rw [e] at hb
  refine ⟨?_, ?_, rfl, hb.1, hb.2, by omega⟩
  · rw [leadingPadding_calendarCells, e]
    omega
  · rw [← e]
    exact getElem?_calendarCells_firstDay year month today selected

theorem leading_padding_is_weekday_of_first_witness :
    ((0 : Int) ≤ 10 ∧ (10 : Int) ≤ 11 ∧ ((2026 : Int) < 0 ∨ (99 : Int) < 2026))
      ∧ (leadingPadding (calendarCells 2026 10 (newDate 2026 10 6) none) : Int)
        = gregorianWeekday 2026 10 1
      ∧ gregorianWeekday 2026 10 1 = 0 :=
  ⟨by decide,
    (leading_padding_is_weekday_of_first 2026 10 (newDate 2026 10 6) none
      (by decide) (by decide) (by decide)).1,
    by decide⟩

/-- C4: for every year and month the trailing padding count
`nextMonthPadding = 42 - (firstDay + daysInMonth)` is never negative, as
`firstDay ≤ 6` and `daysInMonth ≤ 31`; the cells after the month are exactly
`nextMonthPadding` padding cells, numbered 1, 2, ... `nextMonthPadding`. -/
theorem nextMonthPadding_never_negative (year month today : Int) (selected : Option String) :
    nextMonthPadding year month = 42 - (firstDay year month + daysInMonth year month)
      ∧ 0 ≤ nextMonthPadding year month
      ∧ 0 ≤ firstDay year month ∧ firstDay year month ≤ 6
      ∧ 1 ≤ daysInMonth year month ∧ daysInMonth year month ≤ 31
      ∧ (calendarCells year month today selected).drop
            (firstDay year month + daysInMonth year month).toNat
          = (List.range (nextMonthPadding year month).toNat).map
              (fun (k : Nat) => Cell.otherMonth ((k : Int) + 1))
      ∧ (((calendarCells year month today selected).drop
            (firstDay year month + daysInMonth year month).toNat).length : Int)
          = nextMonthPadding year month := by
  have h1 := firstDay_bounds year month
  have h2 := daysInMonth_bounds year month
  have h3 := nextMonthPadding_nonneg year month
  have hd : (calendarCells year month today selected).drop
      (firstDay year month + daysInMonth year month).toNat
        = nextMonthCells (nextMonthPadding year month) := by
    unfold calendarCells
    apply List.drop_left'
    rw [List.length_append, length_prevMonthCells, length_currentMonthCells]
    omega
  refine ⟨rfl, h3, h1.1, h1.2, h2.1, h2.2, ?_, ?_⟩
  · rw [hd]
    rfl
  · rw [hd, length_nextMonthCells]
    omega


/-! ## The calendar grid: the flags of a cell -/

/-- In a list without repetition, a property that at most one element can have
selects at most one element. -/
theorem length_filter_le_one {α : Type} (p : α → Bool) :
    ∀ (l : List α), l.Nodup →
      (∀ a ∈ l, ∀ b ∈ l, p a = true → p b = true → a = b) → (l.filter p).length ≤ 1
  | [], _, _ => by simp
  | x :: xs, hn, hp => by
    have hn2 := List.nodup_cons.mp hn
    have ih := length_filter_le_one p xs hn2.2
      (fun a ha b hb => hp a (List.mem_cons_of_mem _ ha) b (List.mem_cons_of_mem _ hb))
    by_cases hx : p x = true
    · have hnil : xs.filter p = [] := by
        rw [List.filter_eq_nil_iff]
        intro b hb hpb
        have := hp x (List.mem_cons_self _ _) b (List.mem_cons_of_mem _ hb) hx hpb
        exact hn2.1 (this ▸ hb)
      simp [List.filter_cons, hx, hnil]
    · simp only [List.filter_cons, hx, if_false, Bool.false_eq_true]
      exact ih

/-- A cell of the displayed month in the grid is the cell of some day `i` that
the middle loop visits. -/
theorem day_mem_calendarCells {year month today : Int} {selected : Option String}
    {i : Int} {ds : String} {p sl t : Bool}
    (h : Cell.day i ds p sl t ∈ calendarCells year month today selected) :
    1 ≤ i ∧ i ≤ daysInMonth year month
      ∧ Cell.day i ds p sl t = dayCell year month today selected i := by
  unfold calendarCells at h
  rw [List.mem_append, List.mem_append] at h
  rcases h with (h | h) | h
  · simp [prevMonthCells] at h
  · simp only [currentMonthCells, List.mem_map, List.mem_range] at h
    obtain ⟨k, hk, e⟩ := h
    have hi : i = (k : Int) + 1 := by
      unfold dayCell at e
      simp only at e
      injection e with e1
      exact e1.symm
    subst hi
    exact ⟨by omega, by omega, e.symm⟩
  · simp [nextMonthCells] at h

theorem day_newDate (year month i : Int) :
    day (newDate year month i) = makeDay (makeFullYear year) month i := by
  unfold newDate
  exact day_makeDate_zero _

theorem newDate_lt_today (year month i now : Int) :
    newDate year month i < setHoursZero now ↔ day (newDate year month i) < day now := by
  rw [day_newDate]
  unfold newDate setHoursZero makeDate day msPerDay
  omega

theorem newDate_eq_today (year month i now : Int) :
    newDate year month i = setHoursZero now ↔ day (newDate year month i) = day now := by
  rw [day_newDate]
  unfold newDate setHoursZero makeDate day msPerDay
  omega

theorem newDate_injective {year month i j : Int} (h : newDate year month i = newDate year month j) :
    i = j := by
  unfold newDate makeDate makeDay msPerDay at h
  simp only at h
  omega

theorem filter_calendarCells_eq (year month today : Int) (selected : Option String)
    (q : Cell → Bool) (hq : ∀ n, q (Cell.otherMonth n) = false) :
    (calendarCells year month today selected).filter q
      = ((List.range (daysInMonth year month).toNat).filter
          (fun (k : Nat) => q (dayCell year month today selected ((k : Int) + 1)))).map
          (fun (k : Nat) => dayCell year month today selected ((k : Int) + 1)) := by
  unfold calendarCells
  have e1 : (prevMonthCells (firstDay year month) (prevMonthDays year month)).filter q = [] := by
    simp [prevMonthCells, List.filter_eq_nil_iff, hq]
  have e2 : (nextMonthCells (nextMonthPadding year month)).filter q = [] := by
    simp [nextMonthCells, List.filter_eq_nil_iff, hq]
  rw [List.filter_append, List.filter_append, e1, e2]
  simp [currentMonthCells, List.filter_map, Function.comp_def]

/-- Within a year, the order of the days is the order of their months and days
of the month. -/
theorem year_day_order (w1 w2 l : Int) (hl : l = 0 ∨ l = 1) (h1 : 0 ≤ w1) (h2 : w1 < 365 + l)
    (h3 : 0 ≤ w2) (h4 : w2 < 365 + l) :
    (w1 < w2 ↔ (monthOfYearDay w1 l < monthOfYearDay w2 l
        ∨ (monthOfYearDay w1 l = monthOfYearDay w2 l
          ∧ dateOfYearDay (monthOfYearDay w1 l) w1 l
            < dateOfYearDay (monthOfYearDay w2 l) w2 l)))
      ∧ (w1 = w2 ↔ (monthOfYearDay w1 l = monthOfYearDay w2 l
          ∧ dateOfYearDay (monthOfYearDay w1 l) w1 l
            = dateOfYearDay (monthOfYearDay w2 l) w2 l)) := by
  have key : ∀ w : Int, 0 ≤ w → w < 365 + l →
      ∃ m d : Int, monthOfYearDay w l = m ∧ dateOfYearDay (monthOfYearDay w l) w l = d
        ∧ 0 ≤ m ∧ m ≤ 11 ∧ 1 ≤ d ∧ d ≤ 31
        ∧ (m = 0 → w = d - 1) ∧ (m = 1 → w = 30 + d ∧ d ≤ 28 + l)
        ∧ (m = 2 → w = 58 + l + d) ∧ (m = 3 → w = 89 + l + d ∧ d ≤ 30)
        ∧ (m = 4 → w = 119 + l + d) ∧ (m = 5 → w = 150 + l + d ∧ d ≤ 30)
        ∧ (m = 6 → w = 180 + l + d) ∧ (m = 7 → w = 211 + l + d)
        ∧ (m = 8 → w = 242 + l + d ∧ d ≤ 30) ∧ (m = 9 → w = 272 + l + d)
        ∧ (m = 10 → w = 303 + l + d ∧ d ≤ 30) ∧ (m = 11 → w = 333 + l + d) := by
    intro w hw0 hw1
    refine ⟨_, _, rfl, rfl, ?_⟩
    unfold dateOfYearDay monthOfYearDay
    omega
  obtain ⟨m1, d1, e1, f1, k1⟩ := key w1 h1 h2
  obtain ⟨m2, d2, e2, f2, k2⟩ := key w2 h3 h4
  rw [f1, e1, f2, e2]
  obtain ⟨a1, a2, a3, a4, k1⟩ := k1
  obtain ⟨b1, b2, b3, b4, k2⟩ := k2
  interval_cases m1 <;> simp only [OfNat.ofNat_ne_zero, OfNat.zero_ne_ofNat, OfNat.ofNat_ne_one,
      OfNat.one_ne_ofNat, Nat.reduceEqDiff, Int.reduceEq, false_implies, true_implies,
      and_true, true_and] at k1 <;>
    interval_cases m2 <;> simp only [OfNat.ofNat_ne_zero, OfNat.zero_ne_ofNat,
      OfNat.ofNat_ne_one, OfNat.one_ne_ofNat, Nat.reduceEqDiff, Int.reduceEq, false_implies,
      true_implies, and_true, true_and] at k2 <;> omega

/-- The day number of a date of the calendar against any day number: it is
smaller exactly when the date lies before the date of that day, and equal
exactly when the dates are the same. -/
theorem makeDay_order {y m i : Int} (h0 : 0 ≤ m) (h1 : m ≤ 11) (h2 : 1 ≤ i)
    (h3 : i ≤ gregorianMonthLength y m) (dn : Int) :
    (makeDay y m i < dn
        ↔ dateBefore y m i (yearFromDay dn) (monthFromDay dn) (dateFromDay dn))
      ∧ (makeDay y m i = dn
        ↔ (y = yearFromDay dn ∧ m = monthFromDay dn ∧ i = dateFromDay dn)) := by
  obtain ⟨t0, t1, t2, t3⟩ := month_tables h0 h1 h2 h3
  rw [makeDay_of_month h0 h1]
  have hn0 := dayWithinYear_nonneg dn
  have hn1 := dayWithinYear_lt dn
  have hdn : dn = dayFromYear (yearFromDay dn) + dayWithinYear dn := by
    unfold dayWithinYear
    omega
  simp only [dateFromDay, monthFromDay, dateBefore]
  generalize dayWithinYear dn = wn at *
  generalize yearFromDay dn = yn at *
  generalize daysBeforeMonth y m + i - 1 = wc at *
  rcases lt_trichotomy y yn with hlt | heq | hgt
  · have a1 := dayFromYear_mono (show y + 1 ≤ yn by omega)
    have a2 := dayFromYear_succ y
    have a3 := inLeapYear_eq y
    constructor
    · exact ⟨fun _ => Or.inl hlt, fun _ => by omega⟩
    · exact ⟨fun e => by omega, fun e => by omega⟩
  · subst heq
    obtain ⟨o1, o2⟩ := year_day_order wc wn (inLeapYear y) (inLeapYear_cases y) t0 t1 hn0 hn1
    rw [t2, t3] at o1 o2
    constructor
    · constructor
      · intro hlt
        exact Or.inr ⟨rfl, o1.mp (by omega)⟩
      · intro hb
        rcases hb with hb | ⟨_, hb⟩
        · omega
        · have := o1.mpr hb
          omega
    · constructor
      · intro e
        have := o2.mp (by omega)
        exact ⟨rfl, this.1, this.2⟩
      · intro e
        have := o2.mpr ⟨e.2.1, e.2.2⟩
        omega
  · have a1 := dayFromYear_mono (show yn + 1 ≤ y by omega)
    have a2 := dayFromYear_succ yn
    have a3 := inLeapYear_eq yn
    constructor
    · constructor
      · intro hlt
        omega
      · intro hb
        rcases hb with hb | ⟨hb, _⟩ <;> omega
    · exact ⟨fun e => by omega, fun e => by omega⟩

theorem dayCell_mem_calendarCells (year month today : Int) (selected : Option String)
    (i : Int) (hi1 : 1 ≤ i) (hi2 : i ≤ daysInMonth year month) :
    dayCell year month today selected i ∈ calendarCells year month today selected := by
  unfold calendarCells
  rw [List.mem_append, List.mem_append]
  refine Or.inl (Or.inr ?_)
  simp only [currentMonthCells, List.mem_map, List.mem_range]
  refine ⟨(i - 1).toNat, by omega, ?_⟩
  have e : (((i - 1).toNat : Nat) : Int) + 1 = i := by omega
  rw [e]

theorem isDay_mem_calendarCells (year month today : Int) (selected : Option String) :
    ∀ c ∈ calendarCells year month today selected, c.isDay = true →
      ∃ j, 1 ≤ j ∧ j ≤ daysInMonth year month ∧ c = dayCell year month today selected j := by
  intro c hc hday
  cases c with
  | header text => exact absurd hday (by simp [Cell.isDay])
  | otherMonth n => exact absurd hday (by simp [Cell.isDay])
  | day i ds p sl t =>
    obtain ⟨a, b, e⟩ := day_mem_calendarCells hc
    exact ⟨i, a, b, e⟩

/-- The flags of the cell of day `i` follow the date that the `Date` constructor
builds, `(makeFullYear year, month, i)`, against the date of `now`. -/
theorem dayCell_flags_by_constructor_date (year month now : Int) (selected : Option String)
    (i : Int) (h0 : 0 ≤ month) (h1 : month ≤ 11) (hi1 : 1 ≤ i)
    (hi2 : i ≤ daysInMonth year month) :
    ((dayCell year month (setHoursZero now) selected i).isPast = true
        ↔ dateBefore (makeFullYear year) month i (getFullYear now) (getMonth now) (getDate now))
      ∧ ((dayCell year month (setHoursZero now) selected i).isToday = true
        ↔ (makeFullYear year = getFullYear now ∧ month = getMonth now ∧ i = getDate now)) := by
  have hlen : i ≤ gregorianMonthLength (makeFullYear year) month := by
    rw [daysInMonth_eq h0 h1] at hi2
    exact hi2
  obtain ⟨o1, o2⟩ := makeDay_order h0 h1 hi1 hlen (day now)
  have a := newDate_lt_today year month i now
  have b := newDate_eq_today year month i now
  rw [day_newDate] at a b
  unfold getFullYear getMonth getDate
  simp only [dayCell, Cell.isPast, Cell.isToday, decide_eq_true_eq]
  exact ⟨a.trans o1, b.trans o2⟩

theorem timeClip_of_ne_none {x : Int} (h : timeClip x ≠ none) : timeClip x = some x := by
  unfold timeClip at h ⊢
  split_ifs at h ⊢ with hx
  · exact absurd rfl h
  · rfl

/-- In a zone that keeps the local midnights of different days in their order,
and with both dates valid, the cell computed with the zone and the range limit
is the cell computed on local time. -/
theorem zoned_dayCell_eq (z : TimeZone) (year month now : Int) (selected : Option String)
    (i : Int)
    (hz : ∀ d1 d2 : Int, d1 < d2 → z.utc (makeDate d1 0) < z.utc (makeDate d2 0))
    (hc : Zoned.newDate z year month i ≠ none)
    (ht : Zoned.setHoursZero z (some now) ≠ none) :
    Zoned.dayCell z year month now selected i
      = dayCell year month (setHoursZero (z.localTime now)) selected i := by
  have e1 := timeClip_of_ne_none hc
  have e2 : Zoned.setHoursZero z (some now)
      = some (z.utc (makeDate (day (z.localTime now)) 0)) := timeClip_of_ne_none ht
  have hord : ∀ d1 d2 : Int,
      (z.utc (makeDate d1 0) < z.utc (makeDate d2 0) ↔ makeDate d1 0 < makeDate d2 0)
        ∧ (z.utc (makeDate d1 0) = z.utc (makeDate d2 0) ↔ makeDate d1 0 = makeDate d2 0) := by
    intro d1 d2
    have hm : ∀ a b : Int, (makeDate a 0 < makeDate b 0 ↔ a < b)
        ∧ (makeDate a 0 = makeDate b 0 ↔ a = b) := by
      intro a b
      unfold makeDate msPerDay
      constructor <;> constructor <;> intro h <;> omega
    rw [(hm d1 d2).1, (hm d1 d2).2]
    rcases lt_trichotomy d1 d2 with h | h | h
    · have := hz d1 d2 h
      exact ⟨⟨fun _ => h, fun _ => this⟩, ⟨fun e => by omega, fun e => by omega⟩⟩
    · subst h
      exact ⟨⟨fun e => by omega, fun e => by omega⟩, ⟨fun _ => rfl, fun _ => rfl⟩⟩
    · have := hz d2 d1 h
      exact ⟨⟨fun e => by omega, fun e => by omega⟩, ⟨fun e => by omega, fun e => by omega⟩⟩
  unfold Zoned.dayCell dayCell
  simp only
  unfold Zoned.newDate at e1 ⊢
  rw [e1, e2]
  unfold newDate setHoursZero Zoned.dateLt Zoned.sameTime
  simp only
  have h3 := hord (makeDay (makeFullYear year) month i) (day (z.localTime now))
  congr 1
  · exact decide_eq_decide.mpr h3.1
  · exact decide_eq_decide.mpr h3.2

/-- C5, the counterexample: in January of the year 50, in the zone UTC, with
today the 5th of January 1950, the cell of day 5 (date string `50-01-05`) is
marked today and not past, although the date 5 January 50 lies before today; the
`Date` constructor reads the year 50 as 1950. -/
theorem today_flag_january_year_fifty :
    Zoned.dayCell (fixedOffset 0) 50 0 (newDate 1950 0 5 + 3600000) none 5
        = Cell.day 5 "50-01-05" false false true
      ∧ Cell.day 5 "50-01-05" false false true
          ∈ calendarCells 50 0 (setHoursZero (newDate 1950 0 5 + 3600000)) none
      ∧ (getFullYear (newDate 1950 0 5 + 3600000), getMonth (newDate 1950 0 5 + 3600000),
          getDate (newDate 1950 0 5 + 3600000)) = (1950, 0, 5)
      ∧ dateBefore 50 0 5 1950 0 5 := by
  decide

/-- C5, amended: let the zone keep the local midnights of different days in
their order, let the date of the cell of day `i` and today be valid dates, and
let the year be outside 0..99, or today lie before the date of the cell or
after that day of the year 1900 + year.  Then the cell of day `i` of the
displayed month is in the grid and carries its flags by its date
`(year, month, i)` against the date `(Y, M, D)` of today: a date before today is
past and not today, the date of today is today and not past, a later date is
neither; every cell of the month is such a cell, and at most one cell of the
grid is marked today. -/
theorem past_and_today_flags_by_date (z : TimeZone) (year month now : Int)
    (selected : Option String) (i Y M D : Int)
    (hz : ∀ d1 d2 : Int, d1 < d2 → z.utc (makeDate d1 0) < z.utc (makeDate d2 0))
    (hc : Zoned.newDate z year month i ≠ none)
    (ht : Zoned.setHoursZero z (some now) ≠ none)
    (hT : (getFullYear (z.localTime now), getMonth (z.localTime now), getDate (z.localTime now))
      = (Y, M, D))
    (h0 : 0 ≤ month) (h1 : month ≤ 11) (hi1 : 1 ≤ i) (hi2 : i ≤ daysInMonth year month)
    (hy : (year < 0 ∨ 99 < year) ∨ dateBefore Y M D year month i
      ∨ dateBefore (1900 + year) month i Y M D) :
    Zoned.dayCell z year month now selected i
        = dayCell year month (setHoursZero (z.localTime now)) selected i
      ∧ Zoned.dayCell z year month now selected i
          ∈ calendarCells year month (setHoursZero (z.localTime now)) selected
      ∧ (dateBefore year month i Y M D →
          (Zoned.dayCell z year month now selected i).isPast = true
            ∧ (Zoned.dayCell z year month now selected i).isToday = false)
      ∧ ((year = Y ∧ month = M ∧ i = D) →
          (Zoned.dayCell z year month now selected i).isToday = true
            ∧ (Zoned.dayCell z year month now selected i).isPast = false)
      ∧ (dateBefore Y M D year month i →
          (Zoned.dayCell z year month now selected i).isPast = false
            ∧ (Zoned.dayCell z year month now selected i).isToday = false)
      ∧ (∀ c ∈ calendarCells year month (setHoursZero (z.localTime now)) selected,
          c.isDay = true → ∃ j, 1 ≤ j ∧ j ≤ daysInMonth year month
            ∧ c = dayCell year month (setHoursZero (z.localTime now)) selected j)
      ∧ ((calendarCells year month (setHoursZero (z.localTime now)) selected).filter
          Cell.isToday).length ≤ 1 := by
  have hcell := zoned_dayCell_eq z year month now selected i hz hc ht
  obtain ⟨fp, ft⟩ :=
    dayCell_flags_by_constructor_date year month (z.localTime now) selected i h0 h1 hi1 hi2
  simp only [Prod.mk.injEq] at hT
  obtain ⟨hY, hM, hD⟩ := hT
  rw [hY, hM, hD] at fp ft
  rw [← hcell] at fp ft
  have hmf : (year < 0 ∨ 99 < year) ∧ makeFullYear year = year
      ∨ (0 ≤ year ∧ year ≤ 99) ∧ makeFullYear year = 1900 + year := by
    unfold makeFullYear
    by_cases hr : 0 ≤ year ∧ year ≤ 99
    · exact Or.inr ⟨hr, by simp only [hr, and_self, if_true]⟩
    · exact Or.inl ⟨by omega, by simp only [hr, if_false]⟩
  generalize makeFullYear year = ye at *
  refine ⟨hcell, ?_, ?_, ?_, ?_, isDay_mem_calendarCells _ _ _ _, ?_⟩
  · rw [hcell]
    exact dayCell_mem_calendarCells _ _ _ _ _ hi1 hi2
  · intro hb
    have hp : dateBefore ye month i Y M D := by
      unfold dateBefore at hb hy ⊢
      omega
    refine ⟨fp.mpr hp, ?_⟩
    rw [Bool.eq_false_iff]
    intro h
    have := ft.mp h
    unfold dateBefore at hp
    omega
  · intro he
    have hq : ye = Y ∧ month = M ∧ i = D := by
      unfold dateBefore at hy
      omega
    refine ⟨ft.mpr hq, ?_⟩
    rw [Bool.eq_false_iff]
    intro h
    have := fp.mp h
    unfold dateBefore at this
    omega
  · intro hb
    constructor
    · rw [Bool.eq_false_iff]
      intro h
      have := fp.mp h
      unfold dateBefore at this hb hy
      omega
    · rw [Bool.eq_false_iff]
      intro h
      have := ft.mp h
      unfold dateBefore at hb hy
      omega
  · rw [filter_calendarCells_eq _ _ _ _ _ (fun _ => rfl), List.length_map]
    apply length_filter_le_one _ _ (List.nodup_range _)
    intro x _ y _ hx hy2
    simp only [dayCell, Cell.isToday, decide_eq_true_eq] at hx hy2
    have := newDate_injective (hx.trans hy2.symm)
    omega

theorem past_and_today_flags_by_date_witness :
    ((∀ d1 d2 : Int, d1 < d2 →
          (fixedOffset 7200000).utc (makeDate d1 0) < (fixedOffset 7200000).utc (makeDate d2 0))
        ∧ Zoned.newDate (fixedOffset 7200000) 2026 10 6 ≠ none
        ∧ Zoned.setHoursZero (fixedOffset 7200000) (some (newDate 2026 10 6 - 3600000)) ≠ none
        ∧ (getFullYear ((fixedOffset 7200000).localTime (newDate 2026 10 6 - 3600000)),
            getMonth ((fixedOffset 7200000).localTime (newDate 2026 10 6 - 3600000)),
            getDate ((fixedOffset 7200000).localTime (newDate 2026 10 6 - 3600000)))
          = (2026, 10, 6)
        ∧ (0 : Int) ≤ 10 ∧ (10 : Int) ≤ 11 ∧ (1 : Int) ≤ 6 ∧ (6 : Int) ≤ daysInMonth 2026 10
        ∧ (((2026 : Int) < 0 ∨ (99 : Int) < 2026) ∨ dateBefore 2026 10 6 2026 10 6
          ∨ dateBefore (1900 + 2026) 10 6 2026 10 6))
      ∧ (Zoned.dayCell (fixedOffset 7200000) 2026 10 (newDate 2026 10 6 - 3600000) none 6).isToday
          = true
      ∧ (Zoned.dayCell (fixedOffset 7200000) 2026 10 (newDate 2026 10 6 - 3600000) none 6).isPast
          = false :=
  ⟨⟨fun d1 d2 h => by
      show makeDate d1 0 - 7200000 < makeDate d2 0 - 7200000
      unfold makeDate msPerDay
      omega,
    by decide, by decide, by decide, by decide, by decide, by decide, by decide, by decide⟩,
    ((past_and_today_flags_by_date (fixedOffset 7200000) 2026 10 (newDate 2026 10 6 - 3600000)
      none 6 2026 10 6
      (fun d1 d2 h => by
        show makeDate d1 0 - 7200000 < makeDate d2 0 - 7200000
        unfold makeDate msPerDay
        omega)
      (by decide) (by decide) (by decide) (by decide) (by decide) (by decide) (by decide)
      (by decide)).2.2.2.1 (by decide)).1,
    ((past_and_today_flags_by_date (fixedOffset 7200000) 2026 10 (newDate 2026 10 6 - 3600000)
      none 6 2026 10 6
      (fun d1 d2 h => by
        show makeDate d1 0 - 7200000 < makeDate d2 0 - 7200000
        unfold makeDate msPerDay
        omega)
      (by decide) (by decide) (by decide) (by decide) (by decide) (by decide) (by decide)
      (by decide)).2.2.2.1 (by decide)).2⟩

theorem onclick_call_ne_empty (ds : String) :
    "selectRescheduleDate(\x27" ++ ds ++ "\x27)" ≠ "" := by
  intro h
  have := congrArg String.length h
  simp only [String.length_append] at this
  have e : "\x27)".length = 2 := by decide
  have z : "".length = 0 := by decide
  omega

/-- C6, the counterexample: in January of the year 50, in the zone UTC, with
today the 3rd of January 1950, the cell of day 5 calls `selectRescheduleDate`
with the date string `50-01-05`, although the date 5 January 50 lies before
today. -/
theorem click_action_january_year_fifty :
    Zoned.dayCell (fixedOffset 0) 50 0 (newDate 1950 0 3 + 3600000) none 5
        = Cell.day 5 "50-01-05" false false false
      ∧ Cell.day 5 "50-01-05" false false false
          ∈ calendarCells 50 0 (setHoursZero (newDate 1950 0 3 + 3600000)) none
      ∧ (Cell.day 5 "50-01-05" false false false).onclick
          = some "selectRescheduleDate(\x2750-01-05\x27)"
      ∧ (getFullYear (newDate 1950 0 3 + 3600000), getMonth (newDate 1950 0 3 + 3600000),
          getDate (newDate 1950 0 3 + 3600000)) = (1950, 0, 3)
      ∧ dateBefore 50 0 5 1950 0 3 := by
  decide

/-- C6, amended: let the zone keep the local midnights of different days in
their order, let the date of the cell of day `i` and today be valid dates, and
let the year be outside 0..99, or the date of the cell not lie before today, or
today lie after that day of the year 1900 + year.  Then the cell of day `i` of
the displayed month is in the grid and has an empty click action exactly when
its date `(year, month, i)` lies before the date `(Y, M, D)` of today; every
other cell of the month calls `selectRescheduleDate` with its own date string,
built from the year, the month plus one and the day of that cell. -/
theorem click_action_by_date (z : TimeZone) (year month now : Int)
    (selected : Option String) (i Y M D : Int)
    (hz : ∀ d1 d2 : Int, d1 < d2 → z.utc (makeDate d1 0) < z.utc (makeDate d2 0))
    (hc : Zoned.newDate z year month i ≠ none)
    (ht : Zoned.setHoursZero z (some now) ≠ none)
    (hT : (getFullYear (z.localTime now), getMonth (z.localTime now), getDate (z.localTime now))
      = (Y, M, D))
    (h0 : 0 ≤ month) (h1 : month ≤ 11) (hi1 : 1 ≤ i) (hi2 : i ≤ daysInMonth year month)
    (hy : (year < 0 ∨ 99 < year) ∨ ¬ dateBefore year month i Y M D
      ∨ dateBefore (1900 + year) month i Y M D) :
    Zoned.dayCell z year month now selected i
        = dayCell year month (setHoursZero (z.localTime now)) selected i
      ∧ Zoned.dayCell z year month now selected i
          ∈ calendarCells year month (setHoursZero (z.localTime now)) selected
      ∧ ((Zoned.dayCell z year month now selected i).onclick = some ""
          ↔ dateBefore year month i Y M D)
      ∧ (¬ dateBefore year month i Y M D →
          (Zoned.dayCell z year month now selected i).onclick
            = some ("selectRescheduleDate(\x27" ++ toString year ++ "-"
                ++ padStart2 (toString (month + 1)) ++ "-" ++ padStart2 (toString i)
                ++ "\x27)"))
      ∧ (Zoned.dayCell z year month now selected i).number = some i
      ∧ (∀ c ∈ calendarCells year month (setHoursZero (z.localTime now)) selected,
          c.isDay = true → ∃ j, 1 ≤ j ∧ j ≤ daysInMonth year month
            ∧ c = dayCell year month (setHoursZero (z.localTime now)) selected j) := by
  have hcell := zoned_dayCell_eq z year month now selected i hz hc ht
  obtain ⟨fp, _⟩ :=
    dayCell_flags_by_constructor_date year month (z.localTime now) selected i h0 h1 hi1 hi2
  simp only [Prod.mk.injEq] at hT
  obtain ⟨hY, hM, hD⟩ := hT
  rw [hY, hM, hD] at fp
  have hmf : (year < 0 ∨ 99 < year) ∧ makeFullYear year = year
      ∨ (0 ≤ year ∧ year ≤ 99) ∧ makeFullYear year = 1900 + year := by
    unfold makeFullYear
    by_cases hr : 0 ≤ year ∧ year ≤ 99
    · exact Or.inr ⟨hr, by simp only [hr, and_self, if_true]⟩
    · exact Or.inl ⟨by omega, by simp only [hr, if_false]⟩
  have fq : (dayCell year month (setHoursZero (z.localTime now)) selected i).isPast = true
      ↔ dateBefore year month i Y M D := by
    rw [fp]
    generalize makeFullYear year = ye at *
    unfold dateBefore at hy ⊢
    constructor <;> intro h <;> omega
  have hon : (dayCell year month (setHoursZero (z.localTime now)) selected i).onclick
      = some (if (dayCell year month (setHoursZero (z.localTime now)) selected i).isPast then ""
          else "selectRescheduleDate(\x27" ++ dateStr year month i ++ "\x27)") := rfl
  rw [hcell]
  refine ⟨rfl, dayCell_mem_calendarCells _ _ _ _ _ hi1 hi2, ?_, ?_, rfl,
    isDay_mem_calendarCells _ _ _ _⟩
  · rw [hon, ← fq]
    cases hp : (dayCell year month (setHoursZero (z.localTime now)) selected i).isPast
    · simp only [Bool.false_eq_true, if_false, Option.some.injEq, iff_false]
      exact onclick_call_ne_empty _
    · simp only [if_true]
  · intro hb
    have hp : (dayCell year month (setHoursZero (z.localTime now)) selected i).isPast = false := by
      rw [Bool.eq_false_iff]
      exact fun h => hb (fq.mp h)
    rw [hon, hp]
    rfl

theorem click_action_by_date_witness :
    ((∀ d1 d2 : Int, d1 < d2 →
          (fixedOffset 7200000).utc (makeDate d1 0) < (fixedOffset 7200000).utc (makeDate d2 0))
        ∧ Zoned.newDate (fixedOffset 7200000) 2026 10 6 ≠ none
        ∧ Zoned.setHoursZero (fixedOffset 7200000) (some (newDate 2026 10 6 - 3600000)) ≠ none
        ∧ (getFullYear ((fixedOffset 7200000).localTime (newDate 2026 10 6 - 3600000)),
            getMonth ((fixedOffset 7200000).localTime (newDate 2026 10 6 - 3600000)),
            getDate ((fixedOffset 7200000).localTime (newDate 2026 10 6 - 3600000)))
          = (2026, 10, 6)
        ∧ (0 : Int) ≤ 10 ∧ (10 : Int) ≤ 11 ∧ (1 : Int) ≤ 6 ∧ (6 : Int) ≤ daysInMonth 2026 10
        ∧ (((2026 : Int) < 0 ∨ (99 : Int) < 2026) ∨ ¬ dateBefore 2026 10 6 2026 10 6
          ∨ dateBefore (1900 + 2026) 10 6 2026 10 6))
      ∧ (Zoned.dayCell (fixedOffset 7200000) 2026 10 (newDate 2026 10 6 - 3600000) none
          6).onclick
          = some ("selectRescheduleDate(\x27" ++ toString (2026 : Int) ++ "-"
              ++ padStart2 (toString ((10 : Int) + 1)) ++ "-" ++ padStart2 (toString (6 : Int))
              ++ "\x27)") :=
  ⟨⟨fun d1 d2 h => by
      show makeDate d1 0 - 7200000 < makeDate d2 0 - 7200000
      unfold makeDate msPerDay
      omega,
    by decide, by decide, by decide, by decide, by decide, by decide, by decide, by decide⟩,
    (click_action_by_date (fixedOffset 7200000) 2026 10 (newDate 2026 10 6 - 3600000)
      none 6 2026 10 6
      (fun d1 d2 h => by
        show makeDate d1 0 - 7200000 < makeDate d2 0 - 7200000
        unfold makeDate msPerDay
        omega)
      (by decide) (by decide) (by decide) (by decide) (by decide) (by decide) (by decide)
      (by decide)).2.2.2.1 (by decide)⟩

/-- The two characters of a padded day or month number from 1 to 31. -/
theorem padStart2_digits {i : Int} (h1 : 1 ≤ i) (h2 : i ≤ 31) :
    (padStart2 (toString i)).data.map Char.toNat = [48 + (i / 10).toNat, 48 + (i % 10).toNat] := by
  interval_cases i <;> decide

theorem padStart2_length {i : Int} (h1 : 1 ≤ i) (h2 : i ≤ 31) :
    (padStart2 (toString i)).length = 2 := by
  have h := congrArg List.length (padStart2_digits h1 h2)
  simpa using h

/-- Within a month, different days have different date strings. -/
theorem dateStr_injective {year month i j : Int} (hi1 : 1 ≤ i) (hi2 : i ≤ 31) (hj1 : 1 ≤ j)
    (hj2 : j ≤ 31) (h : dateStr year month i = dateStr year month j) : i = j := by
  unfold dateStr at h
  have hd := congrArg String.data h
  simp only [String.data_append] at hd
  have hp := List.append_cancel_left hd
  have hm := congrArg (List.map Char.toNat) hp
  rw [padStart2_digits hi1 hi2, padStart2_digits hj1 hj2] at hm
  simp only [List.cons.injEq, and_true] at hm
  omega

/-- C7: a cell of the displayed month is marked selected exactly when its date
string (the year, then the month plus one and the day, both padded with a zero
to two digits) equals `AppState.selectedRescheduleDate`; at most one cell of the
grid is marked selected, and a selected cell is never a padding cell. -/
theorem selected_flag_of_day_cells (year month today : Int) (selected : Option String)
    (i : Int) (ds : String) (p sl t : Bool)
    (h : Cell.day i ds p sl t ∈ calendarCells year month today selected) :
    (sl = true ↔ selected = some (dateStr year month i))
      ∧ ds = toString year ++ "-" ++ padStart2 (toString (month + 1)) ++ "-"
              ++ padStart2 (toString i)
      ∧ (padStart2 (toString i)).length = 2
      ∧ (0 ≤ month → month ≤ 11 → (padStart2 (toString (month + 1))).length = 2)
      ∧ ((calendarCells year month today selected).filter Cell.isSelected).length ≤ 1
      ∧ (∀ c ∈ calendarCells year month today selected, c.isSelected = true → c.isDay = true)
      ∧ (selected = none →
          (calendarCells year month today selected).filter Cell.isSelected = []) := by
  obtain ⟨hi1, hi2, e⟩ := day_mem_calendarCells h
  have hdim := (daysInMonth_bounds year month).2
  unfold dayCell at e
  simp only at e
  injection e with _ hds _ hsl _
  subst hds hsl
  refine ⟨by simp, rfl, padStart2_length hi1 (by omega), ?_, ?_, ?_, ?_⟩
  · intro h0 h1
    exact padStart2_length (by omega) (by omega)
  · rw [filter_calendarCells_eq _ _ _ _ _ (fun _ => rfl), List.length_map]
    apply length_filter_le_one _ _ (List.nodup_range _)
    intro x hx y hy hsx hsy
    rw [List.mem_range] at hx hy
    simp only [dayCell, Cell.isSelected, decide_eq_true_eq] at hsx hsy
    have e2 : dateStr year month ((x : Int) + 1) = dateStr year month ((y : Int) + 1) :=
      Option.some.inj (hsx.symm.trans hsy)
    have := dateStr_injective (by omega) (by omega) (by omega) (by omega) e2
    omega
  · intro c _ hc
    cases c <;> simp_all [Cell.isSelected, Cell.isDay]
  · intro hnone
    rw [filter_calendarCells_eq _ _ _ _ _ (fun _ => rfl)]
    simp [dayCell, Cell.isSelected, hnone]

theorem selected_flag_of_day_cells_witness :
    Cell.day 9 "2026-11-09" false true false
        ∈ calendarCells 2026 10 (newDate 2026 10 6) (some "2026-11-09")
      ∧ some "2026-11-09" = some (dateStr 2026 10 9)
      ∧ ((calendarCells 2026 10 (newDate 2026 10 6) (some "2026-11-09")).filter
          Cell.isSelected).length ≤ 1 :=
  ⟨by decide,
    (selected_flag_of_day_cells 2026 10 (newDate 2026 10 6) (some "2026-11-09") 9
      "2026-11-09" false true false (by decide)).1.mp rfl,
    (selected_flag_of_day_cells 2026 10 (newDate 2026 10 6) (some "2026-11-09") 9
      "2026-11-09" false true false (by decide)).2.2.2.2.1⟩


/-! ## Month navigation -/

set_option maxRecDepth 100000

theorem day_makeDate_timeWithinDay (d t : Int) : day (makeDate d (timeWithinDay t)) = d := by
  unfold day makeDate timeWithinDay msPerDay
  omega

theorem makeDay_normalise (y m dt : Int) : makeDay y m dt = makeDay (y + m / 12) (m % 12) dt := by
  unfold makeDay
  have e1 : m % 12 / 12 = 0 := by omega
  have e2 : m % 12 % 12 = m % 12 := by omega
  simp only [e1, e2, add_zero]

/-- When the day of the month is at most 28, `setMonth` lands in the month it
is given, normalised into the year, and keeps the day of the month. -/
theorem setMonth_of_date_le_28 (t m : Int) (h : getDate t ≤ 28) :
    getFullYear (setMonth t m) = getFullYear t + m / 12
      ∧ getMonth (setMonth t m) = m % 12
      ∧ getDate (setMonth t m) = getDate t := by
  have hb := dateFromDay_bounds (day t)
  have hl := gregorianMonthLength_bounds (yearFromDay (day t) + m / 12) (m % 12)
  have h0 : 0 ≤ m % 12 := by omega
  have h1 : m % 12 ≤ 11 := by omega
  have h3 : dateFromDay (day t) ≤ gregorianMonthLength (yearFromDay (day t) + m / 12) (m % 12) := by
    unfold getDate at h
    omega
  unfold getFullYear getMonth getDate setMonth
  rw [day_makeDate_timeWithinDay, makeDay_normalise]
  exact ⟨yearFromDay_makeDay h0 h1 hb.1 h3, monthFromDay_makeDay h0 h1 hb.1 h3,
    dateFromDay_makeDay h0 h1 hb.1 h3⟩

/-- C8, at the failing input: with the calendar date on 31 January 2025 (at
10:00), `changeRescheduleMonth(1)` displays March 2025, as `setMonth` keeps the
day 31 and February has 28 days; the normalisation of month + delta is
February 2025. -/
theorem changeRescheduleMonth_from_january_31 :
    displayed { rescheduleCalendarDate := newDate 2025 0 31 + 36000000 } = (2025, 0)
      ∧ getDate (newDate 2025 0 31 + 36000000) = 31
      ∧ displayed (changeRescheduleMonth
            { rescheduleCalendarDate := newDate 2025 0 31 + 36000000 } 1) = (2025, 2)
      ∧ getDate (changeRescheduleMonth
            { rescheduleCalendarDate := newDate 2025 0 31 + 36000000 } 1).rescheduleCalendarDate
          = 3
      ∧ ((12 * 2025 + 0 + 1) / 12, (12 * 2025 + 0 + 1) % 12) = ((2025, 1) : Int × Int) := by
  decide

/-- C9, at the failing inputs: with the modal opened on 31 January 2025, twelve
steps of +1 followed by twelve steps of -1 end on February 2025, not January;
with the modal opened on 29 February 2028, one step of +12 and one of -12 end on
March 2028, not February. -/
theorem changeRescheduleMonth_round_trip_fails :
    displayed (openRescheduleModal { rescheduleCalendarDate := 0 } 7
        (newDate 2025 0 31 + 36000000)) = (2025, 0)
      ∧ displayed (changeRescheduleMonthTimes (-1) 12 (changeRescheduleMonthTimes 1 12
          (openRescheduleModal { rescheduleCalendarDate := 0 } 7
            (newDate 2025 0 31 + 36000000)))) = (2025, 1)
      ∧ displayed (openRescheduleModal { rescheduleCalendarDate := 0 } 7
          (newDate 2028 1 29 + 36000000)) = (2028, 1)
      ∧ displayed (changeRescheduleMonth (changeRescheduleMonth
          (openRescheduleModal { rescheduleCalendarDate := 0 } 7
            (newDate 2028 1 29 + 36000000)) 12) (-12)) = (2028, 2) := by
  decide

/-! ## The doctor filter -/

theorem jsTrim_of_all_whiteSpace {term : String} (h : ∀ c ∈ term.data, isJsWhiteSpace c = true) :
    jsTrim term = "" := by
  have e : term.data.dropWhile isJsWhiteSpace = [] := by
    rw [List.dropWhile_eq_nil_iff]
    exact h
  unfold jsTrim
  rw [e]
  rfl

/-- C10: with no specialty id (the empty string) and a search term that is
empty or made of white space only, `filterDoctors` renders the full doctor list
unchanged: the same doctors in the same order. -/
theorem filterDoctors_without_filter (toLowerCase : String → String) (s : AppState)
    (searchTerm : String) (h : ∀ c ∈ searchTerm.data, isJsWhiteSpace c = true) :
    filteredDoctors toLowerCase s "" searchTerm = s.doctors
      ∧ filterDoctors toLowerCase s "" searchTerm = renderDoctors s.doctors
      ∧ (s.doctors ≠ [] →
          filterDoctors toLowerCase s "" searchTerm = DoctorsGrid.cards s.doctors) := by
  have e : filteredDoctors toLowerCase s "" searchTerm = s.doctors := by
    unfold filteredDoctors
    simp [jsTrim_of_all_whiteSpace h]
  refine ⟨e, ?_, ?_⟩
  · unfold filterDoctors
    rw [e]
  · intro hne
    unfold filterDoctors renderDoctors
    rw [e]
    have : s.doctors.length ≠ 0 := by
      intro hl
      exact hne (List.length_eq_zero.mp hl)
    simp only [this, if_false]

theorem filterDoctors_without_filter_witness :
    (∀ c ∈ " \t".data, isJsWhiteSpace c = true)
      ∧ filterDoctors String.toLower
          { rescheduleCalendarDate := 0,
            doctors := [⟨1, "Ann Lee", "Cardiology", 3, false⟩, ⟨2, "Bob Ray", "Dermatology", 4, false⟩] }
          "" " \t"
        = DoctorsGrid.cards [⟨1, "Ann Lee", "Cardiology", 3, false⟩, ⟨2, "Bob Ray", "Dermatology", 4, false⟩] :=
  ⟨by decide,
    (filterDoctors_without_filter String.toLower
      { rescheduleCalendarDate := 0,
        doctors := [⟨1, "Ann Lee", "Cardiology", 3, false⟩, ⟨2, "Bob Ray", "Dermatology", 4, false⟩] }
      " \t" (by decide)).2.2 (by decide)⟩



/-! ## Translation lookup -/

theorem translationsEn_values_ne_empty : ∀ p ∈ translationsEn, p.2 ≠ "" := by decide

theorem translationsRo_values_ne_empty : ∀ p ∈ translationsRo, p.2 ≠ "" := by decide

theorem mem_of_lookup_eq_some {key v : String} :
    ∀ {entries : List (String × String)}, entries.lookup key = some v → (key, v) ∈ entries
  | [], h => by simp [List.lookup] at h
  | (k, w) :: rest, h => by
    by_cases e : key = k
    · subst e
      simp [List.lookup] at h
      subst h
      exact List.mem_cons_self _ _
    · have hb : (key == k) = false := by simpa using e
      simp only [List.lookup, hb] at h
      exact List.mem_cons_of_mem _ (mem_of_lookup_eq_some h)

/-- For a supported language, a key of the table gives its mapped string. -/
theorem t_of_present_key (host : JsValue → String → JsValue) (lang key v : String)
    (hl : lang = "en" ∨ lang = "ro")
    (hv : (if lang = "en" then translationsEn else translationsRo).lookup key = some v) :
    LanguageManager.t host ⟨lang⟩ key [] = Except.ok (JsValue.str v) := by
  have hne : v ≠ "" := by
    rcases hl with rfl | rfl
    · exact translationsEn_values_ne_empty _ (mem_of_lookup_eq_some hv)
    · exact translationsRo_values_ne_empty _ (mem_of_lookup_eq_some hv)
  rcases hl with rfl | rfl
  · simp only [if_true] at hv
    simp [LanguageManager.t, LanguageManager.lookupText, translationsGet, getProperty, hv,
      JsValue.truthy, hne, substitute]
  · have e : ("ro" = "en") = False := by decide
    simp only [e, if_false] at hv
    simp [LanguageManager.t, LanguageManager.lookupText, translationsGet, getProperty, hv,
      JsValue.truthy, hne, substitute]

/-- For a supported language, a key that is neither in the table nor the name of
a property of `Object.prototype` gives the key itself. -/
theorem t_of_missing_key (host : JsValue → String → JsValue) (lang key : String)
    (hl : lang = "en" ∨ lang = "ro")
    (hv : (if lang = "en" then translationsEn else translationsRo).lookup key = none)
    (hk : key ∉ objectPrototypeKeys) :
    LanguageManager.t host ⟨lang⟩ key [] = Except.ok (JsValue.str key) := by
  rcases hl with rfl | rfl
  · simp only [if_true] at hv
    simp [LanguageManager.t, LanguageManager.lookupText, translationsGet, getProperty, hv, hk,
      JsValue.truthy, substitute]
  · have e : ("ro" = "en") = False := by decide
    simp only [e, if_false] at hv
    simp [LanguageManager.t, LanguageManager.lookupText, translationsGet, getProperty, hv, hk,
      JsValue.truthy, substitute]

/-- C13, at the failing input: the key `constructor` is in neither table, and
`t("constructor")` returns the function every object literal inherits under
that name, which is not the key string. -/
theorem t_of_inherited_key (host : JsValue → String → JsValue) :
    translationsEn.lookup "constructor" = none
      ∧ translationsRo.lookup "constructor" = none
      ∧ LanguageManager.t host ⟨"en"⟩ "constructor" [] = Except.ok (JsValue.other true)
      ∧ LanguageManager.t host ⟨"ro"⟩ "constructor" [] = Except.ok (JsValue.other true)
      ∧ LanguageManager.t host ⟨"en"⟩ "constructor" [] ≠ Except.ok (JsValue.str "constructor") := by
  refine ⟨by decide, by decide, rfl, rfl, ?_⟩
  intro h
  have e : LanguageManager.t host ⟨"en"⟩ "constructor" [] = Except.ok (JsValue.other true) := rfl
  rw [e] at h
  exact absurd h (by decide)

/-- C14, at the failing input: with the persisted language `fr` the constructor
takes `fr` as the active language, `translations["fr"]` is `undefined`, and
`t` throws a `TypeError` for every key and every parameter object. -/
theorem t_throws_for_unsupported_language (host : JsValue → String → JsValue) (key : String)
    (params : List (String × String)) :
    (LanguageManager.new (some "fr")).currentLang = "fr"
      ∧ translationsGet "fr" = JsValue.undefined
      ∧ LanguageManager.t host (LanguageManager.new (some "fr")) key params
          = Except.error JsError.typeError := by
  refine ⟨by decide, by decide, ?_⟩
  have e : LanguageManager.new (some "fr") = ⟨"fr"⟩ := by decide
  have g : translationsGet "fr" = JsValue.undefined := by decide
  rw [e]
  simp only [LanguageManager.t, LanguageManager.lookupText, g, getProperty]

/-- C15, at the failing input: for the template `{x} and {x}` (a key missing
from the table, so the text is the key) and the parameters `{x: "a"}`, `t`
replaces the first occurrence only and returns `a and {x}`. -/
theorem t_replaces_first_occurrence_only (host : JsValue → String → JsValue) :
    LanguageManager.t host ⟨"en"⟩ "\x7bx\x7d and \x7bx\x7d" [("x", "a")]
        = Except.ok (JsValue.str "a and \x7bx\x7d")
      ∧ jsReplace "\x7bx\x7d and \x7bx\x7d" "\x7bx\x7d" "a" = "a and \x7bx\x7d" := by
  refine ⟨?_, by decide⟩
  have e : LanguageManager.lookupText host ⟨"en"⟩ "\x7bx\x7d and \x7bx\x7d"
      = Except.ok (JsValue.str "\x7bx\x7d and \x7bx\x7d") := rfl
  simp only [LanguageManager.t, e]
  decide

/-- What `findFirst` returns is an occurrence of the pattern. -/
theorem findFirst_eq_some {pat : List Char} :
    ∀ {text before after : List Char}, findFirst pat text = some (before, after) →
      text = before ++ pat ++ after
  | [], before, after, h => by
    unfold findFirst at h
    split_ifs at h with hp
    simp only [Option.some.injEq, Prod.mk.injEq] at h
    obtain ⟨rfl, rfl⟩ := h
    simp [hp]
  | c :: cs, before, after, h => by
    unfold findFirst at h
    split_ifs at h with hp
    · simp only [Option.some.injEq, Prod.mk.injEq] at h
      obtain ⟨rfl, rfl⟩ := h
      rw [List.nil_append]
      exact (List.prefix_iff_eq_append.mp hp).symm
    · cases hr : findFirst pat cs with
      | none => simp [hr] at h
      | some r =>
        obtain ⟨b, a⟩ := r
        simp only [hr, Option.map_some', Option.some.injEq, Prod.mk.injEq] at h
        obtain ⟨rfl, rfl⟩ := h
        rw [findFirst_eq_some hr]
        simp

/-- The occurrence `findFirst` returns is the first one: the pattern does not
start anywhere in the text before it. -/
theorem findFirst_is_first {pat : List Char} (hne : pat ≠ []) :
    ∀ {text before after : List Char}, findFirst pat text = some (before, after) →
      ∀ b a : List Char, text = b ++ pat ++ a → before.length ≤ b.length
  | [], before, after, h, b, a, _ => by
    unfold findFirst at h
    simp [hne] at h
  | c :: cs, before, after, h, b, a, hb => by
    unfold findFirst at h
    split_ifs at h with hp
    · simp only [Option.some.injEq, Prod.mk.injEq] at h
      obtain ⟨rfl, rfl⟩ := h
      simp
    · cases hr : findFirst pat cs with
      | none => simp [hr] at h
      | some r =>
        obtain ⟨b2, a2⟩ := r
        simp only [hr, Option.map_some', Option.some.injEq, Prod.mk.injEq] at h
        obtain ⟨rfl, rfl⟩ := h
        cases b with
        | nil =>
          exfalso
          apply hp
          rw [hb, List.nil_append]
          exact List.prefix_append _ _
        | cons x b3 =>
          have e : cs = b3 ++ pat ++ a := by
            simp only [List.cons_append, List.cons.injEq] at hb
            exact hb.2
          have := findFirst_is_first hne hr b3 a e
          simp only [List.length_cons]
          omega

/-- A pattern that occurs in the text is found. -/
theorem findFirst_isSome_of_occurrence {pat : List Char} :
    ∀ {text : List Char}, pat <:+: text → ∃ r, findFirst pat text = some r
  | [], h => by
    have : pat = [] := List.eq_nil_of_infix_nil h
    exact ⟨([], []), by simp [findFirst, this]⟩
  | c :: cs, h => by
    unfold findFirst
    split_ifs with hp
    · exact ⟨_, rfl⟩
    · rcases List.infix_cons_iff.mp h with h1 | h1
      · exact absurd h1 hp
      · obtain ⟨r, hr⟩ := findFirst_isSome_of_occurrence h1
        exact ⟨_, by rw [hr]; rfl⟩

theorem findFirst_eq_none {pat text : List Char} (h : ¬ pat <:+: text) :
    findFirst pat text = none := by
  cases hr : findFirst pat text with
  | none => rfl
  | some r =>
    exfalso
    apply h
    obtain ⟨b, a⟩ := r
    rw [findFirst_eq_some hr]
    exact ⟨b, a, rfl⟩

/-- A replacement text without a dollar sign stands for itself. -/
theorem getSubstitution_of_no_dollar (matched before after : List Char) :
    ∀ (rep : List Char), '$' ∉ rep → getSubstitution matched before after false rep = rep
  | [], _ => rfl
  | c :: r, h => by
    have hc : c ≠ '$' := fun e => h (e ▸ List.mem_cons_self _ _)
    have hr : '$' ∉ r := fun e => h (List.mem_cons_of_mem _ e)
    simp only [getSubstitution, hc, if_false]
    rw [getSubstitution_of_no_dollar matched before after r hr]

theorem placeholder_data (name : String) :
    (placeholder name).data = '\x7b' :: (name.data ++ ['\x7d']) := by
  simp [placeholder, String.data_append]

/-- A text without an opening brace that starts a list holding one cannot run
into the brace. -/
theorem prefix_of_no_open_brace :
    ∀ {body a y : List Char}, '\x7b' ∉ body → body <+: a ++ '\x7b' :: y → body <+: a
  | [], _, _, _, _ => List.nil_prefix
  | b :: bs, [], y, hb, h => by
    rw [List.nil_append, List.cons_prefix_cons] at h
    exact absurd (h.1 ▸ List.mem_cons_self b bs) hb
  | b :: bs, a :: as, y, hb, h => by
    rw [List.cons_append, List.cons_prefix_cons] at h
    rw [List.cons_prefix_cons]
    exact ⟨h.1, prefix_of_no_open_brace (fun e => hb (List.mem_cons_of_mem _ e)) h.2⟩

/-- Two placeholders of plain names that start at the same place are equal. -/
theorem name_eq_of_same_start :
    ∀ {n k post : List Char}, '\x7d' ∉ n → '\x7d' ∉ k →
      n ++ ['\x7d'] <+: k ++ '\x7d' :: post → n = k
  | [], [], _, _, _, _ => rfl
  | [], c :: k, post, _, hk, h => by
    rw [List.nil_append, List.cons_append, List.cons_prefix_cons] at h
    exact absurd (h.1 ▸ List.mem_cons_self c k) hk
  | a :: n, [], post, hn, _, h => by
    rw [List.cons_append, List.nil_append, List.cons_prefix_cons] at h
    exact absurd (h.1 ▸ List.mem_cons_self a n) hn
  | a :: n, c :: k, post, hn, hk, h => by
    rw [List.cons_append, List.cons_append, List.cons_prefix_cons] at h
    rw [h.1, name_eq_of_same_start (fun e => hn (List.mem_cons_of_mem _ e))
      (fun e => hk (List.mem_cons_of_mem _ e)) h.2]

/-- A placeholder does not start inside the name of another placeholder. -/
theorem infix_after_name {p : List Char} (hp : ∃ body, p = '\x7b' :: body) :
    ∀ {k post : List Char}, '\x7b' ∉ k → p <:+: k ++ '\x7d' :: post → p <:+: post
  | [], post, _, h => by
    obtain ⟨body, rfl⟩ := hp
    rw [List.nil_append] at h
    rcases List.infix_cons_iff.mp h with h1 | h1
    · rw [List.cons_prefix_cons] at h1
      exact absurd h1.1 (by decide)
    · exact h1
  | c :: k, post, hk, h => by
    rw [List.cons_append] at h
    rcases List.infix_cons_iff.mp h with h1 | h1
    · obtain ⟨body, rfl⟩ := hp
      rw [List.cons_prefix_cons] at h1
      exact absurd (h1.1 ▸ List.mem_cons_self c k) hk
    · exact infix_after_name hp (fun e => hk (List.mem_cons_of_mem _ e)) h1

/-- An occurrence of the placeholder of a plain name `n` in a text that holds
the placeholder of another plain name `k` lies before or after it. -/
theorem infix_before_or_after {n k : List Char} (hn1 : '\x7b' ∉ n) (hn2 : '\x7d' ∉ n)
    (hk1 : '\x7b' ∉ k) (hk2 : '\x7d' ∉ k) (hne : n ≠ k) :
    ∀ {pre post : List Char},
      '\x7b' :: (n ++ ['\x7d']) <:+: pre ++ '\x7b' :: (k ++ ['\x7d']) ++ post →
      '\x7b' :: (n ++ ['\x7d']) <:+: pre ∨ '\x7b' :: (n ++ ['\x7d']) <:+: post
  | [], post, h => by
    right
    rw [List.nil_append, List.cons_append, List.append_assoc, List.singleton_append] at h
    rcases List.infix_cons_iff.mp h with h1 | h1
    · rw [List.cons_prefix_cons] at h1
      exact absurd (name_eq_of_same_start hn2 hk2 h1.2) hne
    · exact infix_after_name ⟨_, rfl⟩ hk1 h1
  | c :: pre, post, h => by
    rw [List.cons_append, List.cons_append] at h
    rcases List.infix_cons_iff.mp h with h1 | h1
    · left
      rw [List.cons_prefix_cons, List.append_assoc, List.cons_append] at h1
      have hbody : '\x7b' ∉ n ++ ['\x7d'] := by
        intro e
        rcases List.mem_append.mp e with e | e
        · exact hn1 e
        · simp at e
      have := prefix_of_no_open_brace hbody h1.2
      exact (List.cons_prefix_cons.mpr ⟨h1.1, this⟩).isInfix
    · rcases infix_before_or_after hn1 hn2 hk1 hk2 hne h1 with h2 | h2
      · exact Or.inl (List.infix_cons h2)
      · exact Or.inr h2

/-- One call of `replace` for the placeholder of a plain name keeps every
other placeholder of a plain name in the text. -/
theorem placeholder_infix_jsReplace {name param : String} (hn : isPlainName name)
    (hp : isPlainName param) (hne : param ≠ name) (text value : String)
    (h : (placeholder name).data <:+: text.data) :
    (placeholder name).data <:+: (jsReplace text (placeholder param) value).data := by
  unfold jsReplace
  cases hf : findFirst (placeholder param).data text.data with
  | none => exact h
  | some r =>
    obtain ⟨before, after⟩ := r
    simp only
    have e := findFirst_eq_some hf
    rw [e, placeholder_data, placeholder_data] at h
    have hne2 : name.data ≠ param.data := fun e2 => hne (String.ext e2.symm)
    rw [placeholder_data]
    rcases infix_before_or_after hn.1 hn.2 hp.1 hp.2 hne2 h with h1 | h1
    · obtain ⟨u, v, huv⟩ := h1
      exact ⟨u, v ++ (getSubstitution (placeholder param).data before after false value.data
        ++ after), by rw [← huv]; simp⟩
    · obtain ⟨u, v, huv⟩ := h1
      exact ⟨before ++ getSubstitution (placeholder param).data before after false value.data
        ++ u, v, by rw [← huv]; simp⟩

/-- The loop of `t` on a string text keeps the placeholder of every plain name
that is not a parameter, when the parameter names are plain. -/
theorem placeholder_infix_substitute {name : String} (hn : isPlainName name) :
    ∀ (params : List (String × String)) (text : String),
      (∀ p ∈ params, isPlainName p.1) → (∀ p ∈ params, p.1 ≠ name) →
      (placeholder name).data <:+: text.data →
      ∃ res, substitute (JsValue.str text) params = Except.ok (JsValue.str res)
        ∧ (placeholder name).data <:+: res.data
  | [], text, _, _, h => ⟨text, rfl, h⟩
  | (param, value) :: rest, text, hk, hne, h => by
    have h1 := placeholder_infix_jsReplace hn (hk (param, value) (List.mem_cons_self _ _))
      (hne (param, value) (List.mem_cons_self _ _)) text value h
    obtain ⟨res, hr, hi⟩ := placeholder_infix_substitute hn rest
      (jsReplace text (placeholder param) value)
      (fun p hp => hk p (List.mem_cons_of_mem _ hp))
      (fun p hp => hne p (List.mem_cons_of_mem _ hp)) h1
    exact ⟨res, by simp only [substitute, replaceMethod, hr], hi⟩

/-- C16, the counterexample: for the template `{b}x}` and the parameter object
with the single key `b}x`, the placeholder `{b}` of the template is not left in
the result, although `b` is not a key of the parameters. -/
theorem unmatched_placeholder_replaced :
    (placeholder "b").data <:+: "\x7bb\x7dx\x7d".data
      ∧ (∀ p ∈ [("b\x7dx", "Y")], p.1 ≠ "b")
      ∧ LanguageManager.t (fun _ _ => JsValue.undefined) ⟨"en"⟩ "\x7bb\x7dx\x7d"
          [("b\x7dx", "Y")] = Except.ok (JsValue.str "Y")
      ∧ ¬ (placeholder "b").data <:+: "Y".data := by
  decide

/-- C16, amended: when the keys of the parameter object hold no brace, a
placeholder `{name}` (of a name without a brace) that is in the looked-up text
and whose name is not a key of the parameters is still in the result of `t`;
with empty parameters the result is the looked-up text unchanged. -/
theorem unmatched_placeholder_left_verbatim (host : JsValue → String → JsValue)
    (m : LanguageManager) (key tpl name : String) (params : List (String × String))
    (htpl : m.lookupText host key = Except.ok (JsValue.str tpl))
    (hname : isPlainName name) (hkeys : ∀ p ∈ params, isPlainName p.1)
    (hnot : ∀ p ∈ params, p.1 ≠ name)
    (hocc : (placeholder name).data <:+: tpl.data) :
    (∃ res, m.t host key params = Except.ok (JsValue.str res)
        ∧ (placeholder name).data <:+: res.data)
      ∧ m.t host key [] = Except.ok (JsValue.str tpl) := by
  constructor
  · obtain ⟨res, hr, hi⟩ := placeholder_infix_substitute hname params tpl hkeys hnot hocc
    exact ⟨res, by simp only [LanguageManager.t, htpl, hr], hi⟩
  · simp only [LanguageManager.t, htpl, substitute]

theorem unmatched_placeholder_left_verbatim_witness :
    (LanguageManager.lookupText (fun _ _ => JsValue.undefined) ⟨"en"⟩ "toast.load.error"
        = Except.ok (JsValue.str "Failed to load \x7bitem\x7d")
      ∧ isPlainName "item" ∧ (∀ p ∈ [("theme", "dark")], isPlainName p.1)
      ∧ (∀ p ∈ [("theme", "dark")], p.1 ≠ "item")
      ∧ (placeholder "item").data <:+: "Failed to load \x7bitem\x7d".data)
      ∧ LanguageManager.t (fun _ _ => JsValue.undefined) ⟨"en"⟩ "toast.load.error" []
          = Except.ok (JsValue.str "Failed to load \x7bitem\x7d") :=
  ⟨⟨by decide, by decide, by decide, by decide, by decide⟩,
    (unmatched_placeholder_left_verbatim (fun _ _ => JsValue.undefined) ⟨"en"⟩
      "toast.load.error" "Failed to load \x7bitem\x7d" "item" [("theme", "dark")]
      (by decide) (by decide) (by decide) (by decide) (by decide)).2⟩

/-- C17: with the language `en`, `t("toast.theme.switched", {theme: "dark"})`
returns `Switched to dark mode`; and for every looked-up text with exactly one
occurrence of `{theme}` and every value without a dollar sign, the result is the
text with that occurrence replaced by the value and all else unchanged. -/
theorem t_substitutes_theme (host : JsValue → String → JsValue) (m : LanguageManager)
    (key tpl v : String) (pre post : List Char)
    (htpl : m.lookupText host key = Except.ok (JsValue.str tpl))
    (hocc : tpl.data = pre ++ (placeholder "theme").data ++ post)
    (hone : ∀ b a, tpl.data = b ++ (placeholder "theme").data ++ a → b = pre)
    (hv : '$' ∉ v.data) :
    LanguageManager.t host ⟨"en"⟩ "toast.theme.switched" [("theme", "dark")]
        = Except.ok (JsValue.str "Switched to dark mode")
      ∧ m.t host key [("theme", v)] = Except.ok (JsValue.str ⟨pre ++ v.data ++ post⟩) := by
  constructor
  · have e : LanguageManager.lookupText host ⟨"en"⟩ "toast.theme.switched"
        = Except.ok (JsValue.str "Switched to \x7btheme\x7d mode") := rfl
    simp only [LanguageManager.t, e]
    decide
  · obtain ⟨r, hr⟩ := @findFirst_isSome_of_occurrence (placeholder "theme").data tpl.data
      ⟨pre, post, hocc.symm⟩
    obtain ⟨b, a⟩ := r
    have e := findFirst_eq_some hr
    have hb : b = pre := hone b a e
    subst hb
    have ha : a = post := by
      rw [hocc, List.append_assoc, List.append_assoc] at e
      exact (List.append_cancel_left (List.append_cancel_left e)).symm
    subst ha
    simp only [LanguageManager.t, htpl, substitute, replaceMethod, jsReplace, hr,
      getSubstitution_of_no_dollar _ _ _ _ hv]

theorem t_substitutes_theme_witness :
    (LanguageManager.lookupText (fun _ _ => JsValue.undefined) ⟨"ro"⟩ "toast.theme.switched"
        = Except.ok (JsValue.str "Schimbat la modul \x7btheme\x7d")
      ∧ '$' ∉ "light".data)
      ∧ LanguageManager.t (fun _ _ => JsValue.undefined) ⟨"ro"⟩ "toast.theme.switched"
          [("theme", "light")] = Except.ok (JsValue.str "Schimbat la modul light") :=
  ⟨⟨by decide, by decide⟩,
    (t_substitutes_theme (fun _ _ => JsValue.undefined) ⟨"ro"⟩ "toast.theme.switched"
      "Schimbat la modul \x7btheme\x7d" "light" "Schimbat la modul ".data []
      (by decide) (by decide)
      (by
        intro b a h
        have hp : (placeholder "theme").data.length = 7 := by decide
        have ht : "Schimbat la modul \x7btheme\x7d".data.length = 25 := by decide
        have hl := congrArg List.length h
        rw [List.length_append, List.length_append, hp, ht] at hl
        have hd : (placeholder "theme").data
            <+: ("Schimbat la modul \x7btheme\x7d".data).drop b.length := by
          rw [h, List.append_assoc, List.drop_left]
          exact List.prefix_append _ _
        have all : ∀ n, n < 19 → (placeholder "theme").data
            <+: ("Schimbat la modul \x7btheme\x7d".data).drop n → n = 18 := by decide
        have hlen : b.length = 18 := all b.length (by omega) hd
        have hb : b = ("Schimbat la modul \x7btheme\x7d".data).take 18 := by
          rw [h, List.append_assoc, List.take_left' hlen]
        rw [hb]
        decide)
      (by decide)).2⟩


/-! ## The doctor filter: the specialty id and the search term -/

/-- The ten digit characters: none is white space, a sign or the letter of a
radix prefix, and each has its value as a decimal digit. -/
theorem digit_chars :
    ∀ c ∈ "0123456789".data,
      isJsWhiteSpace c = false ∧ c ≠ '-' ∧ c ≠ '+' ∧ c ≠ 'x' ∧ c ≠ 'X'
        ∧ digitValue c = some (c.toNat - 48) ∧ c.toNat - 48 < 10 := by
  decide

theorem digitChar_mem {m : Nat} (h : m < 10) : Nat.digitChar m ∈ "0123456789".data := by
  interval_cases m <;> decide

theorem digitChar_value {m : Nat} (h : m < 10) : (Nat.digitChar m).toNat - 48 = m := by
  interval_cases m <;> decide

theorem decimalValue_append_singleton (l : List Char) (c : Char) :
    decimalValue (l ++ [c]) = decimalValue l * 10 + (c.toNat - 48) := by
  simp [decimalValue, List.foldl_append]

/-- The decimal digits that `Nat.repr` writes are digit characters with the
value of the number. -/
theorem toDigitsCore_spec :
    ∀ (fuel n : Nat) (ds : List Char), n < fuel →
      ∃ l, Nat.toDigitsCore 10 fuel n ds = l ++ ds ∧ l ≠ []
        ∧ (∀ c ∈ l, c ∈ "0123456789".data) ∧ decimalValue l = n
  | 0, _, _, h => absurd h (Nat.not_lt_zero _)
  | fuel + 1, n, ds, h => by
    have hm : n % 10 < 10 := Nat.mod_lt _ (by decide)
    unfold Nat.toDigitsCore
    simp only
    split_ifs with h0
    · refine ⟨[Nat.digitChar (n % 10)], rfl, by simp, ?_, ?_⟩
      · intro c hc
        rw [List.mem_singleton] at hc
        exact hc ▸ digitChar_mem hm
      · have : decimalValue [Nat.digitChar (n % 10)] = (Nat.digitChar (n % 10)).toNat - 48 := by
          simp [decimalValue]
        rw [this, digitChar_value hm]
        omega
    · obtain ⟨l, hl, _, hd, hv⟩ := toDigitsCore_spec fuel (n / 10)
        (Nat.digitChar (n % 10) :: ds) (by omega)
      refine ⟨l ++ [Nat.digitChar (n % 10)], by rw [hl]; simp, by simp, ?_, ?_⟩
      · intro c hc
        rcases List.mem_append.mp hc with hc | hc
        · exact hd c hc
        · rw [List.mem_singleton] at hc
          exact hc ▸ digitChar_mem hm
      · rw [decimalValue_append_singleton, hv, digitChar_value hm]
        omega

theorem repr_spec (n : Nat) :
    ∃ l, (Nat.repr n).data = l ∧ l ≠ [] ∧ (∀ c ∈ l, c ∈ "0123456789".data)
      ∧ decimalValue l = n := by
  obtain ⟨l, hl, hne, hd, hv⟩ := toDigitsCore_spec (n + 1) n [] (Nat.lt_succ_self n)
  refine ⟨l, ?_, hne, hd, hv⟩
  simp only [Nat.repr, Nat.toDigits, hl, List.append_nil, List.asString]

theorem leadingDigits_of_digits :
    ∀ (l : List Char), (∀ c ∈ l, c ∈ "0123456789".data) →
      leadingDigits 10 l = l.map fun c => c.toNat - 48
  | [], _ => rfl
  | c :: cs, h => by
    obtain ⟨_, _, _, _, _, hv, hlt⟩ := digit_chars c (h c (List.mem_cons_self _ _))
    simp only [leadingDigits, hv, hlt, if_true, List.map_cons]
    rw [leadingDigits_of_digits cs (fun x hx => h x (List.mem_cons_of_mem _ hx))]


theorem radix_of_digits {c : Char} {cs : List Char} (hd : ∀ x ∈ c :: cs, x ∈ "0123456789".data) :
    (match c :: cs with
      | '0' :: 'x' :: rest => ((16, rest) : Nat × List Char)
      | '0' :: 'X' :: rest => (16, rest)
      | _ => (10, c :: cs)) = (10, c :: cs) := by
  split
  · rename_i rest heq
    have := (digit_chars 'x' (hd 'x' (by rw [heq]; simp))).2.2.2.1
    exact absurd rfl this
  · rename_i rest heq
    have := (digit_chars 'X' (hd 'X' (by rw [heq]; simp))).2.2.2.2.1
    exact absurd rfl this
  · rfl

theorem parseInt_of_digits (s : String) (c : Char) (cs : List Char) (hs : s.data = c :: cs)
    (hd : ∀ x ∈ c :: cs, x ∈ "0123456789".data) :
    parseInt s = some ((decimalValue (c :: cs) : Nat) : Int) := by
  obtain ⟨hw, hm, hp, _, _, _, _⟩ := digit_chars c (hd c (List.mem_cons_self _ _))
  have hsign : (match c :: cs with
      | '-' :: rest => ((-1, rest) : Int × List Char)
      | '+' :: rest => (1, rest)
      | _ => (1, c :: cs)) = (1, c :: cs) := by
    split
    · rename_i rest heq
      simp only [List.cons.injEq] at heq
      exact absurd heq.1 hm
    · rename_i rest heq
      simp only [List.cons.injEq] at heq
      exact absurd heq.1 hp
    · rfl
  unfold parseInt
  simp only [hs, List.dropWhile_cons, hw, Bool.false_eq_true, if_false, hsign,
    radix_of_digits hd]
  rw [leadingDigits_of_digits _ hd]
  simp [decimalValue]

theorem parseInt_of_minus_digits (s : String) (c : Char) (cs : List Char)
    (hs : s.data = '-' :: c :: cs) (hd : ∀ x ∈ c :: cs, x ∈ "0123456789".data) :
    parseInt s = some (-((decimalValue (c :: cs) : Nat) : Int)) := by
  have hw : isJsWhiteSpace '-' = false := by decide
  have hsign : (match '-' :: c :: cs with
      | '-' :: rest => ((-1, rest) : Int × List Char)
      | '+' :: rest => (1, rest)
      | _ => (1, '-' :: c :: cs)) = (-1, c :: cs) := rfl
  unfold parseInt
  simp only [hs, List.dropWhile_cons, hw, Bool.false_eq_true, if_false, hsign,
    radix_of_digits hd]
  rw [leadingDigits_of_digits _ hd]
  simp [decimalValue]

/-- The decimal string of an integer is read back by `parseInt`. -/
theorem parseInt_toString (n : Int) : parseInt (toString n) = some n := by
  cases n with
  | ofNat m =>
    obtain ⟨l, hl, hne, hd, hv⟩ := repr_spec m
    cases l with
    | nil => exact absurd rfl hne
    | cons c cs =>
      have hs : (toString (Int.ofNat m)).data = c :: cs := hl
      rw [parseInt_of_digits _ c cs hs hd, hv]
      rfl
  | negSucc m =>
    obtain ⟨l, hl, hne, hd, hv⟩ := repr_spec (m + 1)
    cases l with
    | nil => exact absurd rfl hne
    | cons c cs =>
      have hs : (toString (Int.negSucc m)).data = '-' :: c :: cs := by
        show ("-" ++ Nat.repr (m + 1)).data = _
        rw [String.data_append, hl]
        rfl
      rw [parseInt_of_minus_digits _ c cs hs hd, hv]
      rfl

theorem toString_int_ne_empty (n : Int) : toString n ≠ "" := by
  intro h
  have := parseInt_toString n
  rw [h] at this
  have e : parseInt "" = none := by decide
  rw [e] at this
  exact Option.noConfusion this

/-- C11: called with the decimal string of a specialty id and no search term,
`filterDoctors` renders exactly the doctors with that `specialty_id`, in their
original relative order; when K doctors of the list have the id, K are
rendered. -/
theorem filterDoctors_by_specialty (toLowerCase : String → String) (s : AppState) (sid : Int)
    (K : Nat) (hK : s.doctors.countP (fun d => decide (d.specialty_id = sid)) = K) :
    filteredDoctors toLowerCase s (toString sid) ""
        = s.doctors.filter (fun d => decide (d.specialty_id = sid))
      ∧ (filteredDoctors toLowerCase s (toString sid) "").length = K
      ∧ List.Sublist (filteredDoctors toLowerCase s (toString sid) "") s.doctors
      ∧ (∀ d, d ∈ filteredDoctors toLowerCase s (toString sid) ""
          ↔ d ∈ s.doctors ∧ d.specialty_id = sid)
      ∧ filterDoctors toLowerCase s (toString sid) ""
          = renderDoctors (s.doctors.filter (fun d => decide (d.specialty_id = sid))) := by
  have hblank : jsTrim "" = "" := by decide
  have e : filteredDoctors toLowerCase s (toString sid) ""
      = s.doctors.filter (fun d => decide (d.specialty_id = sid)) := by
    unfold filteredDoctors
    simp [toString_int_ne_empty, parseInt_toString, hblank]
  refine ⟨e, ?_, ?_, ?_, ?_⟩
  · rw [e, ← hK, List.countP_eq_length_filter]
  · rw [e]
    exact List.filter_sublist _
  · intro d
    rw [e]
    simp
  · unfold filterDoctors
    rw [e]

theorem filterDoctors_by_specialty_witness :
    [(⟨1, "Ann Lee", "Cardiology", 3, false⟩ : Doctor), ⟨2, "Bob Ray", "Dermatology", 4, false⟩,
        ⟨3, "Cy Orr", "Cardiology", 3, false⟩].countP (fun d => decide (d.specialty_id = 3)) = 2
      ∧ filteredDoctors String.toLower
          { rescheduleCalendarDate := 0,
            doctors := [⟨1, "Ann Lee", "Cardiology", 3, false⟩, ⟨2, "Bob Ray", "Dermatology", 4, false⟩,
              ⟨3, "Cy Orr", "Cardiology", 3, false⟩] }
          (toString (3 : Int)) ""
        = [⟨1, "Ann Lee", "Cardiology", 3, false⟩, ⟨3, "Cy Orr", "Cardiology", 3, false⟩] :=
  ⟨by decide,
    (filterDoctors_by_specialty String.toLower
      { rescheduleCalendarDate := 0,
        doctors := [⟨1, "Ann Lee", "Cardiology", 3, false⟩, ⟨2, "Bob Ray", "Dermatology", 4, false⟩,
          ⟨3, "Cy Orr", "Cardiology", 3, false⟩] }
      3 2 (by decide)).1⟩

/-- C12: for a specialty id (passed as its decimal string) and a search term
that is not blank, `filterDoctors` renders the doctors of the list, in their
order, whose `specialty_id` is the id and whose lower-cased name or lower-cased
specialty contains the lower-cased term; two terms with the same lower-case form
give the same result. -/
theorem filterDoctors_by_specialty_and_term (toLowerCase : String → String) (s : AppState)
    (sid : Int) (term : String) (hterm : jsTrim term ≠ "") :
    filteredDoctors toLowerCase s (toString sid) term
        = s.doctors.filter (fun d =>
            decide (d.specialty_id = sid)
              && (jsIncludes (toLowerCase d.full_name) (toLowerCase term)
                || jsIncludes (toLowerCase d.specialty) (toLowerCase term)))
      ∧ List.Sublist (filteredDoctors toLowerCase s (toString sid) term) s.doctors
      ∧ (∀ d, d ∈ filteredDoctors toLowerCase s (toString sid) term
          ↔ d ∈ s.doctors ∧ d.specialty_id = sid
            ∧ ((toLowerCase term).data <:+: (toLowerCase d.full_name).data
              ∨ (toLowerCase term).data <:+: (toLowerCase d.specialty).data))
      ∧ (∀ term2, jsTrim term2 ≠ "" → toLowerCase term2 = toLowerCase term →
          filteredDoctors toLowerCase s (toString sid) term2
            = filteredDoctors toLowerCase s (toString sid) term) := by
  have key : ∀ tm, jsTrim tm ≠ "" → filteredDoctors toLowerCase s (toString sid) tm
      = s.doctors.filter (fun d =>
          decide (d.specialty_id = sid)
            && (jsIncludes (toLowerCase d.full_name) (toLowerCase tm)
              || jsIncludes (toLowerCase d.specialty) (toLowerCase tm))) := by
    intro tm htm
    unfold filteredDoctors
    simp only [toString_int_ne_empty, parseInt_toString, htm, ne_eq, not_false_eq_true,
      if_true, Option.some.injEq, List.filter_filter]
    congr 1
    funext d
    exact Bool.and_comm _ _
  refine ⟨key term hterm, ?_, ?_, ?_⟩
  · rw [key term hterm]
    exact List.filter_sublist _
  · intro d
    rw [key term hterm]
    simp [jsIncludes]
  · intro term2 h2 he
    rw [key term2 h2, key term hterm, he]

theorem filterDoctors_by_specialty_and_term_witness :
    jsTrim "CARD" ≠ ""
      ∧ filteredDoctors String.toLower
          { rescheduleCalendarDate := 0,
            doctors := [⟨1, "Ann Lee", "Cardiology", 3, false⟩, ⟨2, "Bob Ray", "Dermatology", 4, false⟩,
              ⟨3, "Cy Orr", "Cardiology", 3, false⟩] }
          (toString (3 : Int)) "CARD"
        = [(⟨1, "Ann Lee", "Cardiology", 3, false⟩ : Doctor), ⟨2, "Bob Ray", "Dermatology", 4, false⟩,
            ⟨3, "Cy Orr", "Cardiology", 3, false⟩].filter (fun d =>
            decide (d.specialty_id = 3)
              && (jsIncludes (String.toLower d.full_name) (String.toLower "CARD")
                || jsIncludes (String.toLower d.specialty) (String.toLower "CARD"))) :=
  ⟨by decide,
    (filterDoctors_by_specialty_and_term String.toLower
      { rescheduleCalendarDate := 0,
        doctors := [⟨1, "Ann Lee", "Cardiology", 3, false⟩, ⟨2, "Bob Ray", "Dermatology", 4, false⟩,
          ⟨3, "Cy Orr", "Cardiology", 3, false⟩] }
      3 "CARD" (by decide)).1⟩


/-! ## Form handlers and favorites -/

theorem truthy_orElse (a b : Option String) :
    truthy (orElse a b) = (truthy a || truthy b) := by
  unfold orElse
  cases h : truthy a <;> simp [h]

/-- C18: `handleBookingSubmit` reaches `fetchAPI` exactly when a time slot is
selected (in `AppState.selectedTime` or in the time select) and the trimmed
first name, last name and email are all non-empty; the request is then the
`POST` of the form data to `appointments`, and in every other case the handler
returns after an error toast without a network call. -/
theorem handleBookingSubmit_validation (s : AppState) (inputs : BookingInputs) :
    ((∃ r, handleBookingSubmit s inputs = Submission.sent r)
        ↔ ((truthy s.selectedTime = true ∨ truthy inputs.timeSelect = true)
          ∧ jsTrim inputs.firstName ≠ "" ∧ jsTrim inputs.lastName ≠ ""
          ∧ jsTrim inputs.email ≠ ""))
      ∧ (∀ r, handleBookingSubmit s inputs = Submission.sent r →
          ∃ formData, r = Request.postAppointments formData
            ∧ formData.dateTime = orElse s.selectedTime inputs.timeSelect
            ∧ formData.firstName = jsTrim inputs.firstName
            ∧ formData.lastName = jsTrim inputs.lastName
            ∧ formData.email = jsTrim inputs.email)
      ∧ ((∃ message, handleBookingSubmit s inputs = Submission.blocked message)
        ↔ ((truthy s.selectedTime = false ∧ truthy inputs.timeSelect = false)
          ∨ jsTrim inputs.firstName = "" ∨ jsTrim inputs.lastName = ""
          ∨ jsTrim inputs.email = "")) := by
  have ht := truthy_orElse s.selectedTime inputs.timeSelect
  unfold handleBookingSubmit
  simp only
  generalize truthy (orElse s.selectedTime inputs.timeSelect) = tm at ht
  generalize truthy s.selectedTime = t1 at ht
  generalize truthy inputs.timeSelect = t2 at ht
  generalize jsTrim inputs.firstName = first
  generalize jsTrim inputs.lastName = last
  generalize jsTrim inputs.email = mail
  subst ht
  by_cases hf : first = "" <;> by_cases hl : last = "" <;> by_cases he : mail = "" <;>
    cases t1 <;> cases t2 <;> simp [hf, hl, he]

theorem handleBookingSubmit_validation_witness :
    handleBookingSubmit { rescheduleCalendarDate := 0 }
        ⟨some "2026-11-09T10:00:00", " Ann ", "Lee", "ann@example.org", "", ""⟩
      = Submission.sent (Request.postAppointments
          ⟨none, "Ann", "Lee", "ann@example.org", "", some "2026-11-09T10:00:00", "",
            "in-person"⟩)
      ∧ ∃ formData, Request.postAppointments
            ⟨none, "Ann", "Lee", "ann@example.org", "", some "2026-11-09T10:00:00", "",
              "in-person"⟩ = Request.postAppointments formData
          ∧ formData.dateTime = orElse none (some "2026-11-09T10:00:00")
          ∧ formData.firstName = jsTrim " Ann "
          ∧ formData.lastName = jsTrim "Lee"
          ∧ formData.email = jsTrim "ann@example.org" :=
  ⟨by decide,
    (handleBookingSubmit_validation { rescheduleCalendarDate := 0 }
      ⟨some "2026-11-09T10:00:00", " Ann ", "Lee", "ann@example.org", "", ""⟩).2.1 _
      (by decide)⟩

/-- C19: `handleReviewSubmit` returns after an error toast, before any call of
`fetchAPI`, when the rating field reads as zero or as no number (`parseInt`
gives `NaN`), as for the values `0` and the empty string; it reaches `fetchAPI`
only with a non-zero rating.  `submitReschedule` reaches `fetchAPI` exactly when
both a reschedule date and a reschedule time are selected. -/
theorem review_and_reschedule_validation (s : AppState) (ratingValue comment : String) :
    ((parseInt ratingValue = none ∨ parseInt ratingValue = some 0) →
        handleReviewSubmit s ratingValue comment = Submission.blocked "Please select a rating")
      ∧ handleReviewSubmit s "0" comment = Submission.blocked "Please select a rating"
      ∧ handleReviewSubmit s "" comment = Submission.blocked "Please select a rating"
      ∧ handleReviewSubmit s "abc" comment = Submission.blocked "Please select a rating"
      ∧ ((∃ r, handleReviewSubmit s ratingValue comment = Submission.sent r)
          ↔ ∃ n, parseInt ratingValue = some n ∧ n ≠ 0)
      ∧ ((∃ r, submitReschedule s = Submission.sent r)
          ↔ (truthy s.selectedRescheduleDate = true ∧ truthy s.selectedRescheduleTime = true))
      ∧ ((truthy s.selectedRescheduleDate = false ∨ truthy s.selectedRescheduleTime = false) →
          submitReschedule s = Submission.blocked "Please select both date and time") := by
  have h0 : parseInt "0" = some 0 := by decide
  have he : parseInt "" = none := by decide
  have ha : parseInt "abc" = none := by decide
  refine ⟨?_, ?_, ?_, ?_, ?_, ?_, ?_⟩
  · intro h
    unfold handleReviewSubmit
    simp only [h, if_true]
  · unfold handleReviewSubmit
    simp [h0]
  · unfold handleReviewSubmit
    simp [he]
  · unfold handleReviewSubmit
    simp [ha]
  · unfold handleReviewSubmit
    simp only
    cases hp : parseInt ratingValue with
    | none => simp
    | some n =>
      by_cases hn : n = 0
      · simp [hn]
      · simp [hn]
  · unfold submitReschedule
    cases truthy s.selectedRescheduleDate <;> cases truthy s.selectedRescheduleTime <;> simp
  · unfold submitReschedule
    cases truthy s.selectedRescheduleDate <;> cases truthy s.selectedRescheduleTime <;> simp

theorem review_and_reschedule_validation_witness :
    (parseInt "0x0" = none ∨ parseInt "0x0" = some 0)
      ∧ handleReviewSubmit { rescheduleCalendarDate := 0 } "0x0" "fine"
          = Submission.blocked "Please select a rating" :=
  ⟨by decide,
    (review_and_reschedule_validation { rescheduleCalendarDate := 0 } "0x0" "fine").1
      (by decide)⟩

theorem mem_setAdd (set : List Int) (x y : Int) : y ∈ setAdd set x ↔ y ∈ set ∨ y = x := by
  unfold setAdd
  split_ifs with h
  · constructor
    · exact Or.inl
    · rintro (h1 | h1)
      · exact h1
      · exact h1 ▸ h
  · simp

theorem setDelete_setAdd {set : List Int} {x : Int} (h : x ∉ set) :
    setDelete (setAdd set x) x = set := by
  unfold setAdd setDelete
  simp only [h, if_false, List.filter_append]
  have e : set.filter (fun y => decide (y ≠ x)) = set := by
    rw [List.filter_eq_self]
    intro a ha
    simp only [ne_eq, decide_eq_true_eq]
    exact fun e => h (e ▸ ha)
  rw [e]
  simp

/-- C20, the counterexample: the favorites set of the page is empty while the
backend holds doctor 5 as a favorite of the patient (the favorites were not
loaded, or were changed in another session).  The backend answers the first
`toggleFavorite(5)` with the new state `favorited: false`, so the set does not
gain 5; it answers the second with `favorited: true`, so the set ends with 5 in
it and not as it was. -/
theorem toggleFavorite_backend_holds_doctor :
    backendToggleFavorite [5] 5 = ([], false)
      ∧ (toggleFavorite
          { rescheduleCalendarDate := 0, currentPatientEmail := some "ann@example.org",
            favorites := [] } 5 (some (backendToggleFavorite [5] 5).2)).favorites = []
      ∧ backendToggleFavorite (backendToggleFavorite [5] 5).1 5 = ([5], true)
      ∧ (toggleFavorite
          (toggleFavorite
            { rescheduleCalendarDate := 0, currentPatientEmail := some "ann@example.org",
              favorites := [] } 5 (some (backendToggleFavorite [5] 5).2))
          5 (some (backendToggleFavorite (backendToggleFavorite [5] 5).1 5).2)).favorites
        = [5] := by
  decide

/-- C20, amended: with a patient email set and a backend that answers each
toggle with the new state and does not hold `d` as a favorite at the start
either, `toggleFavorite(d)` on a favorites set without `d` gives the set
with `d` added and every other id unchanged, and a second `toggleFavorite(d)`
gives the original set again; without a patient email, or when the request
fails, the state is left unchanged. -/
theorem toggleFavorite_twice (s : AppState) (d : Int) (stored : List Int)
    (hemail : truthy s.currentPatientEmail = true) (hd : d ∉ s.favorites)
    (hstored : d ∉ stored) :
    (toggleFavorite s d (some (backendToggleFavorite stored d).2)).favorites
        = s.favorites ++ [d]
      ∧ (∀ x, x ≠ d →
          (x ∈ (toggleFavorite s d (some (backendToggleFavorite stored d).2)).favorites
            ↔ x ∈ s.favorites))
      ∧ toggleFavorite (toggleFavorite s d (some (backendToggleFavorite stored d).2)) d
          (some (backendToggleFavorite (backendToggleFavorite stored d).1 d).2) = s
      ∧ toggleFavorite s d none = s
      ∧ (∀ (s0 : AppState) (response : Option Bool), truthy s0.currentPatientEmail = false →
          toggleFavorite s0 d response = s0 ∧ toggleFavoriteRequest s0 d = none) := by
  have r1 : backendToggleFavorite stored d = (d :: stored, true) := by
    unfold backendToggleFavorite
    simp only [hstored, if_false]
  have r2 : (backendToggleFavorite (d :: stored) d).2 = false := by
    unfold backendToggleFavorite
    simp
  have e1 : toggleFavorite s d (some true) = { s with favorites := s.favorites ++ [d] } := by
    unfold toggleFavorite setAdd
    simp only [hemail, Bool.not_true, Bool.false_eq_true, if_false, hd]
  rw [r1]
  simp only [r2, e1]
  refine ⟨trivial, ?_, ?_, ?_, ?_⟩
  · intro x hx
    simp [hx]
  · have := setDelete_setAdd hd
    unfold setAdd at this
    simp only [hd, if_false] at this
    unfold toggleFavorite
    simp only [hemail, Bool.not_true, Bool.false_eq_true, if_false, this]
  · unfold toggleFavorite
    simp only [hemail, Bool.not_true, Bool.false_eq_true, if_false]
  · intro s0 response h0
    unfold toggleFavorite toggleFavoriteRequest
    simp only [h0, Bool.not_false, if_true, and_self]

theorem toggleFavorite_twice_witness :
    (truthy (some "ann@example.org") = true ∧ (5 : Int) ∉ [2, 9] ∧ (5 : Int) ∉ [2, 9])
      ∧ (toggleFavorite
          { rescheduleCalendarDate := 0, currentPatientEmail := some "ann@example.org",
            favorites := [2, 9] } 5 (some (backendToggleFavorite [2, 9] 5).2)).favorites
        = [2, 9] ++ [5] :=
  ⟨by decide,
    (toggleFavorite_twice
      { rescheduleCalendarDate := 0, currentPatientEmail := some "ann@example.org",
        favorites := [2, 9] } 5 [2, 9] (by decide) (by decide) (by decide)).1⟩



/-! ## Favorite buttons -/

/-- After `updateFavoriteButtons` a button is active exactly when its doctor is
in `AppState.favorites`. -/
theorem updateFavoriteButtons_agree (s : AppState) (buttons : List FavoriteButton) :
    ∀ btn ∈ updateFavoriteButtons s buttons,
      (btn.active = true ↔ btn.doctorId ∈ s.favorites) := by
  intro btn hb
  unfold updateFavoriteButtons at hb
  rw [List.mem_map] at hb
  obtain ⟨b0, _, rfl⟩ := hb
  simp [parseInt_toString]

/-- C21, at the failing input: doctor 5 came from the backend with
`is_favorite` set and is in `AppState.favorites`.  After `toggleFavorite(5)`
(the backend answers that the doctor is no longer a favorite) the set is empty
and `updateFavoriteButtons` shows the button inactive; the next `filterDoctors`
renders the card again with the button active, while 5 is not in
`AppState.favorites`. -/
theorem favorite_button_after_rerender :
    (toggleFavorite
        { rescheduleCalendarDate := 0, currentPatientEmail := some "ann@example.org",
          doctors := [⟨5, "Ann Lee", "Cardiology", 3, true⟩], favorites := [5] }
        5 (some false)).favorites = []
      ∧ updateFavoriteButtons
          (toggleFavorite
            { rescheduleCalendarDate := 0, currentPatientEmail := some "ann@example.org",
              doctors := [⟨5, "Ann Lee", "Cardiology", 3, true⟩], favorites := [5] }
            5 (some false))
          [⟨5, true⟩] = [⟨5, false⟩]
      ∧ renderedButtons
          (toggleFavorite
            { rescheduleCalendarDate := 0, currentPatientEmail := some "ann@example.org",
              doctors := [⟨5, "Ann Lee", "Cardiology", 3, true⟩], favorites := [5] }
            5 (some false))
          (filterDoctors String.toLower
            (toggleFavorite
              { rescheduleCalendarDate := 0, currentPatientEmail := some "ann@example.org",
                doctors := [⟨5, "Ann Lee", "Cardiology", 3, true⟩], favorites := [5] }
              5 (some false))
            "" "") = [⟨5, true⟩] := by
  decide

/-! ## Time slots -/

/-- What `loadAvailableSlots` leaves in the select: for a slot list that is
not empty the option `Select time` with an empty value followed by one option
per slot, in the order of the list, with the datetime as value and the display
time as text (both set through the element, so taken as they are); for the
empty list the one option `No available slots` with an empty value; the select
is enabled in both cases. -/
theorem loadAvailableSlots_options (slots : List Slot) (h : slots ≠ []) :
    loadAvailableSlots (some slots)
        = { options := ⟨"", "Select time"⟩
              :: slots.map (fun slot => ⟨slot.datetime, slot.time⟩),
            disabled := false }
      ∧ (loadAvailableSlots (some slots)).options.length = slots.length + 1
      ∧ loadAvailableSlots (some [])
          = { options := [⟨"", "No available slots"⟩], disabled := false } := by
  have hl : slots.length ≠ 0 := fun e => h (List.length_eq_zero.mp e)
  refine ⟨?_, ?_, rfl⟩
  · simp [loadAvailableSlots, hl]
  · simp [loadAvailableSlots, hl]

/-- C22, at the failing input: one slot whose display time holds markup.
`renderRescheduleTimeSlots` writes the text into the markup as it is, so the
markup assigned to `innerHTML` opens two button elements for the one slot, the
first with the text `10:00` and the second, without an `onclick`, with the text
`AM`; `loadAvailableSlots` sets the same text through `textContent` and leaves
one option with the text as it is. -/
theorem renderRescheduleTimeSlots_markup_in_time :
    renderRescheduleTimeSlots { rescheduleCalendarDate := 0 }
        [⟨"2026-11-09T10:00:00", "10:00</button><button class=\"time-slot\">AM"⟩]
      = "\n    <button type=\"button\" class=\"time-slot \" \n            "
          ++ "onclick=\"selectRescheduleTime(\x272026-11-09T10:00:00\x27)\">\n      "
          ++ "10:00</button><button class=\"time-slot\">AM\n    </button>\n  "
      ∧ countSplits "<button".data 0
          (renderRescheduleTimeSlots { rescheduleCalendarDate := 0 }
            [⟨"2026-11-09T10:00:00",
              "10:00</button><button class=\"time-slot\">AM"⟩]).data = 2
      ∧ [(⟨"2026-11-09T10:00:00", "10:00</button><button class=\"time-slot\">AM"⟩ :
          Slot)].length = 1
      ∧ (loadAvailableSlots
          (some [⟨"2026-11-09T10:00:00",
            "10:00</button><button class=\"time-slot\">AM"⟩])).options
        = [⟨"", "Select time"⟩,
           ⟨"2026-11-09T10:00:00", "10:00</button><button class=\"time-slot\">AM"⟩]
      ∧ renderRescheduleTimeSlots { rescheduleCalendarDate := 0 } []
        = "<p>No available slots for this date</p>" := by
  decide

/-! ## Failure notifications -/

/-- C24, at the failing input: when the one request of `loadDoctors` fails with
a response that is not ok, `showToast` is called twice with the type `error`,
once inside `fetchAPI` and once in the `catch` block of `loadDoctors`; one
request is made.  A failing `loadFavorites` shows the one toast of `fetchAPI`. -/
theorem loadDoctors_failure_toasts :
    (loadDoctors (fun _ _ => JsValue.undefined) (fun x => x) ⟨"en"⟩
        { rescheduleCalendarDate := 0 } none
        (FetchOutcome.failed "HTTP 500: INTERNAL SERVER ERROR")).2
      = [Effect.fetch "/api/doctors",
         Effect.consoleError "API Error (doctors):",
         Effect.showToast (JsValue.str "HTTP 500: INTERNAL SERVER ERROR") "error",
         Effect.consoleError "Failed to load doctors:",
         Effect.showToast (JsValue.str "Failed to load doctors") "error"]
      ∧ (loadFavorites (fun x => x)
          { rescheduleCalendarDate := 0, currentPatientEmail := some "ann@example.org" }
          (FetchOutcome.failed "HTTP 500: INTERNAL SERVER ERROR")).2
        = [Effect.fetch "/api/favorites?email=ann@example.org",
           Effect.consoleError "API Error (favorites?email=ann@example.org):",
           Effect.showToast (JsValue.str "HTTP 500: INTERNAL SERVER ERROR") "error",
           Effect.consoleError "Failed to load favorites:"] := by
  decide

/-! ## Booking date and time -/

/-- C27, at the failing input: a time is chosen for 9 November, then the date
input changes to 10 November.  `AppState.selectedTime` still holds the time of
9 November, and `handleBookingSubmit`, with the time select back on its empty
first option, posts that datetime. -/
theorem booking_posts_time_of_earlier_date :
    (bookingDateChange
        (bookingTimeChange
          (bookingDateChange { rescheduleCalendarDate := 0 } "2026-11-09")
          "2026-11-09T10:00:00")
        "2026-11-10").selectedTime = some "2026-11-09T10:00:00"
      ∧ handleBookingSubmit
          (bookingDateChange
            (bookingTimeChange
              (bookingDateChange { rescheduleCalendarDate := 0 } "2026-11-09")
              "2026-11-09T10:00:00")
            "2026-11-10")
          ⟨some "", "Ann", "Lee", "ann@example.org", "", ""⟩
        = Submission.sent (Request.postAppointments
            ⟨none, "Ann", "Lee", "ann@example.org", "", some "2026-11-09T10:00:00", "",
              "in-person"⟩)
      ∧ (selectRescheduleDate
          { rescheduleCalendarDate := 0, selectedRescheduleTime := some "2026-11-09T10:00:00" }
          "2026-11-10").selectedRescheduleTime = none := by
  decide

/-! ## Language switching -/

theorem setLanguage_supported (m : LanguageManager) (lang : String)
    (h : lang = "en" ∨ lang = "ro") : (m.setLanguage lang).currentLang = lang := by
  rcases h with rfl | rfl <;> rfl

/-- From a supported language, `toggleLanguage` gives the other supported
language, and applied twice it gives the language back. -/
theorem toggleLanguage_supported (m : LanguageManager)
    (h : m.currentLang = "en" ∨ m.currentLang = "ro") :
    ((toggleLanguage m).currentLang = "en" ∨ (toggleLanguage m).currentLang = "ro")
      ∧ toggleLanguage (toggleLanguage m) = m := by
  obtain ⟨lang⟩ := m
  simp only at h
  rcases h with rfl | rfl
  · exact ⟨Or.inr rfl, rfl⟩
  · exact ⟨Or.inl rfl, rfl⟩

/-- C29, at the failing input: `setLanguage("constructor")` on a manager with
the language `en` takes the language `constructor`, as `translations` inherits
a property of that name; the language is then neither `en` nor `ro`. -/
theorem setLanguage_takes_inherited_name :
    (LanguageManager.setLanguage ⟨"en"⟩ "constructor").currentLang = "constructor"
      ∧ translationsGet "constructor" = JsValue.other true
      ∧ (LanguageManager.setLanguage ⟨"en"⟩ "fr").currentLang = "en"
      ∧ toggleLanguage (toggleLanguage ⟨"en"⟩) = ⟨"en"⟩ := by
  decide

/-! ## Additivity of the month navigation -/

theorem year_day_tables (w l : Int) :
    daysBeforeMonthOf l (monthOfYearDay w l) + dateOfYearDay (monthOfYearDay w l) w l - 1
      = w := by
  unfold daysBeforeMonthOf dateOfYearDay monthOfYearDay
  omega

/-- A day number is built back by `MakeDay` from its year, month and day of the
month. -/
theorem makeDay_of_parts (d : Int) :
    makeDay (yearFromDay d) (monthFromDay d) (dateFromDay d) = d := by
  have hm := monthFromDay_bounds d
  rw [makeDay_of_month hm.1 hm.2]
  unfold daysBeforeMonth dateFromDay monthFromDay
  rw [year_day_tables]
  unfold dayWithinYear
  omega

theorem makeDate_day_timeWithinDay (t : Int) : makeDate (day t) (timeWithinDay t) = t := by
  unfold makeDate day timeWithinDay msPerDay
  omega

theorem timeWithinDay_makeDate (d t : Int) :
    timeWithinDay (makeDate d (timeWithinDay t)) = timeWithinDay t := by
  unfold makeDate timeWithinDay msPerDay
  omega

theorem setMonth_getMonth (t : Int) : setMonth t (getMonth t) = t := by
  unfold setMonth getMonth
  rw [makeDay_of_parts, makeDate_day_timeWithinDay]

theorem setMonth_setMonth (t a b : Int) (h : getDate t ≤ 28) :
    setMonth (setMonth t (getMonth t + a)) (getMonth (setMonth t (getMonth t + a)) + b)
      = setMonth t (getMonth t + (a + b)) := by
  obtain ⟨hy, hm, hd⟩ := setMonth_of_date_le_28 t (getMonth t + a) h
  rw [hm]
  unfold getFullYear at hy
  unfold getDate at hd
  generalize getMonth t = m0 at *
  have e1 : setMonth (setMonth t (m0 + a)) ((m0 + a) % 12 + b)
      = makeDate (makeDay (yearFromDay (day t) + (m0 + a) / 12) ((m0 + a) % 12 + b)
          (dateFromDay (day t))) (timeWithinDay t) := by
    have ht : timeWithinDay (setMonth t (m0 + a)) = timeWithinDay t := by
      unfold setMonth
      exact timeWithinDay_makeDate _ _
    have e0 : ∀ u m : Int, setMonth u m
        = makeDate (makeDay (yearFromDay (day u)) m (dateFromDay (day u))) (timeWithinDay u) :=
      fun _ _ => rfl
    rw [e0 (setMonth t (m0 + a)), hy, hd, ht]
  rw [e1]
  unfold setMonth
  congr 1
  unfold makeDay
  have e2 : yearFromDay (day t) + (m0 + a) / 12 + ((m0 + a) % 12 + b) / 12
      = yearFromDay (day t) + (m0 + (a + b)) / 12 := by omega
  have e3 : ((m0 + a) % 12 + b) % 12 = (m0 + (a + b)) % 12 := by omega
  simp only [e2, e3]

theorem zoned_step (z : TimeZone) (t delta : Int) :
    Zoned.changeRescheduleMonth z (some t) delta
      = timeClip (z.utc (setMonth (z.localTime t) (getMonth (z.localTime t) + delta))) :=
  rfl

theorem zoned_step_of_lands (z : TimeZone) (t delta : Int)
    (h : Zoned.lands z (Zoned.monthTarget z t (getMonth (z.localTime t) + delta))) :
    ∃ u, Zoned.changeRescheduleMonth z (some t) delta = some u
      ∧ z.localTime u = setMonth (z.localTime t) (getMonth (z.localTime t) + delta) := by
  refine ⟨z.utc (setMonth (z.localTime t) (getMonth (z.localTime t) + delta)), ?_, h.2⟩
  rw [zoned_step]
  exact h.1

/-- When the local time that the step `a` aims at is reached as it is (in range
and not inside a skipped hour), `changeRescheduleMonth(a)` followed by
`changeRescheduleMonth(b)` leaves the very date of
`changeRescheduleMonth(a + b)`. -/
theorem changeRescheduleMonth_same_date_of_lands (z : TimeZone) (t a b : Int)
    (h28 : getDate (z.localTime t) ≤ 28)
    (ha : Zoned.lands z (Zoned.monthTarget z t (getMonth (z.localTime t) + a))) :
    Zoned.changeRescheduleMonth z (Zoned.changeRescheduleMonth z (some t) a) b
      = Zoned.changeRescheduleMonth z (some t) (a + b) := by
  obtain ⟨ua, hua, hla⟩ := zoned_step_of_lands z t a ha
  rw [hua, zoned_step, zoned_step, hla, setMonth_setMonth _ a b h28]

/-- After a step that leaves a valid date, in a zone that never carries a local
time to another day, the year, the month and the day of the month are those
that `setMonth` aims at. -/
theorem zoned_step_getters (z : TimeZone) (t delta : Int)
    (hz : ∀ lt : Int, day (z.localTime (z.utc lt)) = day lt)
    (h28 : getDate (z.localTime t) ≤ 28)
    (hne : Zoned.changeRescheduleMonth z (some t) delta ≠ none) :
    ∃ u, Zoned.changeRescheduleMonth z (some t) delta = some u
      ∧ getFullYear (z.localTime u)
          = getFullYear (z.localTime t) + (getMonth (z.localTime t) + delta) / 12
      ∧ getMonth (z.localTime u) = (getMonth (z.localTime t) + delta) % 12
      ∧ getDate (z.localTime u) = getDate (z.localTime t) := by
  have hu := timeClip_of_ne_none (by rw [← zoned_step]; exact hne)
  rw [← zoned_step] at hu
  obtain ⟨ey, em, ed⟩ :=
    setMonth_of_date_le_28 (z.localTime t) (getMonth (z.localTime t) + delta) h28
  refine ⟨_, hu, ?_, ?_, ?_⟩
  · rw [← ey]
    show yearFromDay (day _) = yearFromDay (day _)
    rw [hz]
  · rw [← em]
    show monthFromDay (day _) = monthFromDay (day _)
    rw [hz]
  · rw [← ed]
    show dateFromDay (day _) = dateFromDay (day _)
    rw [hz]

/-- C28, the counterexample: in the zone UTC, from 28 November 2025 at 10:00,
`changeRescheduleMonth(4000000)` leaves an Invalid Date, as the year 335359 is
beyond the range of time values; `changeRescheduleMonth(-4000000)` after it
leaves the Invalid Date, which displays no (year, month), while
`changeRescheduleMonth(4000000 + -4000000)` displays November 2025. -/
theorem changeRescheduleMonth_beyond_range :
    Zoned.getDate (fixedOffset 0) (some (newDate 2025 10 28 + 36000000)) = some 28
      ∧ Zoned.changeRescheduleMonth (fixedOffset 0)
          (some (newDate 2025 10 28 + 36000000)) 4000000 = none
      ∧ yearFromDay (day (Zoned.monthTarget (fixedOffset 0)
          (newDate 2025 10 28 + 36000000) (10 + 4000000))) = 335359
      ∧ Zoned.displayed (fixedOffset 0)
          (Zoned.changeRescheduleMonth (fixedOffset 0)
            (Zoned.changeRescheduleMonth (fixedOffset 0)
              (some (newDate 2025 10 28 + 36000000)) 4000000) (-4000000)) = none
      ∧ Zoned.displayed (fixedOffset 0)
          (Zoned.changeRescheduleMonth (fixedOffset 0)
            (some (newDate 2025 10 28 + 36000000)) (4000000 + -4000000))
        = some (2025, 10) := by
  decide

/-- C28, amended: let the zone never carry a local time to another day, let the
date be a valid date with the year `y`, the month `m` and a day of the month
`d` of at most 28, whose moment `UTC` gives back from its local time, and let
no step leave an Invalid Date.  Then `changeRescheduleMonth(a)` followed by
`changeRescheduleMonth(b)` displays the same (year, month) as
`changeRescheduleMonth(a + b)`, and that pair is the month index
`12 * y + m` moved by `a + b`; `changeRescheduleMonth(0)` changes nothing; each
step keeps the day of the month. -/
theorem changeRescheduleMonth_additive_in_range (z : TimeZone) (t y m d a b : Int)
    (hz : ∀ lt : Int, day (z.localTime (z.utc lt)) = day lt)
    (hy : Zoned.getFullYear z (some t) = some y) (hm : Zoned.getMonth z (some t) = some m)
    (hd : Zoned.getDate z (some t) = some d) (h28 : d ≤ 28)
    (hrange : timeClip t = some t) (hround : z.utc (z.localTime t) = t)
    (ha : Zoned.changeRescheduleMonth z (some t) a ≠ none)
    (hb : Zoned.changeRescheduleMonth z (Zoned.changeRescheduleMonth z (some t) a) b ≠ none)
    (hab : Zoned.changeRescheduleMonth z (some t) (a + b) ≠ none) :
    Zoned.displayed z
        (Zoned.changeRescheduleMonth z (Zoned.changeRescheduleMonth z (some t) a) b)
        = Zoned.displayed z (Zoned.changeRescheduleMonth z (some t) (a + b))
      ∧ Zoned.displayed z (Zoned.changeRescheduleMonth z (some t) (a + b))
        = some ((12 * y + m + (a + b)) / 12, (12 * y + m + (a + b)) % 12)
      ∧ Zoned.displayed z (Zoned.changeRescheduleMonth z (some t) a)
        = some ((12 * y + m + a) / 12, (12 * y + m + a) % 12)
      ∧ Zoned.changeRescheduleMonth z (some t) 0 = some t
      ∧ Zoned.getDate z (Zoned.changeRescheduleMonth z (some t) a) = some d
      ∧ Zoned.getDate z
          (Zoned.changeRescheduleMonth z (Zoned.changeRescheduleMonth z (some t) a) b)
        = some d := by
  have hy2 : getFullYear (z.localTime t) = y := Option.some.inj hy
  have hm2 : getMonth (z.localTime t) = m := Option.some.inj hm
  have hd2 : getDate (z.localTime t) = d := Option.some.inj hd
  have h28b : getDate (z.localTime t) ≤ 28 := by rw [hd2]; exact h28
  have hmb : 0 ≤ m ∧ m ≤ 11 := by
    rw [← hm2]
    exact monthFromDay_bounds _
  obtain ⟨ua, hua, ay, am, ad⟩ := zoned_step_getters z t a hz h28b ha
  rw [hua] at hb
  have h28c : getDate (z.localTime ua) ≤ 28 := by rw [ad]; exact h28b
  obtain ⟨ub, hub, by1, bm, bd⟩ := zoned_step_getters z ua b hz h28c hb
  obtain ⟨uc, huc, cy, cm, cd⟩ := zoned_step_getters z t (a + b) hz h28b hab
  rw [ay, am] at by1
  rw [am] at bm
  rw [ad] at bd
  rw [hua, hub, huc]
  generalize hya : getFullYear (z.localTime ua) = ya at *
  generalize hma : getMonth (z.localTime ua) = ma at *
  generalize hda : getDate (z.localTime ua) = da at *
  generalize hyb : getFullYear (z.localTime ub) = yb at *
  generalize hmb2 : getMonth (z.localTime ub) = mb at *
  generalize hdb : getDate (z.localTime ub) = db at *
  generalize hyc : getFullYear (z.localTime uc) = yc at *
  generalize hmc : getMonth (z.localTime uc) = mc at *
  generalize hdc : getDate (z.localTime uc) = dc at *
  have e1 : Zoned.displayed z (some ub) = some (yb, mb) := by
    show some (getFullYear _, getMonth _) = _
    rw [hyb, hmb2]
  have e2 : Zoned.displayed z (some uc) = some (yc, mc) := by
    show some (getFullYear _, getMonth _) = _
    rw [hyc, hmc]
  have e3 : Zoned.displayed z (some ua) = some (ya, ma) := by
    show some (getFullYear _, getMonth _) = _
    rw [hya, hma]
  have e4 : Zoned.getDate z (some ua) = some da := by
    show some (getDate _) = _
    rw [hda]
  have e5 : Zoned.getDate z (some ub) = some db := by
    show some (getDate _) = _
    rw [hdb]
  rw [e1, e2, e3, e4, e5]
  refine ⟨?_, ?_, ?_, ?_, ?_, ?_⟩
  · congr 1
    refine Prod.ext ?_ ?_ <;> simp only <;> omega
  · congr 1
    refine Prod.ext ?_ ?_ <;> simp only <;> omega
  · congr 1
    refine Prod.ext ?_ ?_ <;> simp only <;> omega
  · rw [zoned_step, add_zero, setMonth_getMonth, hround]
    exact hrange
  · rw [ad, hd2]
  · rw [bd, hd2]

theorem changeRescheduleMonth_additive_in_range_witness :
    ((∀ lt : Int, day ((fixedOffset 7200000).localTime ((fixedOffset 7200000).utc lt)) = day lt)
        ∧ Zoned.getFullYear (fixedOffset 7200000) (some (newDate 2025 10 28 + 28800000))
          = some 2025
        ∧ Zoned.getMonth (fixedOffset 7200000) (some (newDate 2025 10 28 + 28800000))
          = some 10
        ∧ Zoned.getDate (fixedOffset 7200000) (some (newDate 2025 10 28 + 28800000))
          = some 28
        ∧ (28 : Int) ≤ 28
        ∧ timeClip (newDate 2025 10 28 + 28800000) = some (newDate 2025 10 28 + 28800000)
        ∧ (fixedOffset 7200000).utc
            ((fixedOffset 7200000).localTime (newDate 2025 10 28 + 28800000))
          = newDate 2025 10 28 + 28800000
        ∧ Zoned.changeRescheduleMonth (fixedOffset 7200000)
            (some (newDate 2025 10 28 + 28800000)) 5 ≠ none
        ∧ Zoned.changeRescheduleMonth (fixedOffset 7200000)
            (Zoned.changeRescheduleMonth (fixedOffset 7200000)
              (some (newDate 2025 10 28 + 28800000)) 5) (-19) ≠ none
        ∧ Zoned.changeRescheduleMonth (fixedOffset 7200000)
            (some (newDate 2025 10 28 + 28800000)) (5 + -19) ≠ none)
      ∧ Zoned.displayed (fixedOffset 7200000)
          (Zoned.changeRescheduleMonth (fixedOffset 7200000)
            (Zoned.changeRescheduleMonth (fixedOffset 7200000)
              (some (newDate 2025 10 28 + 28800000)) 5) (-19))
        = Zoned.displayed (fixedOffset 7200000)
            (Zoned.changeRescheduleMonth (fixedOffset 7200000)
              (some (newDate 2025 10 28 + 28800000)) (5 + -19))
      ∧ Zoned.displayed (fixedOffset 7200000)
          (Zoned.changeRescheduleMonth (fixedOffset 7200000)
            (some (newDate 2025 10 28 + 28800000)) (5 + -19))
        = some (2024, 8) :=
  ⟨⟨fun lt => by
      show day (lt - 7200000 + 7200000) = day lt
      rw [Int.sub_add_cancel],
    by decide, by decide, by decide, by decide, by decide, by decide, by decide, by decide,
    by decide⟩,
    (changeRescheduleMonth_additive_in_range (fixedOffset 7200000)
      (newDate 2025 10 28 + 28800000) 2025 10 28 5 (-19)
      (fun lt => by
        show day (lt - 7200000 + 7200000) = day lt
        rw [Int.sub_add_cancel])
      (by decide) (by decide) (by decide) (by decide) (by decide) (by decide) (by decide)
      (by decide) (by decide)).1,
    by decide⟩

/-- Where a local time is not reached: in a zone whose clocks go forward by one
hour at 01:00 UTC on 28 March 2027, from 28 February 2027 at 01:30,
`changeRescheduleMonth(1)` aims at 01:30 on 28 March, which the clocks skip, and
lands at 02:30; `changeRescheduleMonth(-1)` after it leaves 02:30 on 28 February,
one hour after the date of `changeRescheduleMonth(0)`.  The displayed
(year, month) and the day of the month agree all the same. -/
theorem changeRescheduleMonth_across_clock_change :
    ¬ Zoned.lands
        ⟨fun t => if newDate 2027 2 28 + 3600000 ≤ t then t + 3600000 else t,
          fun lt => if newDate 2027 2 28 + 7200000 ≤ lt then lt - 3600000 else lt⟩
        (Zoned.monthTarget
          ⟨fun t => if newDate 2027 2 28 + 3600000 ≤ t then t + 3600000 else t,
            fun lt => if newDate 2027 2 28 + 7200000 ≤ lt then lt - 3600000 else lt⟩
          (newDate 2027 1 28 + 5400000) (1 + 1))
      ∧ Zoned.changeRescheduleMonth
          ⟨fun t => if newDate 2027 2 28 + 3600000 ≤ t then t + 3600000 else t,
            fun lt => if newDate 2027 2 28 + 7200000 ≤ lt then lt - 3600000 else lt⟩
          (Zoned.changeRescheduleMonth
            ⟨fun t => if newDate 2027 2 28 + 3600000 ≤ t then t + 3600000 else t,
              fun lt => if newDate 2027 2 28 + 7200000 ≤ lt then lt - 3600000 else lt⟩
            (some (newDate 2027 1 28 + 5400000)) 1) (-1)
        = some (newDate 2027 1 28 + 9000000)
      ∧ Zoned.changeRescheduleMonth
          ⟨fun t => if newDate 2027 2 28 + 3600000 ≤ t then t + 3600000 else t,
            fun lt => if newDate 2027 2 28 + 7200000 ≤ lt then lt - 3600000 else lt⟩
          (some (newDate 2027 1 28 + 5400000)) (1 + -1)
        = some (newDate 2027 1 28 + 5400000)
      ∧ Zoned.displayed
          ⟨fun t => if newDate 2027 2 28 + 3600000 ≤ t then t + 3600000 else t,
            fun lt => if newDate 2027 2 28 + 7200000 ≤ lt then lt - 3600000 else lt⟩
          (some (newDate 2027 1 28 + 9000000)) = some (2027, 1)
      ∧ Zoned.getDate
          ⟨fun t => if newDate 2027 2 28 + 3600000 ≤ t then t + 3600000 else t,
            fun lt => if newDate 2027 2 28 + 7200000 ≤ lt then lt - 3600000 else lt⟩
          (some (newDate 2027 1 28 + 9000000)) = some 28 := by
  decide


/-! ## Star rating -/

theorem remainderOne_of_nonneg {rating : ℚ} (h : 0 ≤ rating) :
    remainderOne rating = Int.fract rating := by
  unfold remainderOne Int.fract
  rw [if_pos h]

/-- C25: for a rating `r` with `0 ≤ r ≤ 5`, `renderStars` writes `floor r`
filled stars, then one half star exactly when the fractional part of `r` is at
least 1/2, then `5 - floor r - (1 if half else 0)` empty stars; that count is
not negative and the icons are 5 in all. -/
theorem renderStars_in_range (r : ℚ) (h0 : 0 ≤ r) (h5 : r ≤ 5) :
    renderStars r
        = List.replicate (Int.floor r).toNat Star.filled
          ++ (if 1 / 2 ≤ Int.fract r then [Star.half r] else [])
          ++ List.replicate
              (5 - Int.floor r - (if 1 / 2 ≤ Int.fract r then 1 else 0)).toNat Star.empty
      ∧ 0 ≤ 5 - Int.floor r - (if 1 / 2 ≤ Int.fract r then 1 else 0)
      ∧ (renderStars r).length = 5 := by
  have hf0 : 0 ≤ Int.floor r := Int.floor_nonneg.mpr h0
  have hf5 : Int.floor r ≤ 5 := by
    have := Int.floor_le_floor h5
    simpa using this
  have hhalf : 1 / 2 ≤ Int.fract r → Int.floor r ≤ 4 := by
    intro hh
    by_contra hc
    have e5 : Int.floor r = 5 := by omega
    have h1 : ((Int.floor r : Int) : ℚ) ≤ r := Int.floor_le r
    have h2 : r = 5 := by
      rw [e5] at h1
      push_cast at h1
      exact le_antisymm h5 h1
    rw [h2] at hh
    norm_num at hh
  have e : renderStars r
      = List.replicate (Int.floor r).toNat Star.filled
        ++ (if 1 / 2 ≤ Int.fract r then [Star.half r] else [])
        ++ List.replicate
            (5 - Int.floor r - (if 1 / 2 ≤ Int.fract r then 1 else 0)).toNat Star.empty := by
    unfold renderStars
    simp only [remainderOne_of_nonneg h0, ge_iff_le]
    by_cases hh : 1 / 2 ≤ Int.fract r <;> simp [hh]
  refine ⟨e, ?_, ?_⟩
  · by_cases hh : 1 / 2 ≤ Int.fract r
    · have := hhalf hh
      simp only [hh, if_true]
      omega
    · simp only [hh, if_false]
      omega
  · rw [e]
    by_cases hh : 1 / 2 ≤ Int.fract r
    · have := hhalf hh
      simp only [hh, if_true, List.length_append, List.length_replicate, List.length_singleton]
      omega
    · simp only [hh, if_false, List.length_append, List.length_replicate, List.length_nil]
      omega

theorem renderStars_in_range_witness :
    (0 : ℚ) ≤ 9 / 2 ∧ (9 / 2 : ℚ) ≤ 5 ∧ (renderStars (9 / 2)).length = 5 :=
  ⟨by norm_num, by norm_num, (renderStars_in_range (9 / 2) (by norm_num) (by norm_num)).2.2⟩

/-! ## Initials -/

theorem splitSpaces_ne_nil (l : List Char) : splitSpaces l ≠ [] := by
  induction l with
  | nil => simp [splitSpaces]
  | cons c cs ih =>
    unfold splitSpaces
    split
    · simp
    · split <;> simp

theorem joinFirsts_cons (w : List Char) (ws : List (List Char)) :
    joinFirsts (w :: ws)
      = (match w.head? with
        | some c => c :: joinFirsts ws
        | none => joinFirsts ws) := by
  simp [joinFirsts]

theorem joinFirsts_splitSpaces (l : List Char) :
    joinFirsts (splitSpaces l) = wordStarts true l
      ∧ ∀ c : Char, c ≠ ' ' →
          joinFirsts (match splitSpaces l with
            | [] => [[c]]
            | w :: ws => (c :: w) :: ws) = c :: wordStarts false l := by
  induction l with
  | nil =>
    refine ⟨by simp [splitSpaces, joinFirsts, wordStarts], ?_⟩
    intro c _
    simp [splitSpaces, joinFirsts, wordStarts]
  | cons d ds ih =>
    by_cases hd : d = ' '
    · subst hd
      refine ⟨?_, ?_⟩
      · simp only [splitSpaces, if_true, wordStarts]
        rw [joinFirsts_cons]
        exact ih.1
      · intro c _
        simp only [splitSpaces, if_true, wordStarts]
        rw [joinFirsts_cons]
        simp only [List.head?_cons]
        rw [ih.1]
    · refine ⟨?_, ?_⟩
      · simp only [splitSpaces, hd, if_false, wordStarts, if_true]
        exact ih.2 d hd
      · intro c _
        simp only [splitSpaces, hd, if_false, wordStarts, Bool.false_eq_true]
        have h2 := ih.2 d hd
        cases hs : splitSpaces ds with
        | nil => exact absurd hs (splitSpaces_ne_nil ds)
        | cons w ws =>
          rw [hs] at h2
          simp only at h2 ⊢
          rw [joinFirsts_cons] at h2 ⊢
          simp only [List.head?_cons] at h2 ⊢
          have h3 := List.cons_injective h2
          rw [h3]

/-- C26: `getInitials` gives `DR` for a missing or empty name, and otherwise
the first two characters of the upper-cased word starts of the name, a word
start being a character other than a space at the start of the name or right
after a space; the result has at most 2 characters. -/
theorem getInitials_spec (toUpperCase : String → String) (n : String) :
    getInitials toUpperCase none = "DR"
      ∧ getInitials toUpperCase (some n)
          = (if n = "" then "DR" else ⟨(toUpperCase ⟨wordStarts true n.data⟩).data.take 2⟩)
      ∧ (getInitials toUpperCase none).length ≤ 2
      ∧ (getInitials toUpperCase (some n)).length ≤ 2 := by
  have hdr : ("DR" : String).length ≤ 2 := by decide
  have hgen : getInitials toUpperCase (some n)
      = (if n = "" then "DR" else ⟨(toUpperCase ⟨wordStarts true n.data⟩).data.take 2⟩) := by
    simp only [getInitials]
    rw [(joinFirsts_splitSpaces n.data).1]
  refine ⟨rfl, hgen, hdr, ?_⟩
  rw [hgen]
  by_cases hn : n = ""
  · rw [if_pos hn]
    exact hdr
  · rw [if_neg hn]
    show (List.take 2 _).length ≤ 2
    rw [List.length_take]
    omega


/-! ## The count of `calendar-day` in the markup -/

theorem prefix_append_of_tails {pat a b : List Char} (ha : a ≠ [])
    (hs : ∀ s ∈ a.tails, s ≠ [] → ¬ s <+: pat) : pat <+: a ++ b ↔ pat <+: a := by
  constructor
  · intro h
    rcases Nat.le_total pat.length a.length with hl | hl
    · exact List.prefix_of_prefix_length_le h (List.prefix_append a b) hl
    · have h2 := List.prefix_of_prefix_length_le (List.prefix_append a b) h hl
      exact absurd h2 (hs a ((List.mem_tails _ _).mpr (List.suffix_refl a)) ha)
  · intro h
    exact h.trans (List.prefix_append a b)

theorem tails_of_cons {pat : List Char} {x : Char} {xs : List Char}
    (hs : ∀ s ∈ (x :: xs).tails, s ≠ [] → ¬ s <+: pat) :
    ∀ s ∈ xs.tails, s ≠ [] → ¬ s <+: pat := by
  intro s hm
  apply hs
  rw [List.mem_tails] at hm ⊢
  exact hm.trans (List.suffix_cons x xs)

/-- The count over two pieces is the sum of the counts when no end of the first
piece starts the pattern. -/
theorem countSplits_append (pat b : List Char) :
    ∀ (a : List Char) (k : Nat), k ≤ a.length →
      (∀ s ∈ a.tails, s ≠ [] → ¬ s <+: pat) →
      countSplits pat k (a ++ b) = countSplits pat k a + countSplits pat 0 b := by
  intro a
  induction a with
  | nil =>
    intro k hk _
    have hk0 : k = 0 := by simpa using hk
    subst hk0
    simp [countSplits]
  | cons x xs ih =>
    intro k hk hs
    have hs2 := tails_of_cons hs
    cases k with
    | succ k =>
      simp only [List.cons_append, countSplits]
      exact ih k (by simpa using hk) hs2
    | zero =>
      have hp := @prefix_append_of_tails pat (x :: xs) b (List.cons_ne_nil x xs) hs
      simp only [List.cons_append] at hp ⊢
      by_cases h : pat <+: x :: xs
      · have h2 := hp.mpr h
        have hl : pat.length - 1 ≤ xs.length := by
          have := h.length_le
          simp only [List.length_cons] at this
          omega
        simp only [countSplits, h, h2, if_true]
        rw [ih _ hl hs2]
        omega
      · have h2 : ¬ pat <+: x :: (xs ++ b) := fun h3 => h (hp.mp h3)
        simp only [countSplits, h, h2, if_false]
        exact ih 0 (Nat.zero_le _) hs2

theorem countSplits_one_append {pat a : List Char} (b : List Char)
    (h : countSplits pat 0 a = 1 ∧ ∀ s ∈ a.tails, s ≠ [] → ¬ s <+: pat) :
    countSplits pat 0 (a ++ b) = 1 + countSplits pat 0 b := by
  rw [countSplits_append pat b a 0 (Nat.zero_le _) h.2, h.1]

theorem countSplits_quiet_append {pat a : List Char} (b : List Char)
    (h : countSplits pat 0 a = 0 ∧ ∀ s ∈ a.tails, s ≠ [] → ¬ s <+: pat) :
    countSplits pat 0 (a ++ b) = countSplits pat 0 b := by
  rw [countSplits_append pat b a 0 (Nat.zero_le _) h.2, h.1, Nat.zero_add]

/-- A piece without the first character of the pattern has no occurrence and no
end that starts one. -/
theorem quiet_of_not_mem {c : Char} {rest : List Char} :
    ∀ (v : List Char), c ∉ v →
      countSplits (c :: rest) 0 v = 0
        ∧ ∀ s ∈ v.tails, s ≠ [] → ¬ s <+: c :: rest := by
  intro v hv
  have hs : ∀ s ∈ v.tails, s ≠ [] → ¬ s <+: c :: rest := by
    intro s hm hne hp
    rw [List.mem_tails] at hm
    cases s with
    | nil => exact hne rfl
    | cons y ys =>
      rw [List.cons_prefix_cons] at hp
      exact hv (hm.subset (hp.1 ▸ List.mem_cons_self _ _))
  refine ⟨?_, hs⟩
  induction v with
  | nil => simp [countSplits]
  | cons x xs ih =>
    have h1 : ¬ (c :: rest) <+: x :: xs := by
      intro hp
      rw [List.cons_prefix_cons] at hp
      exact hv (hp.1 ▸ List.mem_cons_self _ _)
    simp only [countSplits, h1, if_false]
    exact ih (fun hc => hv (List.mem_cons_of_mem _ hc)) (tails_of_cons hs)

/-- A piece without an occurrence of the pattern, followed by a character that
is not in the pattern, adds nothing to the count. -/
theorem countSplits_of_not_occurrence {pat : List Char} {d : Char} (hd : d ∉ pat)
    (b : List Char) :
    ∀ (v : List Char), ¬ pat <:+: v →
      countSplits pat 0 (v ++ d :: b) = countSplits pat 0 (d :: b) := by
  intro v
  induction v with
  | nil => intro _; rfl
  | cons x xs ih =>
    intro hv
    have h1 : ¬ pat <:+: xs := fun h => hv (h.trans (List.suffix_cons x xs).isInfix)
    have h2 : ¬ pat <+: x :: (xs ++ d :: b) := by
      intro hp
      rcases Nat.lt_or_ge (x :: xs).length pat.length with hl | hl
      · have e : x :: (xs ++ d :: b) = (x :: xs ++ [d]) ++ b := by simp
        rw [e] at hp
        have h3 := List.prefix_of_prefix_length_le (List.prefix_append (x :: xs ++ [d]) b) hp
          (by simp only [List.length_append, List.length_singleton]; omega)
        exact hd (h3.subset (by simp))
      · have e : x :: (xs ++ d :: b) = (x :: xs) ++ d :: b := by simp
        rw [e] at hp
        exact hv (List.prefix_of_prefix_length_le hp (List.prefix_append _ _) hl).isInfix
    rw [List.cons_append, countSplits, if_neg h2]
    exact ih h1

/-- A text that ends in a character outside the pattern has no end that starts
the pattern. -/
theorem tails_of_last {pat : List Char} {z : Char} (hz : z ∉ pat) (a : List Char) :
    ∀ s ∈ (a ++ [z]).tails, s ≠ [] → ¬ s <+: pat := by
  intro s hm hne hp
  rw [List.mem_tails] at hm
  have hz2 : z ∈ s := by
    obtain ⟨u, hu⟩ := hm
    have e := List.dropLast_append_getLast hne
    rw [← e, ← List.append_assoc] at hu
    have h3 := List.append_inj_right' hu (by simp)
    have h4 : s.getLast hne = z := by simpa using h3
    rw [← h4]
    exact List.getLast_mem hne
  exact hz (hp.subset hz2)

theorem toString_int_chars (n : Int) : ∀ c ∈ (toString n).data, c ∈ "-0123456789".data := by
  have hd : ∀ c ∈ "0123456789".data, c ∈ "-0123456789".data := by decide
  cases n with
  | ofNat m =>
    obtain ⟨l, hl, _, hd2, _⟩ := repr_spec m
    have hs : (toString (Int.ofNat m)).data = l := hl
    rw [hs]
    exact fun c hc => hd c (hd2 c hc)
  | negSucc m =>
    obtain ⟨l, hl, _, hd2, _⟩ := repr_spec (m + 1)
    have hs : (toString (Int.negSucc m)).data = '-' :: l := by
      show ("-" ++ Nat.repr (m + 1)).data = _
      rw [String.data_append, hl]
      rfl
    rw [hs]
    intro c hc
    rcases List.mem_cons.mp hc with rfl | hc
    · decide
    · exact hd c (hd2 c hc)

theorem padStart2_chars (s : String) (h : ∀ c ∈ s.data, c ∈ "-0123456789".data) :
    ∀ c ∈ (padStart2 s).data, c ∈ "-0123456789".data := by
  unfold padStart2
  split_ifs with hl
  · have h2 : 2 - s.length = 1 ∨ 2 - s.length = 2 := by omega
    intro c hc
    rw [String.data_append] at hc
    rcases List.mem_append.mp hc with hc | hc
    · have h1 : ∀ c ∈ ("".pushn '0' 1).data, c ∈ "-0123456789".data := by decide
      have h3 : ∀ c ∈ ("".pushn '0' 2).data, c ∈ "-0123456789".data := by decide
      rcases h2 with e | e <;> rw [e] at hc
      · exact h1 c hc
      · exact h3 c hc
    · exact h c hc
  · exact h

theorem dateStr_chars (year month i : Int) :
    ∀ c ∈ (dateStr year month i).data, c ∈ "-0123456789".data := by
  intro c hc
  unfold dateStr at hc
  simp only [String.data_append, List.mem_append] at hc
  have hm : ∀ c ∈ "-".data, c ∈ "-0123456789".data := by decide
  rcases hc with (((hc | hc) | hc) | hc) | hc
  · exact toString_int_chars _ c hc
  · exact hm c hc
  · exact padStart2_chars _ (toString_int_chars _) c hc
  · exact hm c hc
  · exact padStart2_chars _ (toString_int_chars _) c hc

theorem quiet_of_digits {v : List Char} (h : ∀ c ∈ v, c ∈ "-0123456789".data) :
    countSplits "calendar-day".data 0 v = 0
      ∧ ∀ s ∈ v.tails, s ≠ [] → ¬ s <+: "calendar-day".data := by
  have hc : 'c' ∉ v := fun hm => absurd (h _ hm) (by decide)
  exact @quiet_of_not_mem 'c' "alendar-day".data v hc

/-- The markup of a header cell holds the text `calendar-day` once when the
label holds none. -/
theorem countSplits_header (text : String) (h : ¬ "calendar-day".data <:+: text.data) :
    countSplits "calendar-day".data 0 (Cell.header text).html.data = 1
      ∧ ∀ s ∈ (Cell.header text).html.data.tails, s ≠ [] → ¬ s <+: "calendar-day".data := by
  constructor
  · simp only [Cell.html, String.data_append, List.append_assoc]
    rw [countSplits_one_append _ (by decide)]
    rw [countSplits_of_not_occurrence (by decide) _ _ h]
    decide
  · have e : (Cell.header text).html.data
        = ("<div class=\"calendar-day-header\">".data ++ text.data ++ "</div".data) ++ ['>'] := by
      simp only [Cell.html, String.data_append, List.append_assoc]
      rfl
    rw [e]
    exact tails_of_last (by decide) _

theorem countSplits_otherMonth (n : Int) :
    countSplits "calendar-day".data 0 (Cell.otherMonth n).html.data = 1
      ∧ ∀ s ∈ (Cell.otherMonth n).html.data.tails, s ≠ [] → ¬ s <+: "calendar-day".data := by
  constructor
  · simp only [Cell.html, String.data_append, List.append_assoc]
    rw [countSplits_one_append _ (by decide),
      countSplits_quiet_append _ (quiet_of_digits (toString_int_chars n))]
    decide
  · have e : (Cell.otherMonth n).html.data
        = ("<div class=\"calendar-day other-month\">".data ++ (toString n).data
            ++ "</div".data) ++ ['>'] := by
      simp only [Cell.html, String.data_append, List.append_assoc]
      rfl
    rw [e]
    exact tails_of_last (by decide) _

theorem countSplits_day (i : Int) (ds : String)
    (hds : ∀ c ∈ ds.data, c ∈ "-0123456789".data) (isPast isSelected isToday : Bool) :
    countSplits "calendar-day".data 0 (Cell.day i ds isPast isSelected isToday).html.data = 1
      ∧ ∀ s ∈ (Cell.day i ds isPast isSelected isToday).html.data.tails,
          s ≠ [] → ¬ s <+: "calendar-day".data := by
  have hq1 := quiet_of_digits hds
  have hq2 := quiet_of_digits (toString_int_chars i)
  constructor
  · cases isPast
    · cases isSelected <;> cases isToday <;>
        simp only [Cell.html, String.data_append, List.append_assoc, if_true, if_false,
          Bool.false_eq_true] <;>
        rw [countSplits_one_append _ (by decide), countSplits_quiet_append _ (by decide),
          countSplits_quiet_append _ (by decide), countSplits_quiet_append _ (by decide),
          countSplits_quiet_append _ (by decide), countSplits_quiet_append _ (by decide),
          countSplits_quiet_append _ (by decide), countSplits_quiet_append _ (by decide),
          countSplits_quiet_append _ hq1, countSplits_quiet_append _ (by decide),
          countSplits_quiet_append _ (by decide), countSplits_quiet_append _ (by decide),
          countSplits_quiet_append _ (by decide), countSplits_quiet_append _ hq2] <;>
        decide
    · cases isSelected <;> cases isToday <;>
        simp only [Cell.html, String.data_append, List.append_assoc, if_true, if_false,
          Bool.false_eq_true] <;>
        rw [countSplits_one_append _ (by decide), countSplits_quiet_append _ (by decide),
          countSplits_quiet_append _ (by decide), countSplits_quiet_append _ (by decide),
          countSplits_quiet_append _ (by decide), countSplits_quiet_append _ (by decide),
          countSplits_quiet_append _ (by decide), countSplits_quiet_append _ (by decide),
          countSplits_quiet_append _ (by decide), countSplits_quiet_append _ (by decide),
          countSplits_quiet_append _ (by decide), countSplits_quiet_append _ hq2] <;>
        decide
  · simp only [Cell.html]
    rw [String.data_append]
    have e : "\n      </div>\n    ".data = "\n      </div>\n   ".data ++ [' '] := rfl
    rw [e, ← List.append_assoc]
    exact tails_of_last (by decide) _

theorem foldl_html_data (cells : List Cell) :
    ∀ acc : String,
      (cells.foldl (fun html cell => html ++ cell.html) acc).data
        = acc.data ++ (cellsHtml cells).data := by
  induction cells with
  | nil =>
    intro acc
    simp [cellsHtml]
  | cons c cs ih =>
    intro acc
    show (cs.foldl (fun html cell => html ++ cell.html) (acc ++ c.html)).data
      = acc.data ++ (cs.foldl (fun html cell => html ++ cell.html) ("" ++ c.html)).data
    rw [ih (acc ++ c.html), ih ("" ++ c.html)]
    simp [String.data_append, List.append_assoc]

/-- The markup of a list of cells holds the text `calendar-day` once for every
cell, when every cell holds it once and ends outside it. -/
theorem countSplits_cellsHtml (cells : List Cell)
    (h : ∀ c ∈ cells, countSplits "calendar-day".data 0 c.html.data = 1
      ∧ ∀ s ∈ c.html.data.tails, s ≠ [] → ¬ s <+: "calendar-day".data) :
    countSplits "calendar-day".data 0 (cellsHtml cells).data = cells.length := by
  induction cells with
  | nil => rfl
  | cons c cs ih =>
    have e : (cellsHtml (c :: cs)).data = c.html.data ++ (cellsHtml cs).data := by
      show (cs.foldl (fun html cell => html ++ cell.html) ("" ++ c.html)).data = _
      rw [foldl_html_data cs ("" ++ c.html)]
      simp [String.data_append]
    rw [e, countSplits_one_append _ (h c (List.mem_cons_self _ _)),
      ih (fun c2 hc2 => h c2 (List.mem_cons_of_mem _ hc2))]
    simp only [List.length_cons]
    omega

/-- C30: in `renderRescheduleCalendar`, when no weekday label holds the text
`calendar-day`, the count `totalCells` is 7 plus `firstDay` plus `daysInMonth`,
and `remaining = 42 - totalCells + 7` equals `nextMonthPadding`, for every year
and month. -/
theorem remaining_eq_nextMonthPadding (t : String → String) (year month today : Int)
    (selected : Option String)
    (ht : ∀ d ∈ ["sun", "mon", "tue", "wed", "thu", "fri", "sat"],
      ¬ "calendar-day".data <:+: (t ("day.short." ++ d)).data) :
    totalCells t year month today selected = 7 + firstDay year month + daysInMonth year month
      ∧ remaining t year month today selected = nextMonthPadding year month := by
  have hcells : ∀ c ∈ dayHeaders t
      ++ prevMonthCells (firstDay year month) (prevMonthDays year month)
      ++ currentMonthCells year month (daysInMonth year month) today selected,
      countSplits "calendar-day".data 0 c.html.data = 1
        ∧ ∀ s ∈ c.html.data.tails, s ≠ [] → ¬ s <+: "calendar-day".data := by
    intro c hc
    rcases List.mem_append.mp hc with hc | hc
    · rcases List.mem_append.mp hc with hc | hc
      · unfold dayHeaders at hc
        obtain ⟨d, hd, rfl⟩ := List.mem_map.mp hc
        exact countSplits_header _ (ht d hd)
      · unfold prevMonthCells at hc
        obtain ⟨k, _, rfl⟩ := List.mem_map.mp hc
        exact countSplits_otherMonth _
    · unfold currentMonthCells at hc
      obtain ⟨k, _, rfl⟩ := List.mem_map.mp hc
      exact countSplits_day _ _ (dateStr_chars _ _ _) _ _ _
  have hcount := countSplits_cellsHtml _ hcells
  have hfd := firstDay_bounds year month
  have hdim := daysInMonth_bounds year month
  have hlen : (dayHeaders t
      ++ prevMonthCells (firstDay year month) (prevMonthDays year month)
      ++ currentMonthCells year month (daysInMonth year month) today selected).length
      = 7 + (firstDay year month).toNat + (daysInMonth year month).toNat := by
    rw [List.length_append, List.length_append, length_prevMonthCells,
      length_currentMonthCells]
    rfl
  have htotal : totalCells t year month today selected
      = 7 + firstDay year month + daysInMonth year month := by
    unfold totalCells htmlBeforePadding
    rw [hcount, hlen]
    omega
  refine ⟨htotal, ?_⟩
  unfold remaining nextMonthPadding
  rw [htotal]
  simp only
  omega

theorem remaining_eq_nextMonthPadding_witness :
    (∀ d ∈ ["sun", "mon", "tue", "wed", "thu", "fri", "sat"],
        ¬ "calendar-day".data <:+: ((fun (key : String) => key.drop 10) ("day.short." ++ d)).data)
      ∧ remaining (fun (key : String) => key.drop 10) 2026 10 (newDate 2026 10 6) none
          = nextMonthPadding 2026 10 :=
  ⟨by decide,
    (remaining_eq_nextMonthPadding (fun (key : String) => key.drop 10) 2026 10 (newDate 2026 10 6) none
      (by decide)).2⟩


/-! ## Selecting a slot -/

theorem isIsoDateTime_shape {s : String} (h : isIsoDateTime s = true) :
    s.data.length = 19
      ∧ (∀ c ∈ s.data.head?, c.isDigit = true)
      ∧ (∀ c ∈ s.data.getLast?, c.isDigit = true) := by
  unfold isIsoDateTime at h
  split at h
  · rename_i e
    rw [e]
    simp only [Bool.and_eq_true, decide_eq_true_eq] at h
    refine ⟨rfl, ?_, ?_⟩
    · intro c hc
      simp only [List.head?_cons, Option.mem_def, Option.some.injEq] at hc
      rw [← hc]
      exact h.1.1.1.1.1.1.1.1.1.1.1.1.1.1.1.1.1.1
    · intro c hc
      simp only [List.getLast?_cons_cons, List.getLast?_singleton, Option.mem_def,
        Option.some.injEq] at hc
      rw [← hc]
      exact h.2
  · exact absurd h (by simp)

theorem mem_of_getElem?_eq_some {l : List Char} {k : Nat} {c : Char} (h : l[k]? = some c) :
    c ∈ l := by
  rw [List.getElem?_eq_some] at h
  obtain ⟨hk, rfl⟩ := h
  first
    | exact List.getElem_mem _ _ _
    | exact List.getElem_mem _

/-- A datetime that starts and ends with a digit occurs in the `onclick`
attribute of a slot with a datetime of the same length only as that datetime. -/
theorem eq_of_occurrence_in_onclick {dt x : List Char} (hl : dt.length = x.length)
    (hh : ∀ c ∈ dt.head?, c.isDigit = true) (ht : ∀ c ∈ dt.getLast?, c.isDigit = true)
    (hne : dt ≠ [])
    (h : dt <:+: "selectRescheduleTime(\x27".data ++ x ++ "\x27)".data) : dt = x := by
  obtain ⟨u, v, huv⟩ := h
  have hlen := congrArg List.length huv
  simp only [List.length_append] at hlen
  have hp : ("selectRescheduleTime(\x27".data).length = 22 := rfl
  have hs : ("\x27)".data).length = 2 := rfl
  rw [hp, hs] at hlen
  obtain ⟨d, dt2, rfl⟩ := List.exists_cons_of_ne_nil hne
  have hd : d.isDigit = true := hh d (by simp)
  -- the first character of the datetime is not inside the call name
  have h1 : 22 ≤ u.length := by
    by_contra hlt
    have hlt : u.length < 22 := by omega
    have e1 : (u ++ (d :: dt2) ++ v)[u.length]? = some d := by
      rw [List.append_assoc, List.getElem?_append_right (le_refl _)]
      simp
    rw [huv, List.append_assoc, List.getElem?_append_left (by rw [hp]; exact hlt)] at e1
    have hall : ∀ c ∈ "selectRescheduleTime(\x27".data, c.isDigit = false := by decide
    have := hall d (mem_of_getElem?_eq_some e1)
    rw [hd] at this
    exact absurd this (by decide)
  -- the last character of the datetime is not inside the closing characters
  have h2 : u.length ≤ 22 := by
    by_contra hgt
    have hgt : 22 < u.length := by omega
    have hlast : (d :: dt2).getLast? = some ((d :: dt2).getLast (by simp)) :=
      List.getLast?_eq_getLast _ _
    have hz : ((d :: dt2).getLast (by simp)).isDigit = true := ht _ (by rw [hlast]; rfl)
    have e1 : (u ++ (d :: dt2) ++ v)[u.length + dt2.length]?
        = some ((d :: dt2).getLast (by simp)) := by
      rw [List.getElem?_append_left (by simp), List.getElem?_append_right (by omega)]
      rw [List.getLast_eq_getElem]
      simp
    have hx : x.length = dt2.length + 1 := by simpa using hl.symm
    rw [huv, List.getElem?_append_right (by simp only [List.length_append, hp]; omega)] at e1
    simp only [List.length_append, hp] at e1
    have hall : ∀ c ∈ "\x27)".data, c.isDigit = false := by decide
    have := hall _ (mem_of_getElem?_eq_some e1)
    rw [hz] at this
    exact absurd this (by decide)
  have h3 : u.length = 22 := le_antisymm h2 h1
  have e2 : u ++ ((d :: dt2) ++ v) = "selectRescheduleTime(\x27".data ++ (x ++ "\x27)".data) := by
    rw [← List.append_assoc, huv, List.append_assoc]
  have e3 := List.append_inj_right e2 (by rw [h3, hp])
  exact List.append_inj_left e3 hl

theorem jsIncludes_onclick {dt x : String} (hdt : isIsoDateTime dt = true)
    (hx : isIsoDateTime x = true) : jsIncludes (slotOnclick x) dt = decide (x = dt) := by
  obtain ⟨hl1, hh, ht⟩ := isIsoDateTime_shape hdt
  obtain ⟨hl2, _, _⟩ := isIsoDateTime_shape hx
  have hne : dt.data ≠ [] := by
    intro e
    rw [e] at hl1
    simp at hl1
  have hd : (slotOnclick x).data = "selectRescheduleTime(\x27".data ++ x.data ++ "\x27)".data := by
    simp only [slotOnclick, String.data_append]
  by_cases e : x = dt
  · subst e
    simp only [decide_True]
    unfold jsIncludes
    rw [hd, decide_eq_true_eq]
    exact ⟨_, _, rfl⟩
  · simp only [e, decide_False]
    unfold jsIncludes
    rw [hd, decide_eq_false_iff_not]
    intro hocc
    have h2 := eq_of_occurrence_in_onclick (hl1.trans hl2.symm) hh ht hne hocc
    exact e (String.ext h2.symm)

theorem selectFirst_slots (dt : String) (p : SlotButton → Bool) :
    ∀ slots : List Slot,
      (∀ slot ∈ slots,
        p ⟨false, slotOnclick slot.datetime, slot.time⟩ = decide (slot.datetime = dt)) →
      (slots.map Slot.datetime).Nodup →
      selectFirst p (slots.map fun slot => ⟨false, slotOnclick slot.datetime, slot.time⟩)
        = slots.map fun slot =>
            ⟨decide (slot.datetime = dt), slotOnclick slot.datetime, slot.time⟩ := by
  intro slots
  induction slots with
  | nil => intro _ _; rfl
  | cons slot rest ih =>
    intro hp hn
    rw [List.map_cons, List.nodup_cons] at hn
    have hp0 := hp slot (List.mem_cons_self _ _)
    by_cases e : slot.datetime = dt
    · simp only [e, decide_True] at hp0
      simp only [List.map_cons, selectFirst, hp0, if_true, e, decide_True]
      congr 1
      apply List.map_congr_left
      intro slot2 h2
      have hne : slot2.datetime ≠ dt := by
        intro e2
        apply hn.1
        rw [e, ← e2]
        exact List.mem_map_of_mem _ h2
      simp only [hne, decide_False]
    · simp only [e, decide_False] at hp0
      simp only [List.map_cons, selectFirst, hp0, Bool.false_eq_true, if_false, e,
        decide_False]
      congr 1
      exact ih (fun slot2 h2 => hp slot2 (List.mem_cons_of_mem _ h2)) hn.2

theorem selected_count (dt : String) :
    ∀ slots : List Slot, (slots.map Slot.datetime).Nodup → dt ∈ slots.map Slot.datetime →
      ((slots.map fun slot =>
          (⟨decide (slot.datetime = dt), slotOnclick slot.datetime, slot.time⟩ : SlotButton)).filter
        SlotButton.selected).length = 1 := by
  intro slots
  induction slots with
  | nil => intro _ h; simp at h
  | cons slot rest ih =>
    intro hn hm
    rw [List.map_cons, List.nodup_cons] at hn
    by_cases e : slot.datetime = dt
    · have hrest : (rest.map fun slot =>
          (⟨decide (slot.datetime = dt), slotOnclick slot.datetime, slot.time⟩ :
            SlotButton)).filter SlotButton.selected = [] := by
        rw [List.filter_eq_nil_iff]
        intro btn hb
        obtain ⟨slot2, h2, rfl⟩ := List.mem_map.mp hb
        have hne : slot2.datetime ≠ dt := by
          intro e2
          apply hn.1
          rw [e, ← e2]
          exact List.mem_map_of_mem _ h2
        simp [hne]
      rw [List.map_cons, List.filter_cons_of_pos (by simp [e]), hrest]
      rfl
    · have hm2 : dt ∈ rest.map Slot.datetime := by
        rw [List.map_cons, List.mem_cons] at hm
        rcases hm with h | h
        · exact absurd h.symm e
        · exact h
      rw [List.map_cons, List.filter_cons_of_neg (by simp [e])]
      exact ih hn.2 hm2

/-- For slots with distinct datetimes of the one form `YYYY-MM-DDTHH:MM:SS`
and slot buttons that carry the `onclick` and the label of these slots, whatever
their `selected` flags, `selectRescheduleTime(dt)` for the datetime `dt` of one
of the slots sets `AppState.selectedRescheduleTime` to `dt` and leaves the
class `selected` on the button of `dt` and on no other button. -/
theorem selectRescheduleTime_single_selection (s : AppState) (slots : List Slot)
    (slotButtons : List SlotButton) (dt : String)
    (hiso : ∀ slot ∈ slots, isIsoDateTime slot.datetime = true)
    (hnodup : (slots.map Slot.datetime).Nodup)
    (hdt : dt ∈ slots.map Slot.datetime)
    (hb : slotButtons.map (fun btn => (btn.onclick, btn.label))
      = slots.map (fun slot => (slotOnclick slot.datetime, slot.time))) :
    (selectRescheduleTime s slotButtons dt).1.selectedRescheduleTime = some dt
      ∧ (selectRescheduleTime s slotButtons dt).2
          = slots.map (fun slot =>
              ⟨decide (slot.datetime = dt), slotOnclick slot.datetime, slot.time⟩)
      ∧ ((selectRescheduleTime s slotButtons dt).2.filter SlotButton.selected).length = 1 := by
  have hdtiso : isIsoDateTime dt = true := by
    obtain ⟨slot, hs, rfl⟩ := List.mem_map.mp hdt
    exact hiso slot hs
  have hcleared : slotButtons.map (fun btn => ({ btn with selected := false } : SlotButton))
      = slots.map (fun slot => ⟨false, slotOnclick slot.datetime, slot.time⟩) := by
    have h1 := congrArg (List.map fun (p : String × String) => (⟨false, p.1, p.2⟩ : SlotButton)) hb
    simp only [List.map_map] at h1
    exact h1
  have h2 : (selectRescheduleTime s slotButtons dt).2
      = slots.map (fun slot =>
          ⟨decide (slot.datetime = dt), slotOnclick slot.datetime, slot.time⟩) := by
    unfold selectRescheduleTime
    simp only
    rw [hcleared]
    exact selectFirst_slots dt _ slots
      (fun slot hs => jsIncludes_onclick hdtiso (hiso slot hs)) hnodup
  refine ⟨rfl, h2, ?_⟩
  rw [h2]
  exact selected_count dt slots hnodup hdt

/-- C23, at the failing input: the slot buttons of the datetimes
`2026-11-09T10:00:30` and `2026-11-09T10:00`, in this order.
`selectRescheduleTime("2026-11-09T10:00")` records that datetime and marks the
button of `2026-11-09T10:00:30`, the first whose `onclick` includes the text,
and not the button of the datetime; `renderRescheduleTimeSlots`, which compares
with `===`, writes the class `selected` for the second slot only. -/
theorem selectRescheduleTime_marks_other_slot :
    (selectRescheduleTime { rescheduleCalendarDate := 0 }
        [⟨false, slotOnclick "2026-11-09T10:00:30", "10:00:30 AM"⟩,
         ⟨false, slotOnclick "2026-11-09T10:00", "10:00 AM"⟩]
        "2026-11-09T10:00").1.selectedRescheduleTime = some "2026-11-09T10:00"
      ∧ (selectRescheduleTime { rescheduleCalendarDate := 0 }
          [⟨false, slotOnclick "2026-11-09T10:00:30", "10:00:30 AM"⟩,
           ⟨false, slotOnclick "2026-11-09T10:00", "10:00 AM"⟩]
          "2026-11-09T10:00").2
        = [⟨true, slotOnclick "2026-11-09T10:00:30", "10:00:30 AM"⟩,
           ⟨false, slotOnclick "2026-11-09T10:00", "10:00 AM"⟩]
      ∧ jsIncludes (slotOnclick "2026-11-09T10:00:30") "2026-11-09T10:00" = true
      ∧ renderRescheduleTimeSlots
          (selectRescheduleTime { rescheduleCalendarDate := 0 }
            [⟨false, slotOnclick "2026-11-09T10:00:30", "10:00:30 AM"⟩,
             ⟨false, slotOnclick "2026-11-09T10:00", "10:00 AM"⟩]
            "2026-11-09T10:00").1
          [⟨"2026-11-09T10:00:30", "10:00:30 AM"⟩, ⟨"2026-11-09T10:00", "10:00 AM"⟩]
        = "\n    <button type=\"button\" class=\"time-slot \" \n            "
            ++ "onclick=\"selectRescheduleTime(\x272026-11-09T10:00:30\x27)\">\n      "
            ++ "10:00:30 AM\n    </button>\n  "
            ++ "\n    <button type=\"button\" class=\"time-slot selected\" \n            "
            ++ "onclick=\"selectRescheduleTime(\x272026-11-09T10:00\x27)\">\n      "
            ++ "10:00 AM\n    </button>\n  " := by
  decide

/-! ## The buttons in the markup of the time slots -/

theorem foldl_append_data (pieces : List String) :
    ∀ acc : String,
      (pieces.foldl (fun html piece => html ++ piece) acc).data
        = acc.data ++ (pieces.foldl (fun html piece => html ++ piece) "").data := by
  induction pieces with
  | nil =>
    intro acc
    simp
  | cons p ps ih =>
    intro acc
    simp only [List.foldl_cons]
    rw [ih (acc ++ p), ih ("" ++ p)]
    simp [String.data_append, List.append_assoc]

theorem countSplits_foldl_append (pat : List Char) (pieces : List String)
    (h : ∀ p ∈ pieces, countSplits pat 0 p.data = 1
      ∧ ∀ s ∈ p.data.tails, s ≠ [] → ¬ s <+: pat) :
    countSplits pat 0 (pieces.foldl (fun html piece => html ++ piece) "").data
      = pieces.length := by
  induction pieces with
  | nil => cases pat <;> rfl
  | cons p ps ih =>
    have e : ((p :: ps).foldl (fun html piece => html ++ piece) "").data
        = p.data ++ (ps.foldl (fun html piece => html ++ piece) "").data := by
      simp only [List.foldl_cons]
      rw [foldl_append_data ps ("" ++ p)]
      simp [String.data_append]
    rw [e, countSplits_one_append _ (h p (List.mem_cons_self _ _)),
      ih (fun p2 hp2 => h p2 (List.mem_cons_of_mem _ hp2))]
    simp only [List.length_cons]
    omega

theorem countSplits_slotButtonHtml (s : AppState) (slot : Slot)
    (h1 : '<' ∉ slot.datetime.data) (h2 : '<' ∉ slot.time.data) :
    countSplits "<button".data 0 (slotButtonHtml s slot).data = 1
      ∧ ∀ x ∈ (slotButtonHtml s slot).data.tails, x ≠ [] → ¬ x <+: "<button".data := by
  have hq1 := @quiet_of_not_mem '<' "button".data _ h1
  have hq2 := @quiet_of_not_mem '<' "button".data _ h2
  constructor
  · unfold slotButtonHtml
    split_ifs <;>
      simp only [String.data_append, List.append_assoc] <;>
      rw [countSplits_one_append _ (by decide), countSplits_quiet_append _ (by decide),
        countSplits_quiet_append _ (by decide), countSplits_quiet_append _ hq1,
        countSplits_quiet_append _ (by decide), countSplits_quiet_append _ hq2] <;>
      decide
  · unfold slotButtonHtml
    rw [String.data_append]
    have e : "\n    </button>\n  ".data = "\n    </button>\n ".data ++ [' '] := rfl
    rw [e, ← List.append_assoc]
    exact tails_of_last (by decide) _

/-- For slots whose datetime and display time hold no `<`, the markup of
`renderRescheduleTimeSlots` is the markup of the slots in the order of the
list, and it opens one button element per slot. -/
theorem renderRescheduleTimeSlots_button_count (s : AppState) (slots : List Slot)
    (hne : slots ≠ [])
    (h : ∀ slot ∈ slots, '<' ∉ slot.datetime.data ∧ '<' ∉ slot.time.data) :
    renderRescheduleTimeSlots s slots
        = (slots.map (slotButtonHtml s)).foldl (fun html piece => html ++ piece) ""
      ∧ countSplits "<button".data 0 (renderRescheduleTimeSlots s slots).data
          = slots.length := by
  have hl : slots.length ≠ 0 := fun e => hne (List.length_eq_zero.mp e)
  have e : renderRescheduleTimeSlots s slots
      = (slots.map (slotButtonHtml s)).foldl (fun html piece => html ++ piece) "" := by
    simp only [renderRescheduleTimeSlots, hl, if_false]
  refine ⟨e, ?_⟩
  rw [e, countSplits_foldl_append, List.length_map]
  intro p hp
  obtain ⟨slot, hs, rfl⟩ := List.mem_map.mp hp
  exact countSplits_slotButtonHtml s slot (h slot hs).1 (h slot hs).2

end MedSchedule
